import Mathlib

/-!
# quickjs_wrapper: the marshaling adapters

A shallow embedding of the call adapters of `include/quickjs/module.hpp`
(`Module::FreeFunctionWrapper`, `detail::ConstructorWrapper`, the constructor
wrapper lambda of `ClassBuilder::constructor`, `ClassBuilder::MemberFunctionWrapper`
and `ClassBuilder::MemberPropertyWrapper`) and of the converters of
`include/quickjs/type_converter.hpp` they are instantiated with.

* Engine values are `JSValue`; the part of the engine state the adapters touch
  (object headers with class id, reference count and payload pointer, and the
  pending exception) is `JSContext`.
* The native heap (`NativeHeap`) holds the instances created by `new T(...)` and
  the indirection cells created by `new T*(obj)`.
* C++ code that may throw returns `Except CppException _` next to the state it
  leaves behind; a `noexcept` adapter returns an `Outcome`.
* `World.conversions` and `World.calls` are ghost histories: every evaluation of
  `TypeConverter<...>::from_js(ctx, argv[i])` made by an adapter and every
  invocation of the bound native callable is appended to them.
* The handle `js::Value`, `js::Context` (`eval`, the exception callback, the
  global constants, destruction) and `js::Module` with `ClassBuilder`
  (export lists, the resolution callback, class identifiers, the finalizer) are
  embedded the same way, each over the part of the process state it touches
  (`ModuleWorld`, `ClassWorld`, `BuilderWorld`); the calls a destructor makes
  are returned as a list of `LifecycleEvent`.
-/

namespace js

/-! ## Engine values and engine state -/

abbrev JSClassID := Nat

/-- A native pointer; `0` is `nullptr`. -/
abbrev Ptr := Nat

/-- An IEEE binary64 (`double`), by the number it denotes; the sign of zero is
not kept. -/
inductive Double where
  | nan
  | inf (negative : Bool)
  | finite (q : ℚ)
deriving DecidableEq, Repr

/-- Engine values, by tag. `exception` is the signal `JS_EXCEPTION`; `int` is a
number held as a 32-bit integer, `float64` a number held as a double;
`uninitialized` is `JS_UNINITIALIZED`, which the runtime keeps in place of a
pending exception when there is none. -/
inductive JSValue where
  | undefined
  | null
  | exception
  | bool (b : Bool)
  | int (n : Int)
  | float64 (d : Double)
  | string (s : String)
  | symbol (id : Nat)
  | object (ref : Nat)
  | uninitialized
deriving DecidableEq, Repr

/-- The exception pending in a context. -/
inductive JSError where
  | TypeError (msg : String)
  | InternalError (msg : String)
  | thrown (v : JSValue)
deriving DecidableEq, Repr

/-- An own data property of an object: name, value and the flags it was defined
with (`JS_PROP_CONFIGURABLE`, `JS_PROP_WRITABLE`, `JS_PROP_ENUMERABLE`). -/
structure JSProperty where
  name : String
  value : JSValue
  flags : Nat
deriving DecidableEq, Repr

/-- An engine object: class id, reference count, the pointer stored by
`JS_SetOpaque` (`0` when none was attached), its indexed elements (the
elements of an array; empty for the other objects here), and the named data
properties defined on it. -/
structure JSObject where
  class_id : JSClassID
  ref_count : Nat
  payload : Ptr
  items : List JSValue := []
  props : List JSProperty := []
deriving DecidableEq, Repr

/-- Engine state seen through a `JSContext*`. An object value `object r` denotes
`objects[r]`; an object whose reference count is `0` is no longer referenced and
is left to the engine's finalization. -/
structure JSContext where
  objects : List JSObject
  current_exception : Option JSError
  out_of_memory : Bool
deriving DecidableEq, Repr

def JS_IsException (v : JSValue) : Bool :=
  match v with
  | .exception => true
  | _ => false

/-- Apply `f` to the `n`-th object header. -/
def modify_object (f : JSObject → JSObject) : Nat → List JSObject → List JSObject
  | _, [] => []
  | 0, o :: os => f o :: os
  | n + 1, o :: os => o :: modify_object f n os

def JS_ThrowTypeError (c : JSContext) (msg : String) : JSValue × JSContext :=
  (.exception, { c with current_exception := some (.TypeError msg) })

def JS_ThrowInternalError (c : JSContext) (msg : String) : JSValue × JSContext :=
  (.exception, { c with current_exception := some (.InternalError msg) })

def JS_DupValue (c : JSContext) (v : JSValue) : JSContext :=
  match v with
  | .object r =>
    { c with objects := modify_object (fun o => { o with ref_count := o.ref_count + 1 }) r c.objects }
  | _ => c

def JS_FreeValue (c : JSContext) (v : JSValue) : JSContext :=
  match v with
  | .object r =>
    { c with objects := modify_object (fun o => { o with ref_count := o.ref_count - 1 }) r c.objects }
  | _ => c

/-- Class id of a value: that of the object header, `0` (invalid) otherwise. -/
def JS_GetClassID (c : JSContext) (v : JSValue) : JSClassID :=
  match v with
  | .object r =>
    match c.objects[r]? with
    | some o => o.class_id
    | none => 0
  | _ => 0

/-- Payload of `v` if `v` is an object of class `class_id`, `nullptr` otherwise. -/
def JS_GetOpaque (c : JSContext) (v : JSValue) (class_id : JSClassID) : Ptr :=
  match v with
  | .object r =>
    match c.objects[r]? with
    | some o => if o.class_id = class_id then o.payload else 0
    | none => 0
  | _ => 0

def JS_SetOpaque (c : JSContext) (v : JSValue) (p : Ptr) : JSContext :=
  match v with
  | .object r => { c with objects := modify_object (fun o => { o with payload := p }) r c.objects }
  | _ => c

/-- Allocate an object of class `class_id` with prototype `proto`: one reference,
no payload. The new object keeps its own reference to `proto`. Fails with the
exception signal when the engine is out of memory. -/
def JS_NewObjectProtoClass (c : JSContext) (proto : JSValue) (class_id : JSClassID) :
    JSValue × JSContext :=
  if c.out_of_memory then
    (.exception, { c with current_exception := some (.InternalError "out of memory") })
  else
    (.object c.objects.length,
      { JS_DupValue c proto with
        objects := (JS_DupValue c proto).objects ++ [{ class_id := class_id, ref_count := 1, payload := 0 }] })

def JS_NewInt32 (n : Int) : JSValue := .int n

/-! ## Native values, exceptions and heap -/

/-- What a `catch` clause can tell apart: `catch (const std::exception& e)` sees
`std_exception e.what()`, only `catch (...)` sees `unknown`. -/
inductive CppException where
  | std_exception (what : String)
  | unknown
deriving DecidableEq, Repr

/-- Native values of the types the converters serve. `rest elems` is a
`js::rest<T>` holding `elems`, `optional o` a `std::optional<T>`, `vector elems`
a `std::vector<T>`; integers of every width are `int`. -/
inductive CppValue where
  | void
  | int (n : Int)
  | bool (b : Bool)
  | string (s : String)
  | js (v : JSValue)
  | rest (elems : List CppValue)
  | double (d : Double)
  | optional (o : Option CppValue)
  | vector (elems : List CppValue)

/-- A native instance: its dynamic type and its data members, by position. -/
structure Instance where
  type_id : Nat
  fields : List CppValue

/-- Live native objects: instances (`T*`) and indirection cells (`T**`), each
keyed by address; `next` is the last address handed out. -/
structure NativeHeap where
  instances : List (Ptr × Instance)
  cells : List (Ptr × Ptr)
  next : Ptr

/-- `new T(...)`: a fresh non-null address holding `inst`. -/
def NativeHeap.new_instance (h : NativeHeap) (inst : Instance) : Ptr × NativeHeap :=
  (h.next + 1, { h with instances := (h.next + 1, inst) :: h.instances, next := h.next + 1 })

/-- `new T*(obj)`: a fresh non-null address holding the pointer `obj`. -/
def NativeHeap.new_cell (h : NativeHeap) (obj : Ptr) : Ptr × NativeHeap :=
  (h.next + 1, { h with cells := (h.next + 1, obj) :: h.cells, next := h.next + 1 })

/-- Write back the instance at address `p`. -/
def NativeHeap.store (h : NativeHeap) (p : Ptr) (inst : Instance) : NativeHeap :=
  { h with instances := h.instances.map (fun e => if e.1 = p then (p, inst) else e) }

structure World where
  ctx : JSContext
  heap : NativeHeap
  conversions : List (Nat × JSValue)
  calls : List (Ptr × List CppValue)

/-- Result of a `noexcept` adapter. -/
inductive Outcome where
  | returned (v : JSValue)
  | terminated
  | undefined_behavior
deriving DecidableEq, Repr

/-- The engine pads the argument buffer of a C function with `undefined` up to
the length it was registered with, and every adapter is registered with its
arity, so `argv[i]` past the supplied arguments reads `undefined`. -/
def argv_at (argv : List JSValue) (i : Nat) : JSValue := argv.getD i .undefined

/-! ## Converters (`type_converter.hpp`) -/

/-- The pair `TypeConverter<T>::to_js` / `TypeConverter<T>::from_js` of one native
type `T`. `from_js` either returns the native value or throws; both may change
the engine state. -/
structure TypeConverter where
  to_js : JSContext → CppValue → JSValue × JSContext
  from_js : JSContext → JSValue → Except CppException CppValue × JSContext

/-- `TypeConverter<int32_t>`. The engine coercion `JS_ToInt32` is a parameter:
it yields the coerced integer, or `none` when it reports failure (a negative
return code). -/
def TypeConverter_int32 (JS_ToInt32 : JSContext → JSValue → Option Int × JSContext) :
    TypeConverter where
  to_js c value :=
    match value with
    | .int n => (JS_NewInt32 n, c)
    | _ => (.undefined, c)
  from_js c value :=
    match JS_ToInt32 c value with
    | (some result, c1) => (.ok (.int result), c1)
    | (none, c1) => (.error (.std_exception "Failed to convert to int32"), c1)

/-- `TypeConverter<rest<T>>`, from the converter `elem` of `T`: `to_js` yields
`undefined`, `from_js` a collection holding the single converted value. -/
def TypeConverter_rest (elem : TypeConverter) : TypeConverter where
  to_js c _ := (.undefined, c)
  from_js c value :=
    match elem.from_js c value with
    | (.ok x, c1) => (.ok (.rest [x]), c1)
    | (.error e, c1) => (.error e, c1)

/-! ## Engine numbers and strings

The engine's constructors and coercions for numbers and strings, on the tags
where they need no script code. A coercion of any other value runs the engine's
generic conversion (which may call script code and may throw); that part is the
parameter `slow`. A coercion yields `none` when it reports failure. -/

/-- Wrap into the range of a signed two's-complement integer of `bits` bits. -/
def wrap_signed (bits : Nat) (n : Int) : Int :=
  (n + 2 ^ (bits - 1)) % 2 ^ bits - 2 ^ (bits - 1)

/-- Wrap into the range of an unsigned integer of `bits` bits. -/
def wrap_unsigned (bits : Nat) (n : Int) : Int := n % 2 ^ bits

/-- The natural number a `double` holds after `(double)n`: `n` rounded to 53
significant bits, to nearest, ties to even. `n.size - 53` low bits are dropped. -/
def round_to_binary64 (n : Nat) : Nat :=
  if 2 * (n % 2 ^ (n.size - 53)) < 2 ^ (n.size - 53) then
    n / 2 ^ (n.size - 53) * 2 ^ (n.size - 53)
  else if 2 * (n % 2 ^ (n.size - 53)) = 2 ^ (n.size - 53) ∧ n / 2 ^ (n.size - 53) % 2 = 0 then
    n / 2 ^ (n.size - 53) * 2 ^ (n.size - 53)
  else
    (n / 2 ^ (n.size - 53) + 1) * 2 ^ (n.size - 53)

/-- The integer a `double` holds after `(double)v`. -/
def int_to_double (v : Int) : Int :=
  if 0 ≤ v then (round_to_binary64 v.natAbs : Int) else -(round_to_binary64 v.natAbs : Int)

/-- Truncation toward zero of a finite double; `none` for NaN and the infinities. -/
def Double.trunc : Double → Option Int
  | .finite q => some (if 0 ≤ q then ⌊q⌋ else -⌊-q⌋)
  | _ => none

/-- The engine's conversion of a double to a 32-bit integer: truncate and wrap;
`0` for NaN and the infinities. -/
def Double.to_int32 (d : Double) : Int :=
  match d.trunc with
  | some t => wrap_signed 32 t
  | none => 0

/-- The engine's conversion of a double to a 64-bit integer: truncate and wrap;
`0` for NaN and the infinities. -/
def Double.to_int64 (d : Double) : Int :=
  match d.trunc with
  | some t => wrap_signed 64 t
  | none => 0

/-- `JS_NewInt64`: an `int` when the value fits 32 bits, a double otherwise. -/
def JS_NewInt64 (v : Int) : JSValue :=
  if -2 ^ 31 ≤ v ∧ v < 2 ^ 31 then .int v else .float64 (.finite (int_to_double v))

/-- `JS_NewUint32`: an `int` up to `0x7fffffff`, a double above. -/
def JS_NewUint32 (v : Int) : JSValue :=
  if v ≤ 2 ^ 31 - 1 then .int v else .float64 (.finite (int_to_double v))

def JS_NewBool (b : Bool) : JSValue := .bool b

/-- `JS_NewStringLen(ctx, buf, len)` on valid UTF-8: the engine string with these
characters. -/
def JS_NewStringLen (s : String) : JSValue := .string s

def JS_ToInt32 (slow : JSContext → JSValue → Option Int × JSContext)
    (c : JSContext) (v : JSValue) : Option Int × JSContext :=
  match v with
  | .int n => (some n, c)
  | .bool b => (some (if b then 1 else 0), c)
  | .null => (some 0, c)
  | .undefined => (some 0, c)
  | .float64 d => (some d.to_int32, c)
  | .exception => (none, c)
  | _ => slow c v

def JS_ToInt64 (slow : JSContext → JSValue → Option Int × JSContext)
    (c : JSContext) (v : JSValue) : Option Int × JSContext :=
  match v with
  | .int n => (some n, c)
  | .bool b => (some (if b then 1 else 0), c)
  | .null => (some 0, c)
  | .undefined => (some 0, c)
  | .float64 d => (some d.to_int64, c)
  | .exception => (none, c)
  | _ => slow c v

/-- `JS_ToUint32` is `JS_ToInt32` storing through a `uint32_t*`. -/
def JS_ToUint32 (slow : JSContext → JSValue → Option Int × JSContext)
    (c : JSContext) (v : JSValue) : Option Int × JSContext :=
  match JS_ToInt32 slow c v with
  | (some n, c1) => (some (wrap_unsigned 32 n), c1)
  | (none, c1) => (none, c1)

/-- `JS_ToCString`: the characters of the NUL-terminated UTF-8 buffer the engine
returns (`none` for a null pointer). An engine string yields its own
characters, a NUL character among them included. -/
def JS_ToCString (slow : JSContext → JSValue → Option String × JSContext)
    (c : JSContext) (v : JSValue) : Option String × JSContext :=
  match v with
  | .string s => (some s, c)
  | .exception => (none, c)
  | _ => slow c v

def JS_IsNull (v : JSValue) : Bool :=
  match v with
  | .null => true
  | _ => false

def JS_IsUndefined (v : JSValue) : Bool :=
  match v with
  | .undefined => true
  | _ => false

/-! ## Integer types and the remaining converters (`type_converter.hpp`) -/

/-- `QUICKJS_USE_EXCEPTION` of `macros.hpp`. -/
def QUICKJS_USE_EXCEPTION : Bool := true

/-- A C++ integer type: width in bits and signedness. -/
structure IntegerType where
  bits : Nat
  is_signed : Bool
deriving DecidableEq, Repr

/-- The values of an integer type. -/
def IntegerType.holds (T : IntegerType) (v : Int) : Prop :=
  if T.is_signed then -2 ^ (T.bits - 1) ≤ v ∧ v < 2 ^ (T.bits - 1) else 0 ≤ v ∧ v < 2 ^ T.bits

/-- `static_cast<T>(v)` between integer types. -/
def static_cast (T : IntegerType) (v : Int) : Int :=
  if T.is_signed then wrap_signed T.bits v else wrap_unsigned T.bits v

def int32_t : IntegerType := { bits := 32, is_signed := true }
def int64_t : IntegerType := { bits := 64, is_signed := true }
def uint32_t : IntegerType := { bits := 32, is_signed := false }

/-- `TypeConverter<int64_t>`. -/
def TypeConverter_int64 (JS_ToInt64 : JSContext → JSValue → Option Int × JSContext) :
    TypeConverter where
  to_js c value :=
    match value with
    | .int n => (JS_NewInt64 n, c)
    | _ => (.undefined, c)
  from_js c value :=
    match JS_ToInt64 c value with
    | (some result, c1) => (.ok (.int result), c1)
    | (none, c1) => (.error (.std_exception "Failed to convert to int64"), c1)

/-- `TypeConverter<uint32_t>`. -/
def TypeConverter_uint32 (JS_ToUint32 : JSContext → JSValue → Option Int × JSContext) :
    TypeConverter where
  to_js c value :=
    match value with
    | .int n => (JS_NewUint32 n, c)
    | _ => (.undefined, c)
  from_js c value :=
    match JS_ToUint32 c value with
    | (some result, c1) => (.ok (.int result), c1)
    | (none, c1) => (.error (.std_exception "Failed to convert to uint32"), c1)

/-- `TypeConverter<double>`. `JS_NewFloat64` and the coercion `JS_ToFloat64` are
parameters. After a failed coercion the function throws when `exceptions` is
set (`QUICKJS_IF_EXCEPTIONS`), and otherwise returns `result` as the failed
coercion left it, which is the parameter `failed`. Diagnostic output is not
modelled. -/
def TypeConverter_double (JS_NewFloat64 : Double → JSValue)
    (JS_ToFloat64 : JSContext → JSValue → Option Double × JSContext)
    (exceptions : Bool) (failed : Double) : TypeConverter where
  to_js c value :=
    match value with
    | .double d => (JS_NewFloat64 d, c)
    | _ => (.undefined, c)
  from_js c value :=
    match JS_ToFloat64 c value with
    | (some result, c1) => (.ok (.double result), c1)
    | (none, c1) =>
      if exceptions then (.error (.std_exception "Failed to convert to double"), c1)
      else (.ok (.double failed), c1)

/-- `TypeConverter<bool>`. `JS_ToBool` returns `1`, `0`, or `-1` on error. -/
def TypeConverter_bool (JS_ToBool : JSContext → JSValue → Int × JSContext) : TypeConverter where
  to_js c value :=
    match value with
    | .bool b => (JS_NewBool b, c)
    | _ => (.undefined, c)
  from_js c value :=
    match JS_ToBool c value with
    | (code, c1) => (.ok (.bool (decide (code ≠ 0))), c1)

/-- The generic `TypeConverter<IntegerType>` of the integral types without a
specialisation of their own. `sizeof(IntegerType) <= sizeof(int32_t)` is
`T.bits ≤ 32`. After a failed coercion it throws when `exceptions` is set, and
otherwise casts `result` as the failed coercion left it (`failed`). -/
def TypeConverter_integral (T : IntegerType)
    (JS_ToInt32 JS_ToInt64 : JSContext → JSValue → Option Int × JSContext)
    (exceptions : Bool) (failed : Int) : TypeConverter where
  to_js c value :=
    match value with
    | .int n =>
      if T.bits ≤ 32 then (JS_NewInt32 (static_cast int32_t n), c)
      else (JS_NewInt64 (static_cast int64_t n), c)
    | _ => (.undefined, c)
  from_js c value :=
    if T.bits ≤ 32 then
      match JS_ToInt32 c value with
      | (some result, c1) => (.ok (.int (static_cast T result)), c1)
      | (none, c1) =>
        if exceptions then (.error (.std_exception "Failed to convert to integer"), c1)
        else (.ok (.int (static_cast T failed)), c1)
    else
      match JS_ToInt64 c value with
      | (some result, c1) => (.ok (.int (static_cast T result)), c1)
      | (none, c1) =>
        if exceptions then (.error (.std_exception "Failed to convert to integer"), c1)
        else (.ok (.int (static_cast T failed)), c1)

/-- `TypeConverter<std::optional<T>>`, from the converter of `T`. -/
def TypeConverter_optional (T : TypeConverter) : TypeConverter where
  to_js c value :=
    match value with
    | .optional (some v) => T.to_js c v
    | .optional none => (.null, c)
    | _ => (.undefined, c)
  from_js c value :=
    if JS_IsNull value || JS_IsUndefined value then
      (.ok (.optional none), c)
    else
      match T.from_js c value with
      | (.ok x, c1) => (.ok (.optional (some x)), c1)
      | (.error e, c1) => (.error e, c1)

/-- `strlen` on the buffer `JS_ToCString` returns: what precedes the first NUL.
Characters are counted rather than bytes; this selects the same prefix, since
in UTF-8 the NUL byte occurs only as the NUL character. -/
def strlen (s : String) : Nat :=
  (s.toList.takeWhile (fun ch => ch ≠ Char.ofNat 0)).length

/-- `js::JSString` (`js_string.hpp`): the buffer obtained from the engine
(`none` for a null pointer) and its length. -/
structure JSString where
  str : Option String
  len : Nat

/-- The constructor `JSString(ctx, value)`: `str(JS_ToCString(ctx, value)), len(0)`,
then `if (str) len = strlen(str)`. -/
def JSString.new (JS_ToCString : JSContext → JSValue → Option String × JSContext)
    (c : JSContext) (value : JSValue) : JSString × JSContext :=
  match JS_ToCString c value with
  | (some s, c1) => ({ str := some s, len := strlen s }, c1)
  | (none, c1) => ({ str := none, len := 0 }, c1)

/-- `empty()`: `!str || len == 0`. -/
def JSString.empty (j : JSString) : Bool :=
  match j.str with
  | none => true
  | some _ => j.len == 0

/-- `operator std::string()`: `empty() ? "" : std::string(str, len)`. -/
def JSString.to_std_string (j : JSString) : String :=
  if j.empty then ""
  else
    match j.str with
    | some s => String.mk (s.toList.take j.len)
    | none => ""

/-- `TypeConverter<std::string>`. -/
def TypeConverter_string (JS_ToCString : JSContext → JSValue → Option String × JSContext) :
    TypeConverter where
  to_js c value :=
    match value with
    | .string s => (JS_NewStringLen s, c)
    | _ => (.undefined, c)
  from_js c value :=
    match JSString.new JS_ToCString c value with
    | (str, c1) => (.ok (.string str.to_std_string), c1)

/-- A declared parameter type after `remove_cvref_t`: either a type with its own
converter, or `rest<T>` given by the converter of `T`; `is_rest_v` holds of the
second form, whose `value_type` is `T`. -/
inductive ParamType where
  | plain (tc : TypeConverter)
  | rest (elem : TypeConverter)

/-- The `TypeConverter` specialisation selected for a parameter type. -/
def ParamType.converter : ParamType → TypeConverter
  | .plain tc => tc
  | .rest elem => TypeConverter_rest elem

/-- The pack expansion `TypeConverter<ArgType<Is>>::from_js(ctx, argv[Is])...`
for `Is = i, i+1, ...` over the remaining parameter types. C++ leaves the order
in which the arguments of a call are evaluated unspecified; they are taken left
to right here. The first conversion that throws ends it. -/
def from_js_pack : List ParamType → Nat → List JSValue → World →
    Except CppException (List CppValue) × World
  | [], _, _, w => (.ok [], w)
  | p :: ps, i, argv, w =>
    match p.converter.from_js w.ctx (argv_at argv i) with
    | (.error e, c) =>
      (.error e, { w with ctx := c, conversions := w.conversions ++ [(i, argv_at argv i)] })
    | (.ok v, c) =>
      match from_js_pack ps (i + 1) argv
          { w with ctx := c, conversions := w.conversions ++ [(i, argv_at argv i)] } with
      | (.error e, w1) => (.error e, w1)
      | (.ok vs, w1) => (.ok (v :: vs), w1)

/-- The loop `for (i = 0; i < argc; ++i) args.push_back(from_js(ctx, argv[i]))`
over the supplied arguments still to visit, `args` being the collection built so
far. -/
def push_back_loop (elem : TypeConverter) : List JSValue → Nat → List CppValue → World →
    Except CppException (List CppValue) × World
  | [], _, args, w => (.ok args, w)
  | a :: rest, i, args, w =>
    match elem.from_js w.ctx a with
    | (.error e, c) => (.error e, { w with ctx := c, conversions := w.conversions ++ [(i, a)] })
    | (.ok v, c) =>
      push_back_loop elem rest (i + 1) (args ++ [v])
        { w with ctx := c, conversions := w.conversions ++ [(i, a)] }

/-! ## `Module::FreeFunctionWrapper<Func>` -/

/-- A registered free function: `FunctionTraits<decltype(Func)>` (return type,
`none` for `void`, and parameter types) and the native callable. -/
structure FreeFunction where
  ReturnType : Option TypeConverter
  Args : List ParamType
  Func : List CppValue → Except CppException CppValue

/-- Invoke `Func(args...)` and convert the result: `undefined` for a `void`
return type, `TypeConverter<ReturnType>::to_js` otherwise. -/
def FreeFunctionWrapper.apply (F : FreeFunction) (args : List CppValue) (w : World) :
    Except CppException JSValue × World :=
  match F.Func args with
  | .error e => (.error e, { w with calls := w.calls ++ [(0, args)] })
  | .ok r =>
    match F.ReturnType with
    | none => (.ok .undefined, { w with calls := w.calls ++ [(0, args)] })
    | some tc =>
      (.ok (tc.to_js w.ctx r).1,
        { w with ctx := (tc.to_js w.ctx r).2, calls := w.calls ++ [(0, args)] })

def FreeFunctionWrapper.invoke_impl (F : FreeFunction) (argv : List JSValue) (w : World) :
    Except CppException JSValue × World :=
  match from_js_pack F.Args 0 argv w with
  | (.error e, w1) => (.error e, w1)
  | (.ok args, w1) => FreeFunctionWrapper.apply F args w1

/-- `invoke(ctx, argc, argv)`, with `argc = argv.length`. -/
def FreeFunctionWrapper.invoke (F : FreeFunction) (argv : List JSValue) (w : World) :
    Except CppException JSValue × World :=
  match F.Args with
  | [] => FreeFunctionWrapper.apply F [] w
  | [.rest elem] =>
    match push_back_loop elem argv 0 [] w with
    | (.error e, w1) => (.error e, w1)
    | (.ok args, w1) => FreeFunctionWrapper.apply F [.rest args] w1
  | _ => FreeFunctionWrapper.invoke_impl F argv w

/-- `call(ctx, this_val, argc, argv) noexcept`: `try { return invoke(...); }
catch (...) { return JS_EXCEPTION; }`. -/
def FreeFunctionWrapper.call (F : FreeFunction) (argv : List JSValue) (w : World) :
    JSValue × World :=
  match FreeFunctionWrapper.invoke F argv w with
  | (.ok v, w1) => (v, w1)
  | (.error _, w1) => (.exception, w1)

/-! ## `detail::ConstructorWrapper<T, Args...>` and the constructor wrapper -/

/-- A registered constructor `T(Args...)`: parameter types and the native
constructor, which yields the new instance or throws. -/
structure Constructor where
  Args : List ParamType
  ctor : List CppValue → Except CppException Instance

/-- `new T(args...)`. -/
def ConstructorWrapper.new_T (K : Constructor) (args : List CppValue) (w : World) :
    Except CppException Ptr × World :=
  match K.ctor args with
  | .error e => (.error e, w)
  | .ok inst => (.ok (w.heap.new_instance inst).1, { w with heap := (w.heap.new_instance inst).2 })

def ConstructorWrapper.create_impl (K : Constructor) (argv : List JSValue) (w : World) :
    Except CppException Ptr × World :=
  match from_js_pack K.Args 0 argv w with
  | (.error e, w1) => (.error e, w1)
  | (.ok args, w1) => ConstructorWrapper.new_T K args w1

/-- `create(ctx, argc, argv)`, with `argc = argv.length`; the specialisation for
an empty parameter pack constructs without looking at the arguments. -/
def ConstructorWrapper.create (K : Constructor) (argv : List JSValue) (w : World) :
    Except CppException Ptr × World :=
  match K.Args with
  | [] => ConstructorWrapper.new_T K [] w
  | _ :: _ =>
    if argv.length < K.Args.length then
      (.ok 0,
        { w with ctx := (JS_ThrowTypeError w.ctx
            ("Expected " ++ toString K.Args.length ++ " arguments but received "
              ++ toString argv.length)).2 })
    else ConstructorWrapper.create_impl K argv w

/-- The lambda `wrapper` of `ClassBuilder<T>::constructor<Args...>`. The property
lookup `JS_GetProperty(ctx, this_val, "prototype")` is a parameter; `class_id`
is `detail::ClassIDHolder<T>::class_id`. -/
def ClassBuilder.constructor_wrapper
    (JS_GetProperty : JSContext → JSValue → String → JSValue × JSContext)
    (class_id : JSClassID) (K : Constructor)
    (this_val : JSValue) (argv : List JSValue) (w : World) : JSValue × World :=
  match JS_GetProperty w.ctx this_val "prototype" with
  | (proto, c1) =>
    if JS_IsException proto then
      (.exception, { w with ctx := JS_FreeValue c1 proto })
    else
      match JS_NewObjectProtoClass c1 proto class_id with
      | (jsobj, c2) =>
        if JS_IsException jsobj then
          (jsobj, { w with ctx := JS_FreeValue c2 proto })
        else
          match ConstructorWrapper.create K argv { w with ctx := JS_FreeValue c2 proto } with
          | (.ok obj, w1) =>
            if obj = 0 then
              (.exception, { w1 with ctx := JS_FreeValue w1.ctx jsobj })
            else
              (jsobj,
                { w1 with
                  ctx := JS_SetOpaque w1.ctx jsobj (w1.heap.new_cell obj).1,
                  heap := (w1.heap.new_cell obj).2 })
          | (.error (.std_exception what), w1) =>
            (.exception,
              { w1 with ctx := (JS_ThrowInternalError w1.ctx ("Constructor failed: " ++ what)).2 })
          | (.error .unknown, w1) =>
            (.exception,
              { w1 with ctx := (JS_ThrowInternalError w1.ctx
                  "Constructor failed: unknown exception").2 })

/-! ## `ClassBuilder<T>::MemberFunctionWrapper<ClassType, Member>` -/

/-- A bound member function: return type (`none` for `void`), parameter types,
and the native member function, which acts on the instance it is invoked on. -/
structure MemberFunction where
  ReturnType : Option TypeConverter
  Args : List ParamType
  Member : Instance → List CppValue → Except CppException CppValue × Instance

/-- Invoke `(obj->*Member)(args...)`, `inst` being the instance at `obj`, and
convert the result: `undefined` for a `void` return type,
`TypeConverter<ReturnType>::to_js` otherwise. -/
def MemberFunctionWrapper.apply (M : MemberFunction) (obj : Ptr) (inst : Instance)
    (args : List CppValue) (w : World) : Except CppException JSValue × World :=
  match M.Member inst args with
  | (.error e, inst1) =>
    (.error e, { w with heap := w.heap.store obj inst1, calls := w.calls ++ [(obj, args)] })
  | (.ok r, inst1) =>
    match M.ReturnType with
    | none =>
      (.ok .undefined, { w with heap := w.heap.store obj inst1, calls := w.calls ++ [(obj, args)] })
    | some tc =>
      (.ok (tc.to_js w.ctx r).1,
        { w with
          ctx := (tc.to_js w.ctx r).2,
          heap := w.heap.store obj inst1,
          calls := w.calls ++ [(obj, args)] })

def MemberFunctionWrapper.invoke_impl (M : MemberFunction) (obj : Ptr) (inst : Instance)
    (argv : List JSValue) (w : World) : Except CppException JSValue × World :=
  match from_js_pack M.Args 0 argv w with
  | (.error e, w1) => (.error e, w1)
  | (.ok args, w1) => MemberFunctionWrapper.apply M obj inst args w1

/-- `invoke(ctx, obj, argc, argv)`; the argument count is not looked at. -/
def MemberFunctionWrapper.invoke (M : MemberFunction) (obj : Ptr) (inst : Instance)
    (argv : List JSValue) (w : World) : Except CppException JSValue × World :=
  match M.Args with
  | [] => MemberFunctionWrapper.apply M obj inst [] w
  | _ :: _ => MemberFunctionWrapper.invoke_impl M obj inst argv w

/-- `call(ctx, this_val, argc, argv) noexcept`. Reading `*pptr` or `*obj` where no
live cell or instance is stored is undefined behaviour. -/
def MemberFunctionWrapper.call (M : MemberFunction) (this_val : JSValue)
    (argv : List JSValue) (w : World) : Outcome × World :=
  if JS_GetOpaque w.ctx this_val (JS_GetClassID w.ctx this_val) = 0 then
    (.returned (JS_ThrowTypeError w.ctx "Invalid C++ object").1,
      { w with ctx := (JS_ThrowTypeError w.ctx "Invalid C++ object").2 })
  else
    match w.heap.cells.lookup (JS_GetOpaque w.ctx this_val (JS_GetClassID w.ctx this_val)) with
    | none => (.undefined_behavior, w)
    | some obj =>
      if obj = 0 then
        (.returned (JS_ThrowTypeError w.ctx "Invalid C++ object").1,
          { w with ctx := (JS_ThrowTypeError w.ctx "Invalid C++ object").2 })
      else
        match w.heap.instances.lookup obj with
        | none => (.undefined_behavior, w)
        | some inst =>
          match MemberFunctionWrapper.invoke M obj inst argv w with
          | (.ok v, w1) => (.returned v, w1)
          | (.error (.std_exception what), w1) =>
            (.returned .exception,
              { w1 with ctx := (JS_ThrowInternalError w1.ctx ("C++ exception: " ++ what)).2 })
          | (.error .unknown, w1) =>
            (.returned .exception,
              { w1 with ctx := (JS_ThrowInternalError w1.ctx "Unknown C++ exception").2 })

/-! ## `ClassBuilder<T>::MemberPropertyWrapper<ClassType, Member>` -/

def MemberPropertyWrapper.get_pptr (c : JSContext) (this_val : JSValue) : Ptr :=
  JS_GetOpaque c this_val (JS_GetClassID c this_val)

/-- `getter(ctx, this_val, argc, argv) noexcept` for the data member at position
`Member`, whose type has the converter `tc`. -/
def MemberPropertyWrapper.getter (tc : TypeConverter) (Member : Nat) (this_val : JSValue)
    (w : World) : Outcome × World :=
  if MemberPropertyWrapper.get_pptr w.ctx this_val = 0 then
    (.returned .undefined, w)
  else
    match w.heap.cells.lookup (MemberPropertyWrapper.get_pptr w.ctx this_val) with
    | none => (.undefined_behavior, w)
    | some obj =>
      if obj = 0 then
        (.returned .undefined, w)
      else
        match w.heap.instances.lookup obj with
        | none => (.undefined_behavior, w)
        | some inst =>
          match inst.fields[Member]? with
          | none => (.undefined_behavior, w)
          | some val => (.returned (tc.to_js w.ctx val).1, { w with ctx := (tc.to_js w.ctx val).2 })

/-- `setter(ctx, this_val, argc, argv) noexcept` for the data member at position
`Member`, whose type has the converter `tc`. There is no handler around the
conversion, so an exception thrown by `from_js` leaves a `noexcept` function. -/
def MemberPropertyWrapper.setter (tc : TypeConverter) (Member : Nat) (this_val : JSValue)
    (argv : List JSValue) (w : World) : Outcome × World :=
  if MemberPropertyWrapper.get_pptr w.ctx this_val = 0 then
    (.returned .exception, w)
  else
    match w.heap.cells.lookup (MemberPropertyWrapper.get_pptr w.ctx this_val) with
    | none => (.undefined_behavior, w)
    | some obj =>
      if obj = 0 then
        (.returned .exception, w)
      else
        match w.heap.instances.lookup obj with
        | none => (.undefined_behavior, w)
        | some inst =>
          if inst.fields.length ≤ Member then
            (.undefined_behavior, w)
          else
            match tc.from_js w.ctx (argv_at argv 0) with
            | (.error _, c) =>
              (.terminated,
                { w with ctx := c, conversions := w.conversions ++ [(0, argv_at argv 0)] })
            | (.ok v, c) =>
              (.returned .undefined,
                { w with
                  ctx := c,
                  heap := w.heap.store obj { inst with fields := inst.fields.set Member v },
                  conversions := w.conversions ++ [(0, argv_at argv 0)] })

/-! ## Engine arrays and `TypeConverter<std::vector<T>>` -/

def JS_CLASS_ARRAY : JSClassID := 2

/-- `JS_NewArray`: a new empty array with one reference; the exception signal when
the engine is out of memory. -/
def JS_NewArray (c : JSContext) : JSValue × JSContext :=
  if c.out_of_memory then
    (.exception, { c with current_exception := some (.InternalError "out of memory") })
  else
    (.object c.objects.length,
      { c with
        objects := c.objects
          ++ [{ class_id := JS_CLASS_ARRAY, ref_count := 1, payload := 0, items := [] }] })

/-- The elements after storing `val` at `idx`: replaced in place, appended at the
end, or appended after the holes (which read `undefined`) up to `idx`. -/
def set_item (items : List JSValue) (idx : Nat) (val : JSValue) : List JSValue :=
  if idx < items.length then items.set idx val
  else items ++ List.replicate (idx - items.length) .undefined ++ [val]

/-- `JS_SetPropertyUint32(ctx, this_obj, idx, val)` on the indexed elements of an
object. The call takes over the caller's reference to `val`: stored, it belongs
to the object; a value it replaces is released, and so is `val` when `this_obj`
is not an object (the call then fails with `-1`). -/
def JS_SetPropertyUint32 (c : JSContext) (this_obj : JSValue) (idx : Nat) (val : JSValue) :
    Int × JSContext :=
  match this_obj with
  | .object r =>
    match c.objects[r]? with
    | some o =>
      (1,
        { (match o.items[idx]? with
            | some old => JS_FreeValue c old
            | none => c) with
          objects := modify_object (fun o => { o with items := set_item o.items idx val }) r
            (match o.items[idx]? with
              | some old => JS_FreeValue c old
              | none => c).objects })
    | none => (-1, JS_FreeValue c val)
  | _ => (-1, JS_FreeValue c val)

/-- `JS_GetLength(ctx, obj, &len)` on an array: the number of its elements. For a
value that is not an array the engine reads its `length` property, which is the
parameter `slow` (`none` when it fails). -/
def JS_GetLength (slow : JSContext → JSValue → Option Int × JSContext)
    (c : JSContext) (obj : JSValue) : Option Int × JSContext :=
  match obj with
  | .object r =>
    match c.objects[r]? with
    | some o => if o.class_id = JS_CLASS_ARRAY then (some (o.items.length : Int), c) else slow c obj
    | none => slow c obj
  | _ => slow c obj

/-- `JS_GetPropertyUint32(ctx, obj, idx)` on an array: a new reference to the
element, `undefined` past the end. For a value that is not an array the lookup
is the parameter `slow`. -/
def JS_GetPropertyUint32 (slow : JSContext → JSValue → Nat → JSValue × JSContext)
    (c : JSContext) (obj : JSValue) (idx : Nat) : JSValue × JSContext :=
  match obj with
  | .object r =>
    match c.objects[r]? with
    | some o =>
      if o.class_id = JS_CLASS_ARRAY then
        match o.items[idx]? with
        | some v => (v, JS_DupValue c v)
        | none => (.undefined, c)
      else slow c obj idx
    | none => slow c obj idx
  | _ => slow c obj idx

/-- The loop of `to_js`: `JS_SetPropertyUint32(ctx, arr, static_cast<uint32_t>(i),
TypeConverter<T>::to_js(ctx, value[i]))` for the elements still to store, `i`
being the index of the first. -/
def vector_to_js_loop (T : TypeConverter) (arr : JSValue) :
    List CppValue → Nat → JSContext → JSContext
  | [], _, c => c
  | x :: xs, i, c =>
    vector_to_js_loop T arr xs (i + 1)
      (JS_SetPropertyUint32 (T.to_js c x).2 arr (i % 2 ^ 32) (T.to_js c x).1).2

/-- The loop of `from_js` with `todo` elements left, `i` being the index of the
next and `result` the vector built so far. When an element conversion throws,
the reference to the element is not released. -/
def vector_from_js_loop
    (JS_GetPropertyUint32 : JSContext → JSValue → Nat → JSValue × JSContext)
    (T : TypeConverter) (value : JSValue) :
    Nat → Nat → List CppValue → JSContext → Except CppException (List CppValue) × JSContext
  | 0, _, result, c => (.ok result, c)
  | todo + 1, i, result, c =>
    match T.from_js (JS_GetPropertyUint32 c value (i % 2 ^ 32)).2
        (JS_GetPropertyUint32 c value (i % 2 ^ 32)).1 with
    | (.error e, c1) => (.error e, c1)
    | (.ok x, c1) =>
      vector_from_js_loop JS_GetPropertyUint32 T value todo (i + 1) (result ++ [x])
        (JS_FreeValue c1 (JS_GetPropertyUint32 c value (i % 2 ^ 32)).1)

/-- `TypeConverter<std::vector<T>>`, from the converter of `T`. The engine's
`JS_GetLength` and `JS_GetPropertyUint32` are parameters. -/
def TypeConverter_vector (JS_GetLength : JSContext → JSValue → Option Int × JSContext)
    (JS_GetPropertyUint32 : JSContext → JSValue → Nat → JSValue × JSContext)
    (T : TypeConverter) : TypeConverter where
  to_js c value :=
    match value with
    | .vector xs => ((JS_NewArray c).1, vector_to_js_loop T (JS_NewArray c).1 xs 0 (JS_NewArray c).2)
    | _ => (.undefined, c)
  from_js c value :=
    match JS_GetLength c value with
    | (some len, c1) =>
      if 0 < len then
        match vector_from_js_loop JS_GetPropertyUint32 T value len.toNat 0 [] c1 with
        | (.ok xs, c2) => (.ok (.vector xs), c2)
        | (.error e, c2) => (.error e, c2)
      else (.ok (.vector []), c1)
    | (none, c1) => (.ok (.vector []), c1)

/-- Two objects with the same class and the same elements. -/
def same_shape (o o1 : JSObject) : Prop := o.class_id = o1.class_id ∧ o.items = o1.items

/-- Every object of `c` at an index from `lo` on is still there in `c1`, with the
same class and the same elements (reference counts may differ, and `c1` may
have more objects). -/
def keeps_from (lo : Nat) (c c1 : JSContext) : Prop :=
  ∀ i o, lo ≤ i → c.objects[i]? = some o → ∃ o1, c1.objects[i]? = some o1 ∧ same_shape o o1

/-- The converter `T` round-trips on the values satisfying `good`, and stays out
of the way of other conversions: in a context with memory left, `to_js` keeps
the objects that exist and leaves memory, and the value it makes converts back
to the original in every context that keeps the objects `to_js` created;
`from_js` then keeps the objects that exist. Converters that do not touch the
engine state at all, such as those of the integer types, are of this kind. -/
structure RoundTrips (T : TypeConverter) (good : CppValue → Prop) : Prop where
  to_js_keeps : ∀ c x, good x → c.out_of_memory = false →
    keeps_from 0 c (T.to_js c x).2 ∧ (T.to_js c x).2.out_of_memory = false
  from_js_back : ∀ c x c2, good x → c.out_of_memory = false →
    keeps_from c.objects.length (T.to_js c x).2 c2 →
    (T.from_js c2 (T.to_js c x).1).1 = .ok x ∧ keeps_from 0 c2 (T.from_js c2 (T.to_js c x).1).2

/-- The vectors of fewer than `2^32` elements, each satisfying `good`. -/
def vector_of (good : CppValue → Prop) (x : CppValue) : Prop :=
  ∃ xs, x = .vector xs ∧ xs.length < 2 ^ 32 ∧ ∀ y ∈ xs, good y

/-! ## `js::Value` (`value.cpp`, `value.hpp`) -/

/-- `JS_IsArray`: an object of the array class. -/
def JS_IsArray (c : JSContext) (v : JSValue) : Bool :=
  match v with
  | .object r =>
    match c.objects[r]? with
    | some o => o.class_id == JS_CLASS_ARRAY
    | none => false
  | _ => false

/-- The engine's `JS_ToBool`: `1` or `0` by the truth value, `-1` on the exception
signal. It runs no script code and leaves the context as it is. -/
def JS_ToBool (c : JSContext) (v : JSValue) : Int × JSContext :=
  match v with
  | .bool b => (if b then 1 else 0, c)
  | .null => (0, c)
  | .undefined => (0, c)
  | .int n => (if n = 0 then 0 else 1, c)
  | .float64 d =>
    (match d with
      | .nan => 0
      | .inf _ => 1
      | .finite q => if q = 0 then 0 else 1, c)
  | .string s => (if s = "" then 0 else 1, c)
  | .exception => (-1, c)
  | .symbol _ => (1, c)
  | .object _ => (1, c)
  | .uninitialized => (1, c)

/-- A `js::Value`: the context pointer `_ctx` (`0` is `nullptr`) and the engine
value `_val`. -/
structure Value where
  _ctx : Ptr
  _val : JSValue
deriving DecidableEq, Repr

/-- `Value::Value()`. -/
def Value.new : Value := { _ctx := 0, _val := .undefined }

def Value.is_valid (v : Value) : Bool := v._ctx != 0

def Value.is_array (v : Value) (c : JSContext) : Bool := v._ctx != 0 && JS_IsArray c v._val

/-- `Value::Value(const Value& other)`: the new handle and the engine state. -/
def Value.copy_construct (other : Value) (c : JSContext) : Value × JSContext :=
  if other._ctx ≠ 0 then
    ({ _ctx := other._ctx, _val := other._val }, JS_DupValue c other._val)
  else
    ({ _ctx := other._ctx, _val := .undefined }, c)

/-- `Value::Value(Value&& other)`: the new handle and what is left in `other`. -/
def Value.move_construct (other : Value) : Value × Value :=
  ({ _ctx := other._ctx, _val := other._val }, { _ctx := 0, _val := .undefined })

/-- `Value::operator=(const Value& other)` on the handles at the addresses `this`
and `other` of the handles `hs`. -/
def Value.copy_assign (hs : List Value) (this other : Nat) (c : JSContext) :
    List Value × JSContext :=
  if this = other then (hs, c)
  else
    match hs[this]?, hs[other]? with
    | some t, some o =>
      if o._ctx ≠ 0 then
        (hs.set this { _ctx := o._ctx, _val := o._val },
          JS_DupValue (if t._ctx ≠ 0 then JS_FreeValue c t._val else c) o._val)
      else
        (hs.set this { _ctx := o._ctx, _val := .undefined },
          if t._ctx ≠ 0 then JS_FreeValue c t._val else c)
    | _, _ => (hs, c)

/-- `Value::operator=(Value&& other)` on the handles at the addresses `this` and
`other`. -/
def Value.move_assign (hs : List Value) (this other : Nat) (c : JSContext) :
    List Value × JSContext :=
  if this = other then (hs, c)
  else
    match hs[this]?, hs[other]? with
    | some t, some o =>
      ((hs.set this { _ctx := o._ctx, _val := o._val }).set other { _ctx := 0, _val := .undefined },
        if t._ctx ≠ 0 then JS_FreeValue c t._val else c)
    | _, _ => (hs, c)

/-- `Value::~Value()` on the handle at the address `this`. The handle is gone
afterwards; its slot is recorded as holding nothing. -/
def Value.destroy (hs : List Value) (this : Nat) (c : JSContext) : List Value × JSContext :=
  match hs[this]? with
  | some t => (hs.set this Value.new, if t._ctx ≠ 0 then JS_FreeValue c t._val else c)
  | none => (hs, c)

/-- `Value::operator[](const char* name)`. The lookup `JS_GetProperty` is a
parameter; for a property that is missing the engine returns `undefined`. The
warning is not modelled. -/
def Value.subscript_name (JS_GetProperty : JSContext → JSValue → String → JSValue × JSContext)
    (self : Value) (name : String) (c : JSContext) : Value × JSContext :=
  if self._ctx = 0 then (Value.new, c)
  else
    match JS_GetProperty c self._val name with
    | (result, c1) =>
      if !JS_IsException result then ({ _ctx := self._ctx, _val := result }, c1)
      else (Value.new, c1)

/-- `Value::operator[](uint32_t index)`. The lookup `JS_GetPropertyUint32` is a
parameter. -/
def Value.subscript_index
    (JS_GetPropertyUint32 : JSContext → JSValue → Nat → JSValue × JSContext)
    (self : Value) (index : Nat) (c : JSContext) : Value × JSContext :=
  if !self.is_array c then (Value.new, c)
  else
    match JS_GetPropertyUint32 c self._val index with
    | (result, c1) => ({ _ctx := self._ctx, _val := result }, c1)

/-- The conversion of the native arguments of a call, left to right:
`JSValue js_args[] = {TypeConverter<Args>::to_js(ctx, args)...}`. -/
def to_js_pack : List TypeConverter → List CppValue → JSContext → List JSValue × JSContext
  | tc :: tcs, a :: as, c =>
    ((tc.to_js c a).1 :: (to_js_pack tcs as (tc.to_js c a).2).1,
      (to_js_pack tcs as (tc.to_js c a).2).2)
  | _, _, c => ([], c)

/-- `for (auto& v : js_args) JS_FreeValue(ctx, v)`. -/
def free_values : List JSValue → JSContext → JSContext
  | [], c => c
  | v :: vs, c => free_values vs (JS_FreeValue c v)

/-- What a call of the `std::function` leaves: what it returns or throws, the
engine state, and the values it passed to `JS_FreeValue`, in order. -/
structure CallRecord where
  result : Except CppException CppValue
  ctx : JSContext
  released : List JSValue

/-- The lambda returned by `Value::operator std::function<R(Args...)>()`, called
with `args`: `fv` is the captured function value, `Args` the converters of the
parameter types, `R` that of the return type (`none` for `void`). The engine's
`JS_Call(ctx, fv, JS_UNDEFINED, argc, argv)` is a parameter. -/
def Value.function_call
    (JS_Call : JSContext → JSValue → JSValue → List JSValue → JSValue × JSContext)
    (Args : List TypeConverter) (R : Option TypeConverter) (fv : JSValue)
    (args : List CppValue) (c : JSContext) : CallRecord :=
  match to_js_pack Args args c with
  | (js_args, c1) =>
    match JS_Call c1 fv .undefined js_args with
    | (result, c2) =>
      match R with
      | none =>
        { result := .ok .void,
          ctx := JS_FreeValue (free_values js_args c2) result,
          released := js_args ++ [result] }
      | some tc =>
        match tc.from_js (free_values js_args c2) result with
        | (.ok res, c3) =>
          { result := .ok res, ctx := JS_FreeValue c3 result, released := js_args ++ [result] }
        | (.error e, c3) => { result := .error e, ctx := c3, released := js_args }

/-! ## `js::Context::eval` (`context.cpp`) -/

/-- `detail::ModuleExportEntry`. -/
structure ModuleExportEntry where
  name : String
  value : JSValue
deriving DecidableEq, Repr

/-- The data members of `js::Module`. -/
structure Module where
  _ctx : Ptr
  _mod : Ptr
  _name : String
  _exports : List ModuleExportEntry
deriving DecidableEq, Repr

/-- The data members of `js::Context`; an empty `std::function` is `none`. -/
structure Context where
  _context : Ptr
  _modules : List Module
  _on_exception : Option (JSContext → Except CppException Unit × JSContext)

/-- What leaves `Context::eval` as an exception: the `js::Exception` it throws
itself, or whatever the exception callback threw. -/
inductive EvalError where
  | Exception (message : String) (ctx : Ptr)
  | from_callback (e : CppException)

/-- What a call of `Context::eval` leaves: what it returns or throws, the
`Context` object, the engine state, how often it invoked the exception
callback, and the values it passed to `JS_FreeValue`. -/
structure EvalRecord where
  result : Except EvalError Value
  self : Context
  ctx : JSContext
  callback_calls : Nat
  released : List JSValue

/-- `Context::eval(code, filename, flags)` with exceptions enabled. The engine's
`JS_Eval` is a parameter. Diagnostic output is not modelled. -/
def Context.eval (JS_Eval : JSContext → String → String → Int → JSValue × JSContext)
    (self : Context) (code filename : String) (flags : Int) (c : JSContext) : EvalRecord :=
  match JS_Eval c code filename flags with
  | (result, c1) =>
    if JS_IsException result then
      match self._on_exception with
      | some callback =>
        match callback c1 with
        | (.ok _, c2) =>
          { result := .error (.Exception
              ("Failed to evaluate JS code (filename: \"" ++ filename ++ "\")") self._context),
            self := self, ctx := JS_FreeValue c2 result, callback_calls := 1,
            released := [result] }
        | (.error e, c2) =>
          { result := .error (.from_callback e), self := self, ctx := c2, callback_calls := 1,
            released := [] }
      | none =>
        { result := .error (.Exception
            ("Failed to evaluate JS code (filename: \"" ++ filename ++ "\")") self._context),
          self := self, ctx := JS_FreeValue c1 result, callback_calls := 0,
          released := [result] }
    else
      { result := .ok { _ctx := self._context, _val := result }, self := self, ctx := c1,
        callback_calls := 0, released := [] }

/-- The reference count of the object `r` (`0` where there is none). -/
def ref_count_at (c : JSContext) (r : Nat) : Nat :=
  match c.objects[r]? with
  | some o => o.ref_count
  | none => 0

/-- The number of references to the object `r` a handle holds: `1` for a valid
handle of it, `0` otherwise. -/
def Value.holds (h : Value) (r : Nat) : Nat :=
  if h._ctx ≠ 0 ∧ h._val = .object r then 1 else 0

/-- The number of references to the object `r` the handles `hs` hold. -/
def held : List Value → Nat → Nat
  | [], _ => 0
  | h :: hs, r => h.holds r + held hs r

/-! ## Evaluation options (`context.hpp`, `context.cpp`) -/

/-- `enum class JSEvalOptions : int32_t`, by the value of the underlying integer. -/
structure JSEvalOptions where
  value : Int
deriving DecidableEq, Repr

def JSEvalOptions.TYPE_GLOBAL : JSEvalOptions := { value := (0 : Int) <<< (0 : Int) }
def JSEvalOptions.TYPE_MODULE : JSEvalOptions := { value := (1 : Int) <<< (0 : Int) }
def JSEvalOptions.TYPE_DIRECT : JSEvalOptions := { value := (2 : Int) <<< (0 : Int) }
def JSEvalOptions.TYPE_INDIRECT : JSEvalOptions := { value := (3 : Int) <<< (0 : Int) }
def JSEvalOptions.TYPE_MASK : JSEvalOptions := { value := (3 : Int) <<< (0 : Int) }
def JSEvalOptions.FLAG_STRICT : JSEvalOptions := { value := (1 : Int) <<< (3 : Int) }
def JSEvalOptions.FLAG_UNUSED : JSEvalOptions := { value := (1 : Int) <<< (4 : Int) }
def JSEvalOptions.FLAG_COMPILE_ONLY : JSEvalOptions := { value := (1 : Int) <<< (5 : Int) }
def JSEvalOptions.FLAG_BACKTRACE_BARRIER : JSEvalOptions := { value := (1 : Int) <<< (6 : Int) }
def JSEvalOptions.FLAG_ASYNC : JSEvalOptions := { value := (1 : Int) <<< (7 : Int) }

/-- `operator|(JSEvalOptions lhs, JSEvalOptions rhs)`:
`static_cast<int>(lhs) | static_cast<int>(rhs)`. -/
def JSEvalOptions.operator_or (lhs rhs : JSEvalOptions) : JSEvalOptions :=
  { value := Int.lor lhs.value rhs.value }

/-- `operator&(JSEvalOptions lhs, JSEvalOptions rhs)`:
`static_cast<int>(lhs) & static_cast<int>(rhs)`. -/
def JSEvalOptions.operator_and (lhs rhs : JSEvalOptions) : JSEvalOptions :=
  { value := Int.land lhs.value rhs.value }

/-- The enumerators that name an evaluation type. -/
def eval_types : List JSEvalOptions :=
  [JSEvalOptions.TYPE_GLOBAL, JSEvalOptions.TYPE_MODULE, JSEvalOptions.TYPE_DIRECT,
    JSEvalOptions.TYPE_INDIRECT]

/-- The enumerators that name a flag. -/
def eval_flags : List JSEvalOptions :=
  [JSEvalOptions.FLAG_STRICT, JSEvalOptions.FLAG_UNUSED, JSEvalOptions.FLAG_COMPILE_ONLY,
    JSEvalOptions.FLAG_BACKTRACE_BARRIER, JSEvalOptions.FLAG_ASYNC]

/-- The expression `t | f1 | f2 | ...` for the flags `F = [f1, f2, ...]`. -/
def combine_options (t : JSEvalOptions) (F : List JSEvalOptions) : JSEvalOptions :=
  F.foldl JSEvalOptions.operator_or t

/-! ## `js::Value`: predicates, conversions and calls (`value.cpp`) -/

def JS_CLASS_ERROR : JSClassID := 3

/-- `JS_IsError`: an object of the error class. -/
def JS_IsError (c : JSContext) (v : JSValue) : Bool :=
  match v with
  | .object r =>
    match c.objects[r]? with
    | some o => o.class_id == JS_CLASS_ERROR
    | none => false
  | _ => false

def Value.is_undefined (v : Value) : Bool := JS_IsUndefined v._val

def Value.is_null (v : Value) : Bool := JS_IsNull v._val

/-- `Value::is_function()`: `_ctx && JS_IsFunction(_ctx, _val)`. The engine's
`JS_IsFunction` is a parameter. -/
def Value.is_function (JS_IsFunction : JSContext → JSValue → Bool) (v : Value)
    (c : JSContext) : Bool :=
  v._ctx != 0 && JS_IsFunction c v._val

/-- `Value::is_error()`: `_ctx && JS_IsError(_val)`. -/
def Value.is_error (v : Value) (c : JSContext) : Bool := v._ctx != 0 && JS_IsError c v._val

/-- `Value::operator bool()`: `is_valid() && !is_null() && !is_undefined()`. -/
def Value.operator_bool (v : Value) : Bool := v.is_valid && !v.is_null && !v.is_undefined

/-- `Value::to_string()`: `_ctx ? TypeConverter<std::string>::from_js(_ctx, _val) : ""`. -/
def Value.to_string (JS_ToCString : JSContext → JSValue → Option String × JSContext)
    (v : Value) (c : JSContext) : Except CppException CppValue × JSContext :=
  if v._ctx ≠ 0 then (TypeConverter_string JS_ToCString).from_js c v._val
  else (.ok (.string ""), c)

/-- `Value::to_int32()`: `_ctx ? TypeConverter<int32_t>::from_js(_ctx, _val) : 0`. -/
def Value.to_int32 (JS_ToInt32 : JSContext → JSValue → Option Int × JSContext)
    (v : Value) (c : JSContext) : Except CppException CppValue × JSContext :=
  if v._ctx ≠ 0 then (TypeConverter_int32 JS_ToInt32).from_js c v._val
  else (.ok (.int 0), c)

/-- `Value::to_bool()`: `_ctx ? JS_ToBool(_ctx, _val) != 0 : false`. -/
def Value.to_bool (JS_ToBool : JSContext → JSValue → Int × JSContext)
    (v : Value) (c : JSContext) : Bool × JSContext :=
  if v._ctx ≠ 0 then (decide ((JS_ToBool c v._val).1 ≠ 0), (JS_ToBool c v._val).2)
  else (false, c)

/-- The loop that fills `js_args` in `Value::call`:
`js_args.push_back(arg._ctx ? JS_DupValue(_ctx, arg._val) : JS_UNDEFINED)`. -/
def Value.call_args : List Value → JSContext → List JSValue × JSContext
  | [], c => ([], c)
  | arg :: args, c =>
    if arg._ctx ≠ 0 then
      (arg._val :: (Value.call_args args (JS_DupValue c arg._val)).1,
        (Value.call_args args (JS_DupValue c arg._val)).2)
    else
      (.undefined :: (Value.call_args args c).1, (Value.call_args args c).2)

/-- `Value::call(args)`. The engine's `JS_Call` is a parameter. -/
def Value.call (JS_Call : JSContext → JSValue → JSValue → List JSValue → JSValue × JSContext)
    (self : Value) (args : List Value) (c : JSContext) : Value × JSContext :=
  if self._ctx = 0 then (Value.new, c)
  else
    match Value.call_args args c with
    | (js_args, c1) =>
      match JS_Call c1 self._val .undefined js_args with
      | (result, c2) => ({ _ctx := self._ctx, _val := result }, free_values js_args c2)

/-- `Value::call_with_this(this_val, args)`. -/
def Value.call_with_this
    (JS_Call : JSContext → JSValue → JSValue → List JSValue → JSValue × JSContext)
    (self this_val : Value) (args : List Value) (c : JSContext) : Value × JSContext :=
  if self._ctx = 0 then (Value.new, c)
  else
    match Value.call_args args c with
    | (js_args, c1) =>
      match JS_Call c1 self._val this_val._val js_args with
      | (result, c2) => ({ _ctx := self._ctx, _val := result }, free_values js_args c2)

/-! ## Lifetime of `js::Context` and `js::Module` (`context.cpp`, `module.cpp`) -/

/-- What the destructors hand back to the engine: `JS_FreeValue(ctx, v)` and
`JS_FreeContext(ctx)`. -/
inductive LifecycleEvent where
  | free_value (ctx : Ptr) (v : JSValue)
  | free_context (ctx : Ptr)
deriving DecidableEq, Repr

/-- The loop of `Module::~Module()` over the export entries still to visit:
`if (!JS_IsUndefined(entry.value)) JS_FreeValue(_ctx, entry.value)`. -/
def Module.release_exports (ctx : Ptr) :
    List ModuleExportEntry → JSContext → List LifecycleEvent × JSContext
  | [], c => ([], c)
  | entry :: rest, c =>
    if !JS_IsUndefined entry.value then
      (.free_value ctx entry.value
          :: (Module.release_exports ctx rest (JS_FreeValue c entry.value)).1,
        (Module.release_exports ctx rest (JS_FreeValue c entry.value)).2)
    else Module.release_exports ctx rest c

/-- `Module::~Module()`: the calls it makes, in order, and the engine state. -/
def Module.destroy (m : Module) (c : JSContext) : List LifecycleEvent × JSContext :=
  if m._ctx = 0 then ([], c) else Module.release_exports m._ctx m._exports c

/-- `_modules.clear()`: every module is destroyed, first to last. -/
def modules_clear : List Module → JSContext → List LifecycleEvent × JSContext
  | [], c => ([], c)
  | m :: ms, c =>
    ((m.destroy c).1 ++ (modules_clear ms (m.destroy c).2).1, (modules_clear ms (m.destroy c).2).2)

/-- `Context::~Context()`: `_modules.clear()`, then `JS_FreeContext(_context)`
when the handle is not null. -/
def Context.destroy (self : Context) (c : JSContext) : List LifecycleEvent × JSContext :=
  ((modules_clear self._modules c).1
      ++ (if self._context ≠ 0 then [LifecycleEvent.free_context self._context] else []),
    (modules_clear self._modules c).2)

/-- `Context::Context(Context&& other)`: the new object and what is left in
`other`. The members `_context` and `_modules` are taken over; `_on_exception` is
not in the initializer list, so the new object gets the default member
initializer `&process_exception`. A moved-from vector is empty. -/
def Context.move_construct (process_exception : JSContext → Except CppException Unit × JSContext)
    (other : Context) : Context × Context :=
  ({ _context := other._context, _modules := other._modules,
     _on_exception := some process_exception },
    { other with _context := 0, _modules := [] })

/-- `Context::operator=(Context&& other)` on the objects at the addresses `this`
and `other` of `cs`: the objects afterwards, the calls made, and the engine
state. `_on_exception` is not assigned. -/
def Context.move_assign (cs : List Context) (this other : Nat) (c : JSContext) :
    List Context × List LifecycleEvent × JSContext :=
  if this = other then (cs, [], c)
  else
    match cs[this]?, cs[other]? with
    | some t, some o =>
      ((cs.set this { t with _context := o._context, _modules := o._modules }).set other
          { o with _context := 0, _modules := [] },
        (modules_clear t._modules c).1
          ++ (if t._context ≠ 0 then [LifecycleEvent.free_context t._context] else []),
        (modules_clear t._modules c).2)
    | _, _ => (cs, [], c)

/-- The calls of `JS_FreeValue` that destroying the modules `ms` makes: for every
module with a context, one for each export entry whose value is not
`undefined`, in order. -/
def released_exports (ms : List Module) : List LifecycleEvent :=
  ms.flatMap (fun m =>
    if m._ctx = 0 then []
    else (m._exports.filter (fun e => !JS_IsUndefined e.value)).map
      (fun e => LifecycleEvent.free_value m._ctx e.value))

/-- The values these calls release, in order. -/
def released_values (ms : List Module) : List JSValue :=
  ms.flatMap (fun m =>
    if m._ctx = 0 then []
    else (m._exports.filter (fun e => !JS_IsUndefined e.value)).map (fun e => e.value))

/-! ## Class identifiers: `ClassBuilder<T>::get_or_create_class_id` (`module.hpp`) -/

/-- A class definition handed to `JS_NewClass`: the class name and the finalizer,
which is the finalizer lambda instantiated for the native type `finalizer`. -/
structure JSClassDef where
  class_name : String
  finalizer : Nat
deriving DecidableEq, Repr

/-- The part of a `JSRuntime` that class registration touches: the next class
identifier `JS_NewClassID` hands out and the classes registered so far. -/
structure JSRuntime where
  js_class_id_alloc : JSClassID
  classes : List (JSClassID × JSClassDef)
deriving DecidableEq, Repr

/-- `JS_NewClassID(rt, &class_id)`: allocates an identifier when `class_id` is
`0`, and returns `class_id` as it is otherwise. -/
def JS_NewClassID (rt : JSRuntime) (class_id : JSClassID) : JSClassID × JSRuntime :=
  if class_id = 0 then
    (rt.js_class_id_alloc, { rt with js_class_id_alloc := rt.js_class_id_alloc + 1 })
  else (class_id, rt)

def JS_IsRegisteredClass (rt : JSRuntime) (class_id : JSClassID) : Bool :=
  rt.classes.any (fun e => e.1 == class_id)

/-- `JS_NewClass(rt, class_id, &def)`: registers the class; fails (`-1`) when the
identifier is already registered. -/
def JS_NewClass (rt : JSRuntime) (class_id : JSClassID) (class_def : JSClassDef) :
    Int × JSRuntime :=
  if JS_IsRegisteredClass rt class_id then (-1, rt)
  else (0, { rt with classes := rt.classes ++ [(class_id, class_def)] })

/-- A `ClassBuilder<T>`: the native type `T`, the module it adds to (by address),
the class name, the context and the prototype object. -/
structure ClassBuilder where
  T : Nat
  _module : Nat
  _name : String
  _context : Ptr
  _proto : JSValue
deriving DecidableEq, Repr

/-- The process-wide state of class registration: for each native type `T` the
function-local `static JSClassID class_id` of
`ClassBuilder<T>::get_or_create_class_id`, and the runtimes. -/
structure ClassWorld where
  class_id : Nat → JSClassID
  runtimes : Nat → JSRuntime

/-- `ClassBuilder<T>::get_or_create_class_id()`. `JS_GetRuntime` maps a context to
the runtime it belongs to. -/
def ClassBuilder.get_or_create_class_id (JS_GetRuntime : Ptr → Nat) (b : ClassBuilder)
    (w : ClassWorld) : JSClassID × ClassWorld :=
  if w.class_id b.T = 0 then
    ((JS_NewClassID (w.runtimes (JS_GetRuntime b._context)) (w.class_id b.T)).1,
      { class_id := Function.update w.class_id b.T
          (JS_NewClassID (w.runtimes (JS_GetRuntime b._context)) (w.class_id b.T)).1,
        runtimes := Function.update w.runtimes (JS_GetRuntime b._context)
          (if !JS_IsRegisteredClass
                (JS_NewClassID (w.runtimes (JS_GetRuntime b._context)) (w.class_id b.T)).2
                (JS_NewClassID (w.runtimes (JS_GetRuntime b._context)) (w.class_id b.T)).1 then
            (JS_NewClass
              (JS_NewClassID (w.runtimes (JS_GetRuntime b._context)) (w.class_id b.T)).2
              (JS_NewClassID (w.runtimes (JS_GetRuntime b._context)) (w.class_id b.T)).1
              { class_name := b._name, finalizer := b.T }).2
          else (JS_NewClassID (w.runtimes (JS_GetRuntime b._context)) (w.class_id b.T)).2) })
  else (w.class_id b.T, w)

/-- The state after the calls of `get_or_create_class_id` made by the builders
`bs`, in order. -/
def class_id_calls (JS_GetRuntime : Ptr → Nat) (bs : List ClassBuilder) (w : ClassWorld) :
    ClassWorld :=
  bs.foldl (fun w1 b => (ClassBuilder.get_or_create_class_id JS_GetRuntime b w1).2) w

/-! ## Modules: declaration and deferred resolution (`module.cpp`) -/

/-- The process-wide state of module registration: the engine state, the live
`Module` objects by address, the static `Module::current_module` (`none` is
`nullptr`), the last `JSModuleDef*` handed out by `JS_NewCModule`, and the
engine's record of the calls `JS_AddModuleExport(ctx, m, name)` (`declared`) and
`JS_SetModuleExport(ctx, m, name, val)` (`published`), in order. -/
structure ModuleWorld where
  ctx : JSContext
  modules : List Module
  current_module : Option Nat
  next_def : Ptr
  declared : List (Ptr × String)
  published : List (Ptr × String × JSValue)
deriving DecidableEq, Repr

/-- `Module::Module(name, ctx)`: `current_module = this`, then
`_mod = JS_NewCModule(ctx, name, module_init_callback)`. Returns the address of
the new object. -/
def Module.construct (name : String) (ctx : Ptr) (w : ModuleWorld) : Nat × ModuleWorld :=
  (w.modules.length,
    { w with
      modules := w.modules
        ++ [{ _ctx := ctx, _mod := w.next_def + 1, _name := name, _exports := [] }],
      current_module := some w.modules.length,
      next_def := w.next_def + 1 })

/-- `Module::add_export(name, value)` on the module at the address `this`. -/
def Module.add_export (this : Nat) (name : String) (value : JSValue) (w : ModuleWorld) :
    ModuleWorld :=
  match w.modules[this]? with
  | some m =>
    { w with
      declared := w.declared ++ [(m._mod, name)],
      modules := w.modules.set this
        { m with _exports := m._exports ++ [{ name := name, value := value }] } }
  | none => w

/-- The loop of `module_init_callback` over the entries still to publish, `cur`
being `*current_module`: `JS_DupValue(cur->_ctx, entry.value)`, then
`JS_SetModuleExport(cur->_ctx, cur->_mod, entry.name, val)`. -/
def Module.publish_exports (cur : Module) : List ModuleExportEntry → ModuleWorld → ModuleWorld
  | [], w => w
  | entry :: rest, w =>
    Module.publish_exports cur rest
      { w with
        ctx := JS_DupValue w.ctx entry.value,
        published := w.published ++ [(cur._mod, entry.name, entry.value)] }

/-- `Module::module_init_callback(ctx, m)`, which the engine invokes with the
module definition `m` it is resolving. Neither argument is used: the entries
published, and the definition they are published into, are those of
`*current_module`. `none` stands for a `current_module` that points at no live
object. -/
def Module.module_init_callback (_ctx : Ptr) (_m : Ptr) (w : ModuleWorld) :
    Option (Int × ModuleWorld) :=
  match w.current_module with
  | none => some (-1, w)
  | some cur =>
    match w.modules[cur]? with
    | some module => some (0, Module.publish_exports module module._exports w)
    | none => none

/-! ## The class finalizer (`module.hpp`) -/

/-- `delete p` for an instance: the instance at `p` is gone. -/
def NativeHeap.delete_instance (h : NativeHeap) (p : Ptr) : NativeHeap :=
  { h with instances := h.instances.filter (fun e => e.1 != p) }

/-- `delete pptr` for an indirection cell. -/
def NativeHeap.delete_cell (h : NativeHeap) (p : Ptr) : NativeHeap :=
  { h with cells := h.cells.filter (fun e => e.1 != p) }

/-- What a run of the finalizer leaves: whether its behaviour is defined, the
state, the instances whose destructor it ran and the cells it freed, in order. -/
structure FinalizerRecord where
  defined : Bool
  world : World
  destroyed : List Ptr
  freed_cells : List Ptr

/-- The finalizer lambda of the class definition in `get_or_create_class_id`:
`opaque = JS_GetOpaque(obj, JS_GetClassID(obj))`, and `if (opaque)` then
`delete *pptr; delete pptr;`. Reading through a cell that is not live, or
deleting an instance that is not live, is undefined behaviour;
`delete nullptr` does nothing. -/
def ClassBuilder.finalizer (obj : JSValue) (w : World) : FinalizerRecord :=
  if JS_GetOpaque w.ctx obj (JS_GetClassID w.ctx obj) = 0 then
    { defined := true, world := w, destroyed := [], freed_cells := [] }
  else
    match w.heap.cells.lookup (JS_GetOpaque w.ctx obj (JS_GetClassID w.ctx obj)) with
    | none => { defined := false, world := w, destroyed := [], freed_cells := [] }
    | some p =>
      if p = 0 then
        { defined := true,
          world := { w with
            heap := w.heap.delete_cell (JS_GetOpaque w.ctx obj (JS_GetClassID w.ctx obj)) },
          destroyed := [],
          freed_cells := [JS_GetOpaque w.ctx obj (JS_GetClassID w.ctx obj)] }
      else
        match w.heap.instances.lookup p with
        | none => { defined := false, world := w, destroyed := [], freed_cells := [] }
        | some _ =>
          { defined := true,
            world := { w with
              heap := (w.heap.delete_instance p).delete_cell
                (JS_GetOpaque w.ctx obj (JS_GetClassID w.ctx obj)) },
            destroyed := [p],
            freed_cells := [JS_GetOpaque w.ctx obj (JS_GetClassID w.ctx obj)] }

/-! ## Engine properties and `Context::add_constant` (`context.hpp`) -/

def JS_PROP_CONFIGURABLE : Nat := 1 <<< 0
def JS_PROP_WRITABLE : Nat := 1 <<< 1
def JS_PROP_ENUMERABLE : Nat := 1 <<< 2

/-- `JS_GetGlobalObject(ctx)`: a new reference to the global object of the context,
`global_obj`. -/
def JS_GetGlobalObject (global_obj : JSValue) (c : JSContext) : JSValue × JSContext :=
  (global_obj, JS_DupValue c global_obj)

/-- `JS_DefinePropertyValue(ctx, this_obj, prop, val, flags)` on the named data
properties of an object; the call takes over the caller's reference to `val`.
A property that does not exist is added with these flags; an existing
configurable property gets the new value and flags, and its old value is
released. The other cases (an existing property that is not configurable, a
value that is not an object) are the parameter `slow`. Returns `1` when the
property was defined. -/
def JS_DefinePropertyValue
    (slow : JSContext → JSValue → String → JSValue → Nat → Int × JSContext)
    (c : JSContext) (this_obj : JSValue) (prop : String) (val : JSValue) (flags : Nat) :
    Int × JSContext :=
  match this_obj with
  | .object r =>
    match c.objects[r]? with
    | some o =>
      match o.props.find? (fun p => p.name == prop) with
      | none =>
        (1,
          { c with
            objects := modify_object
              (fun o => { o with
                props := o.props ++ [{ name := prop, value := val, flags := flags }] })
              r c.objects })
      | some old =>
        if old.flags &&& JS_PROP_CONFIGURABLE ≠ 0 then
          (1,
            { JS_FreeValue c old.value with
              objects := modify_object
                (fun o => { o with
                  props := o.props.map (fun q =>
                    if q.name == prop then { name := prop, value := val, flags := flags }
                    else q) })
                r (JS_FreeValue c old.value).objects })
        else slow c this_obj prop val flags
    | none => slow c this_obj prop val flags
  | _ => slow c this_obj prop val flags

/-- `JS_DefinePropertyValueStr`: `JS_DefinePropertyValue` with the property named
by a C string. -/
def JS_DefinePropertyValueStr
    (slow : JSContext → JSValue → String → JSValue → Nat → Int × JSContext)
    (c : JSContext) (this_obj : JSValue) (prop : String) (val : JSValue) (flags : Nat) :
    Int × JSContext :=
  JS_DefinePropertyValue slow c this_obj prop val flags

/-- `JS_SetPropertyStr(ctx, this_obj, prop, val)`, the assignment
`this_obj.prop = val`, on an own data property; the call takes over the
caller's reference to `val`. A writable property gets the new value and its old
value is released; a property that is not writable is left as it is and a type
error is raised (`-1`). The other cases (no own property of that name, a value
that is not an object) are the parameter `slow`. -/
def JS_SetPropertyStr (slow : JSContext → JSValue → String → JSValue → Int × JSContext)
    (c : JSContext) (this_obj : JSValue) (prop : String) (val : JSValue) : Int × JSContext :=
  match this_obj with
  | .object r =>
    match c.objects[r]? with
    | some o =>
      match o.props.find? (fun p => p.name == prop) with
      | some old =>
        if old.flags &&& JS_PROP_WRITABLE ≠ 0 then
          (1,
            { JS_FreeValue c old.value with
              objects := modify_object
                (fun o => { o with
                  props := o.props.map (fun q =>
                    if q.name == prop then { q with value := val } else q) })
                r (JS_FreeValue c old.value).objects })
        else
          (-1, (JS_ThrowTypeError (JS_FreeValue c val) ("'" ++ prop ++ "' is read-only")).2)
      | none => slow c this_obj prop val
    | none => slow c this_obj prop val
  | _ => slow c this_obj prop val

/-- `Context::add_constant<T>(name, value)` on the engine state of `_context`,
whose global object is `global_obj`; `T` is the converter of the value's type. -/
def Context.add_constant
    (define_slow : JSContext → JSValue → String → JSValue → Nat → Int × JSContext)
    (T : TypeConverter) (global_obj : JSValue) (name : String) (value : CppValue)
    (c : JSContext) : JSContext :=
  match JS_GetGlobalObject global_obj c with
  | (global, c1) =>
    match T.to_js c1 value with
    | (js_val, c2) =>
      JS_FreeValue
        (JS_DefinePropertyValueStr define_slow c2 global name js_val
          (JS_PROP_CONFIGURABLE ||| JS_PROP_WRITABLE)).2
        global

/-! ## The pending exception of a context (`context.cpp`) -/

/-- `JS_GetException(ctx)`: hands the pending exception over to the caller and
leaves `JS_UNINITIALIZED` in its place, so that none is pending afterwards; with
none pending it returns `JS_UNINITIALIZED`. An error the engine raised itself
(`JS_ThrowTypeError`, `JS_ThrowInternalError`) is an object of the error class;
the object enters the object table here, when it is taken. -/
def JS_GetException (c : JSContext) : JSValue × JSContext :=
  match c.current_exception with
  | none => (.uninitialized, c)
  | some (.thrown v) => (v, { c with current_exception := none })
  | some _ =>
    (.object c.objects.length,
      { c with
        objects := c.objects ++ [{ class_id := JS_CLASS_ERROR, ref_count := 1, payload := 0 }],
        current_exception := none })

/-- `Context::process_exception(ctx)`, the default exception callback. The
engine's `JS_ToCString` and `JS_GetPropertyStr` are parameters; the output to
the console and `JS_FreeCString` are not modelled. `is_error` is
`JS_IsException(exception_value)`. -/
def Context.process_exception
    (JS_ToCString : JSContext → JSValue → Option String × JSContext)
    (JS_GetPropertyStr : JSContext → JSValue → String → JSValue × JSContext)
    (ctx : Ptr) (c : JSContext) : Except CppException Unit × JSContext :=
  if ctx = 0 then (.ok (), c)
  else
    match JS_GetException c with
    | (exception_value, c1) =>
      match JS_ToCString c1 exception_value with
      | (_, c2) =>
        if JS_IsException exception_value then
          match JS_GetPropertyStr c2 exception_value "stack" with
          | (val, c3) =>
            if !JS_IsUndefined val then
              (.ok (), JS_FreeValue (JS_FreeValue (JS_ToCString c3 val).2 val) exception_value)
            else (.ok (), JS_FreeValue (JS_FreeValue c3 val) exception_value)
        else (.ok (), JS_FreeValue c2 exception_value)

/-- A `Context` as `Context::Context(Runtime&)` leaves it, `context` being the
handle `JS_NewContext` returned: no module, and `_on_exception` holding
`&process_exception`, which `eval` invokes with `_context`. -/
def Context.construct
    (JS_ToCString : JSContext → JSValue → Option String × JSContext)
    (JS_GetPropertyStr : JSContext → JSValue → String → JSValue × JSContext)
    (context : Ptr) : Context :=
  { _context := context, _modules := [],
    _on_exception := some (Context.process_exception JS_ToCString JS_GetPropertyStr context) }

/-- `Context::get_exception()`: `Value(_context, JS_GetException(_context))`. -/
def Context.get_exception (self : Context) (c : JSContext) : Value × JSContext :=
  ({ _ctx := self._context, _val := (JS_GetException c).1 }, (JS_GetException c).2)

/-! ## `ClassBuilder<T>::constructor<Args...>` (`module.hpp`) -/

def JS_CLASS_OBJECT : JSClassID := 1
def JS_CLASS_C_FUNCTION : JSClassID := 12

/-- `JS_NewObject`: a new plain object with one reference; the exception signal
when the engine is out of memory. -/
def JS_NewObject (c : JSContext) : JSValue × JSContext :=
  if c.out_of_memory then
    (.exception, { c with current_exception := some (.InternalError "out of memory") })
  else
    (.object c.objects.length,
      { c with
        objects := c.objects ++ [{ class_id := JS_CLASS_OBJECT, ref_count := 1, payload := 0 }] })

/-- `JS_NewCFunction2(ctx, func, name, length, cproto, magic)`: a new function
object with one reference, on which the engine defines `length` and `name`; the
exception signal when the engine is out of memory. The native function and its
calling convention are not recorded. -/
def JS_NewCFunction2 (c : JSContext) (name : String) (length : Nat) : JSValue × JSContext :=
  if c.out_of_memory then
    (.exception, { c with current_exception := some (.InternalError "out of memory") })
  else
    (.object c.objects.length,
      { c with
        objects := c.objects
          ++ [{ class_id := JS_CLASS_C_FUNCTION, ref_count := 1, payload := 0,
                props := [{ name := "length", value := .int length,
                            flags := JS_PROP_CONFIGURABLE },
                          { name := "name", value := .string name,
                            flags := JS_PROP_CONFIGURABLE }] }] })

/-- `JS_SetClassProto(ctx, class_id, obj)` on the table of class prototypes of the
context: the entry takes over the caller's reference to `obj`, and the value it
replaces is released. -/
def JS_SetClassProto (class_proto : List (JSClassID × JSValue)) (c : JSContext)
    (class_id : JSClassID) (obj : JSValue) : List (JSClassID × JSValue) × JSContext :=
  match class_proto.lookup class_id with
  | some old =>
    ((class_id, obj) :: class_proto.filter (fun e => e.1 != class_id), JS_FreeValue c old)
  | none => ((class_id, obj) :: class_proto, c)

/-- Everything a class registration touches: the modules with the engine state,
the class identifiers, the statics `detail::ClassIDHolder<T>::class_id`, and
the table of class prototypes of the context. -/
structure BuilderWorld where
  modules : ModuleWorld
  classes : ClassWorld
  holder : Nat → JSClassID
  class_proto : List (JSClassID × JSValue)

/-- The export name: `std::string cn = ctor_name.empty() ? _name : ctor_name`. -/
def ClassBuilder.cn (b : ClassBuilder) (ctor_name : String) : String :=
  if ctor_name = "" then b._name else ctor_name

/-- `ClassBuilder<T>::constructor<Args...>(ctor_name)`, `arity` being
`sizeof...(Args)`: the builder and the state afterwards. The function object
`ctor` is created from the wrapper lambda (`ClassBuilder.constructor_wrapper`). -/
def ClassBuilder.constructor
    (define_slow : JSContext → JSValue → String → JSValue → Nat → Int × JSContext)
    (JS_GetRuntime : Ptr → Nat) (arity : Nat) (b : ClassBuilder) (ctor_name : String)
    (w : BuilderWorld) : ClassBuilder × BuilderWorld :=
  match (if JS_IsUndefined b._proto then JS_NewObject w.modules.ctx
      else (b._proto, w.modules.ctx)) with
  | (proto, c1) =>
    match ClassBuilder.get_or_create_class_id JS_GetRuntime { b with _proto := proto }
        w.classes with
    | (class_id, classes1) =>
      match JS_NewCFunction2 c1 (b.cn ctor_name) arity with
      | (ctor, c2) =>
        match JS_DefinePropertyValue define_slow (JS_DupValue c2 proto) ctor "prototype" proto
            (JS_PROP_CONFIGURABLE ||| JS_PROP_WRITABLE) with
        | (_, c3) =>
          match JS_DefinePropertyValue define_slow (JS_DupValue c3 ctor) proto "constructor" ctor
              (JS_PROP_CONFIGURABLE ||| JS_PROP_WRITABLE) with
          | (_, c4) =>
            match JS_SetClassProto w.class_proto (JS_DupValue c4 proto) class_id proto with
            | (class_proto1, c5) =>
              ({ b with _proto := proto },
                { modules := Module.add_export b._module (b.cn ctor_name) ctor
                    { w.modules with ctx := c5 },
                  classes := classes1,
                  holder := Function.update w.holder b.T class_id,
                  class_proto := class_proto1 })

/-- The named properties of the object `r`. -/
def props_at (c : JSContext) (r : Nat) : Option (List JSProperty) :=
  (c.objects[r]?).map (fun o => o.props)

/-- The prototype of a builder is in place for a registration: memory is left,
and the prototype is either not created yet, or an object on which every
property named `constructor` is configurable. -/
def proto_ready (b : ClassBuilder) (c : JSContext) : Prop :=
  c.out_of_memory = false
  ∧ (b._proto = .undefined
    ∨ ∃ p ps, b._proto = .object p ∧ props_at c p = some ps
        ∧ ∀ q ∈ ps, q.name = "constructor" → q.flags &&& JS_PROP_CONFIGURABLE ≠ 0)

/-- The chained registrations `b.constructor<...>(name1).constructor<...>(name2)...`
on one builder, `regs` giving the arity and the name of each. -/
def ClassBuilder.constructors
    (define_slow : JSContext → JSValue → String → JSValue → Nat → Int × JSContext)
    (JS_GetRuntime : Ptr → Nat) (regs : List (Nat × String)) (b : ClassBuilder)
    (w : BuilderWorld) : ClassBuilder × BuilderWorld :=
  regs.foldl
    (fun s reg => ClassBuilder.constructor define_slow JS_GetRuntime reg.1 s.1 reg.2 s.2) (b, w)

/-- The export entry holds a function object whose property `prototype` is the
object `p`. -/
def exports_constructor_of (p : Nat) (c : JSContext) (e : ModuleExportEntry) : Prop :=
  ∃ n ps, e.value = .object n ∧ n ≠ p ∧ props_at c n = some ps
    ∧ { name := "prototype", value := .object p,
        flags := JS_PROP_CONFIGURABLE ||| JS_PROP_WRITABLE } ∈ ps

/-! ## Sample instantiation

The engine coercion and the native callables of `examples/main.cpp` used to
evaluate the adapters on concrete calls. -/

/-- The engine's `JS_ToInt32` on the tags where it needs neither the number
parser nor script code: an `int` is itself, a boolean is `0` or `1`, `null` and
`undefined` give `0`; a symbol cannot be converted (type error pending). Strings,
objects and the exception signal are reported as failures here; they occur in no
statement below. -/
def sample_ToInt32 (c : JSContext) (v : JSValue) : Option Int × JSContext :=
  match v with
  | .int n => (some n, c)
  | .bool b => (some (if b then 1 else 0), c)
  | .null => (some 0, c)
  | .undefined => (some 0, c)
  | .symbol _ =>
    (none, { c with current_exception := some (.TypeError "cannot convert symbol to number") })
  | _ => (none, { c with current_exception := some (.TypeError "not a number") })

def int32_tc : TypeConverter := TypeConverter_int32 sample_ToInt32

/-- The `int32_t` value two's-complement arithmetic gives for `n`: `n` itself
when it is in `[-2^31, 2^31)`. -/
def wrap_int32 (n : Int) : Int := (n + 2 ^ 31) % 2 ^ 32 - 2 ^ 31

/-- `int32_t test_int_function(int32_t a, int32_t b) { return a + b; }`. -/
def test_int_function : FreeFunction where
  ReturnType := some int32_tc
  Args := [.plain int32_tc, .plain int32_tc]
  Func := fun args =>
    match args with
    | [.int a, .int b] => .ok (.int (wrap_int32 (a + b)))
    | _ => .ok .void

/-- `int32_t TestClass::int_member_function(int32_t a) { return a * 2; }`. -/
def int_member_function : MemberFunction where
  ReturnType := some int32_tc
  Args := [.plain int32_tc]
  Member := fun inst args =>
    match args with
    | [.int a] => (.ok (.int (wrap_int32 (a * 2))), inst)
    | _ => (.ok .void, inst)

/-- `TestClass`, default-constructed: `int_member = 42` and `string_member`
(the `double` and vector members are left out). -/
def TestClass_default : Instance :=
  { type_id := 1, fields := [.int 42, .string "hello from c++"] }

def empty_ctx : JSContext := { objects := [], current_exception := none, out_of_memory := false }

def empty_world : World :=
  { ctx := empty_ctx, heap := { instances := [], cells := [], next := 0 },
    conversions := [], calls := [] }

/-- The engine's `JS_GetProperty` in a context whose object `0` is a constructor
function with the object `1` as its `prototype` property: the lookup returns a
new reference to that object. Every other lookup finds no property and yields
`undefined`, as the engine does for a missing property. -/
def sample_GetProperty (c : JSContext) (this_val : JSValue) (name : String) :
    JSValue × JSContext :=
  match this_val, name with
  | .object 0, "prototype" => (.object 1, JS_DupValue c (.object 1))
  | _, _ => (.undefined, c)

/-- A world with a constructor function (object `0`) and its prototype object
(object `1`), and no native objects. -/
def sample_world : World :=
  { ctx :=
      { objects :=
          [{ class_id := 12, ref_count := 1, payload := 0 },
           { class_id := 1, ref_count := 2, payload := 0 }],
        current_exception := none,
        out_of_memory := false },
    heap := { instances := [], cells := [], next := 0 },
    conversions := [],
    calls := [] }

/-- A constructor `T(int32_t)` that stores its argument. -/
def int_constructor : Constructor where
  Args := [.plain int32_tc]
  ctor := fun args =>
    match args with
    | [v] => .ok { type_id := 2, fields := [v] }
    | _ => .ok { type_id := 2, fields := [] }

/-- A constructor `T()` whose body throws `std::runtime_error("native failure")`. -/
def throwing_constructor : Constructor where
  Args := []
  ctor := fun _ => .error (.std_exception "native failure")

/-- A free function `void f()` whose body throws
`std::runtime_error("native failure")`. -/
def throwing_function : FreeFunction where
  ReturnType := none
  Args := []
  Func := fun _ => .error (.std_exception "native failure")

/-- A world with one instance of `TestClass` behind the engine object `0`, whose
class id is `57`: payload cell `2`, holding the instance pointer `1`. -/
def live_world : World :=
  { ctx :=
      { objects := [{ class_id := 57, ref_count := 1, payload := 2 }],
        current_exception := none,
        out_of_memory := false },
    heap := { instances := [(1, TestClass_default)], cells := [(2, 1)], next := 2 },
    conversions := [],
    calls := [] }

/-- An instance of another native class `U` (dynamic type `9`), with a single
data member. -/
def other_instance : Instance := { type_id := 9, fields := [.int 5] }

/-- A world with one instance of the class `U` behind the engine object `0`,
whose class id is `58`, the class registered for `U`. -/
def other_class_world : World :=
  { ctx :=
      { objects := [{ class_id := 58, ref_count := 1, payload := 2 }],
        current_exception := none,
        out_of_memory := false },
    heap := { instances := [(1, other_instance)], cells := [(2, 1)], next := 2 },
    conversions := [],
    calls := [] }

/-- A world whose engine object `0` carries an indirection cell that holds a
null instance pointer. -/
def null_instance_world : World :=
  { ctx :=
      { objects := [{ class_id := 57, ref_count := 1, payload := 2 }],
        current_exception := none,
        out_of_memory := false },
    heap := { instances := [], cells := [(2, 0)], next := 2 },
    conversions := [],
    calls := [] }

/-- The engine's generic conversion to a string, for `JS_ToCString` on values that
are not strings: a symbol cannot be converted (type error pending). The other
tags need the number formatter or script code; they are reported as failures
here and occur in no statement below. -/
def sample_ToString (c : JSContext) (v : JSValue) : Option String × JSContext :=
  match v with
  | .symbol _ =>
    (none, { c with current_exception := some (.TypeError "cannot convert symbol to string") })
  | _ => (none, { c with current_exception := some (.TypeError "not a string") })

/-- `TypeConverter<std::string>` over the engine's `JS_ToCString`. -/
def string_tc : TypeConverter := TypeConverter_string (JS_ToCString sample_ToString)

/-- `void test_rest_function(js::rest<std::string> args)`. -/
def test_rest_function : FreeFunction where
  ReturnType := none
  Args := [.rest string_tc]
  Func := fun _ => .ok .void

/-- `void test_void_function()`. -/
def test_void_function : FreeFunction where
  ReturnType := none
  Args := []
  Func := fun _ => .ok .void

/-- `void TestClass::void_member_function()`. -/
def void_member_function : MemberFunction where
  ReturnType := none
  Args := []
  Member := fun inst _ => (.ok .void, inst)

/-- The three-character string `a`, NUL, `b`. -/
def nul_string : String := String.mk [Char.ofNat 97, Char.ofNat 0, Char.ofNat 98]

/-- The engine's `JS_Call` for a script function that returns a newly created
plain object: the result is the only reference to it. -/
def sample_Call (c : JSContext) (_func_obj _this_obj : JSValue) (_argv : List JSValue) :
    JSValue × JSContext :=
  (.object c.objects.length,
    { c with objects := c.objects ++ [{ class_id := 1, ref_count := 1, payload := 0 }] })

/-- The engine's conversion to a number of a value that is not a number, where
the conversion runs script code that throws (an object whose `valueOf`
throws): failure, with the thrown value pending. -/
def throwing_valueOf (c : JSContext) (_v : JSValue) : Option Int × JSContext :=
  (none, { c with current_exception := some (.thrown (.string "valueOf")) })

/-- An engine `JS_Eval` for two source texts: `this is invalid javascript code`
does not parse (exception signal, with the error pending), any other text is
taken to evaluate to `30`. -/
def sample_Eval (c : JSContext) (code _filename : String) (_flags : Int) : JSValue × JSContext :=
  if code = "this is invalid javascript code" then
    (.exception, { c with current_exception := some (.thrown (.string "SyntaxError")) })
  else (.int 30, c)

/-- A `Context` with a live engine context, no module, and an exception callback
that only looks at the context. -/
def sample_context : Context :=
  { _context := 1, _modules := [], _on_exception := some (fun c => (.ok (), c)) }

/-- Two handles over `sample_world`: a valid handle of the object `1` and an
invalid handle. -/
def sample_handles : List Value := [{ _ctx := 1, _val := .object 1 }, Value.new]

/-- The native values of an integer type. -/
def is_int (x : CppValue) : Prop := ∃ n, x = .int n

/-- A `Context` over the engine context `1` that owns two modules: the first
exports the objects `0` and `1`, the second an entry without a value and the
object `1`. -/
def two_module_context : Context :=
  { _context := 1,
    _modules :=
      [{ _ctx := 1, _mod := 1, _name := "A",
         _exports := [{ name := "f", value := .object 0 }, { name := "g", value := .object 1 }] },
       { _ctx := 1, _mod := 2, _name := "B",
         _exports := [{ name := "u", value := .undefined }, { name := "h", value := .object 1 }] }],
    _on_exception := none }

/-- A process in which no class identifier has been created yet and whose only
runtime has handed out the identifiers below `56`. -/
def fresh_class_world : ClassWorld :=
  { class_id := fun _ => 0, runtimes := fun _ => { js_class_id_alloc := 56, classes := [] } }

/-- A builder for `TestClass` (native type `1`) in the module at address `0`. -/
def TestClass_builder : ClassBuilder :=
  { T := 1, _module := 0, _name := "TestClass", _context := 1, _proto := .undefined }

/-- No module yet, over the engine state of `sample_world`. -/
def no_module_world : ModuleWorld :=
  { ctx := sample_world.ctx, modules := [], current_module := none, next_def := 0,
    declared := [], published := [] }

/-- Two modules created in the context `1`: `A`, which exports the object `0` as
`f`, and then `B`, which exports the object `1` as `g`. -/
def two_module_world : ModuleWorld :=
  Module.add_export 1 "g" (.object 1)
    (Module.construct "B" 1
      (Module.add_export 0 "f" (.object 0) (Module.construct "A" 1 no_module_world).2)).2

/-- An engine state whose object `0` is the global object, without properties. -/
def global_ctx : JSContext :=
  { objects := [{ class_id := 1, ref_count := 1, payload := 0 }],
    current_exception := none, out_of_memory := false }

/-- An engine `JS_Eval` on a text that does not parse: the engine creates the
`SyntaxError` object, with its `stack` property, leaves it pending and returns
the exception signal. -/
def failing_Eval (c : JSContext) (_code _filename : String) (_flags : Int) :
    JSValue × JSContext :=
  (.exception,
    { c with
      objects := c.objects
        ++ [{ class_id := JS_CLASS_ERROR, ref_count := 1, payload := 0,
              props := [{ name := "stack", value := .string "    at <eval>:1:6",
                          flags := JS_PROP_CONFIGURABLE ||| JS_PROP_WRITABLE }] }],
      current_exception := some (.thrown (.object c.objects.length)) })

/-- The engine's conversion of an error object to a string: the text of the
error, with no effect on the engine state. -/
def error_ToString (c : JSContext) (_v : JSValue) : Option String × JSContext :=
  (some "SyntaxError: unexpected token", c)

/-- A `Context` over the engine context `1`, as constructed: with the default
exception callback. -/
def default_context : Context :=
  Context.construct (JS_ToCString error_ToString) sample_GetProperty 1

/-- The state in which `main` of `examples/main.cpp` registers `TestClass`: the
module `TestModule` at address `0`, an engine state without objects, and no
class identifier created yet. -/
def registration_world : BuilderWorld :=
  { modules :=
      (Module.construct "TestModule" 1
        { ctx := empty_ctx, modules := [], current_module := none, next_def := 0,
          declared := [], published := [] }).2,
    classes := fresh_class_world,
    holder := fun _ => 0,
    class_proto := [] }

/-! ## Object-table lemmas -/

theorem modify_object_length (f : JSObject → JSObject) (r : Nat) (l : List JSObject) :
    (modify_object f r l).length = l.length := by
  induction l generalizing r with
  | nil => cases r <;> rfl
  | cons o os ih =>
    cases r with
    | zero => rfl
    | succ n => simp [modify_object, ih]

theorem modify_object_append_left (f : JSObject → JSObject) (r : Nat) (l l2 : List JSObject)
    (h : r < l.length) : modify_object f r (l ++ l2) = modify_object f r l ++ l2 := by
  induction l generalizing r with
  | nil => simp at h
  | cons o os ih =>
    cases r with
    | zero => rfl
    | succ n =>
      have hn : n < os.length := by simpa using h
      simp [modify_object, ih n hn]

theorem modify_object_append_length (f : JSObject → JSObject) (l : List JSObject) (x : JSObject) :
    modify_object f l.length (l ++ [x]) = l ++ [f x] := by
  induction l with
  | nil => rfl
  | cons o os ih => simp [modify_object, ih]

theorem modify_object_twice (f g : JSObject → JSObject) (r : Nat) (l : List JSObject) :
    modify_object f r (modify_object g r l) = modify_object (fun o => f (g o)) r l := by
  induction l generalizing r with
  | nil => cases r <;> rfl
  | cons o os ih =>
    cases r with
    | zero => rfl
    | succ n => simp [modify_object, ih]

theorem modify_object_id (f : JSObject → JSObject) (hf : ∀ o, f o = o) (r : Nat)
    (l : List JSObject) : modify_object f r l = l := by
  induction l generalizing r with
  | nil => cases r <;> rfl
  | cons o os ih =>
    cases r with
    | zero => simp [modify_object, hf]
    | succ n => simp [modify_object, ih]

/-- Releasing the caller's reference to `proto` after an object was allocated with
it leaves every older object as it was and the new object last. -/
theorem free_proto_after_new (c : JSContext) (proto : JSValue) (x : JSObject)
    (hvalid : ∀ r, proto = .object r → r < c.objects.length) :
    JS_FreeValue { JS_DupValue c proto with objects := (JS_DupValue c proto).objects ++ [x] } proto
      = { c with objects := c.objects ++ [x] } := by
  cases proto with
  | object r =>
    have hr : r < c.objects.length := hvalid r rfl
    simp only [JS_FreeValue, JS_DupValue]
    rw [modify_object_append_left _ _ _ _ (by rw [modify_object_length]; exact hr),
      modify_object_twice, modify_object_id]
    intro o
    cases o
    simp
  | _ => rfl

/-! ## The constructor adapter -/

/-- C1. A constructor registered with `N ≥ 1` parameters and called with fewer
than `N` arguments, once the prototype lookup and the allocation of the engine
object have succeeded: the adapter returns the exception signal with a type
error pending, converts no argument, leaves the native heap as it was (no
instance, no cell), and the object it allocated ends with no reference and no
payload, every older object being as the prototype lookup left it. -/
theorem constructor_wrapper_too_few_arguments
    (JS_GetProperty : JSContext → JSValue → String → JSValue × JSContext)
    (class_id : JSClassID) (K : Constructor) (this_val : JSValue) (argv : List JSValue)
    (w : World) (proto : JSValue) (c1 : JSContext)
    (hN : 1 ≤ K.Args.length) (hargc : argv.length < K.Args.length)
    (hget : JS_GetProperty w.ctx this_val "prototype" = (proto, c1))
    (hproto : JS_IsException proto = false)
    (hvalid : ∀ r, proto = .object r → r < c1.objects.length)
    (hmem : c1.out_of_memory = false) :
    (ClassBuilder.constructor_wrapper JS_GetProperty class_id K this_val argv w).1 = .exception
    ∧ (ClassBuilder.constructor_wrapper JS_GetProperty class_id K this_val argv w).2.ctx.current_exception
        = some (.TypeError ("Expected " ++ toString K.Args.length
            ++ " arguments but received " ++ toString argv.length))
    ∧ (ClassBuilder.constructor_wrapper JS_GetProperty class_id K this_val argv w).2.conversions
        = w.conversions
    ∧ (ClassBuilder.constructor_wrapper JS_GetProperty class_id K this_val argv w).2.calls = w.calls
    ∧ (ClassBuilder.constructor_wrapper JS_GetProperty class_id K this_val argv w).2.heap = w.heap
    ∧ (ClassBuilder.constructor_wrapper JS_GetProperty class_id K this_val argv w).2.ctx.objects
        = c1.objects ++ [{ class_id := class_id, ref_count := 0, payload := 0 }] := by
  obtain ⟨Args, ctor⟩ := K
  cases Args with
  | nil => simp at hN
  | cons p ps =>
    have hnew : JS_NewObjectProtoClass c1 proto class_id
        = (.object c1.objects.length,
            { JS_DupValue c1 proto with
              objects := (JS_DupValue c1 proto).objects
                ++ [{ class_id := class_id, ref_count := 1, payload := 0 }] }) := by
      simp [JS_NewObjectProtoClass, hmem]
    have hlt : argv.length < (p :: ps).length := hargc
    have hobj : JS_IsException (.object c1.objects.length) = false := rfl
    simp only [ClassBuilder.constructor_wrapper, hget, hnew, hproto, hobj, Bool.false_eq_true,
      if_false]
    rw [free_proto_after_new c1 proto _ hvalid]
    simp only [ConstructorWrapper.create, hlt, if_true, JS_ThrowTypeError]
    simp [JS_FreeValue, modify_object_append_length]

/-- C1 at a concrete call: the one-parameter constructor `int_constructor` called
with no argument in `sample_world`. -/
theorem constructor_wrapper_too_few_arguments_witness :
    (ClassBuilder.constructor_wrapper sample_GetProperty 57 int_constructor (.object 0) []
        sample_world).1 = .exception
    ∧ (ClassBuilder.constructor_wrapper sample_GetProperty 57 int_constructor (.object 0) []
        sample_world).2.ctx.current_exception
        = some (.TypeError ("Expected " ++ toString int_constructor.Args.length
            ++ " arguments but received " ++ toString ([] : List JSValue).length))
    ∧ (ClassBuilder.constructor_wrapper sample_GetProperty 57 int_constructor (.object 0) []
        sample_world).2.conversions = sample_world.conversions
    ∧ (ClassBuilder.constructor_wrapper sample_GetProperty 57 int_constructor (.object 0) []
        sample_world).2.calls = sample_world.calls
    ∧ (ClassBuilder.constructor_wrapper sample_GetProperty 57 int_constructor (.object 0) []
        sample_world).2.heap = sample_world.heap
    ∧ (ClassBuilder.constructor_wrapper sample_GetProperty 57 int_constructor (.object 0) []
        sample_world).2.ctx.objects
        = (JS_DupValue sample_world.ctx (.object 1)).objects
            ++ [{ class_id := 57, ref_count := 0, payload := 0 }] :=
  constructor_wrapper_too_few_arguments sample_GetProperty 57 int_constructor (.object 0) []
    sample_world (.object 1) (JS_DupValue sample_world.ctx (.object 1))
    (by decide) (by decide) rfl rfl (by intro r h; cases h; decide) rfl

/-- C2. The code departs from the specification here: `new T(1 argument)` called with a symbol,
whose conversion to `int32_t` throws, and `new T()` whose native constructor
throws. In both calls the adapter lets no native exception out and returns the
exception signal with an internal error pending, but the engine object it
allocated (object `2`) still has its one reference: no handler releases it. -/
theorem constructor_wrapper_throw_keeps_object :
    (ClassBuilder.constructor_wrapper sample_GetProperty 57 int_constructor (.object 0)
        [.symbol 7] sample_world).1 = .exception
    ∧ (ClassBuilder.constructor_wrapper sample_GetProperty 57 int_constructor (.object 0)
        [.symbol 7] sample_world).2.ctx.current_exception
        = some (.InternalError "Constructor failed: Failed to convert to int32")
    ∧ (ClassBuilder.constructor_wrapper sample_GetProperty 57 int_constructor (.object 0)
        [.symbol 7] sample_world).2.ctx.objects[2]?
        = some { class_id := 57, ref_count := 1, payload := 0 }
    ∧ (ClassBuilder.constructor_wrapper sample_GetProperty 57 throwing_constructor (.object 0)
        [] sample_world).1 = .exception
    ∧ (ClassBuilder.constructor_wrapper sample_GetProperty 57 throwing_constructor (.object 0)
        [] sample_world).2.ctx.current_exception
        = some (.InternalError "Constructor failed: native failure")
    ∧ (ClassBuilder.constructor_wrapper sample_GetProperty 57 throwing_constructor (.object 0)
        [] sample_world).2.ctx.objects[2]?
        = some { class_id := 57, ref_count := 1, payload := 0 } := by
  refine ⟨rfl, ?_, rfl, rfl, ?_, rfl⟩ <;> decide

/-! ## The free-function adapter: errors -/

/-- C3. The code departs from the specification here: a registered `void f()` whose body throws.
The adapter returns the exception signal, and the context has no pending
exception afterwards: the handler raises nothing. -/
theorem free_function_throw_raises_nothing :
    (FreeFunctionWrapper.call throwing_function [] empty_world).1 = .exception
    ∧ (FreeFunctionWrapper.call throwing_function [] empty_world).2.ctx.current_exception = none
    ∧ (FreeFunctionWrapper.call throwing_function [] empty_world).2.calls.length = 1 := by
  decide

/-! ## The property adapters: errors -/

/-- C4. The code departs from the specification here: the setter of the `int32_t` member at
position `0`, invoked on a live instance with a symbol. The conversion throws and
the exception leaves the `noexcept` setter: the outcome is termination, not a
returned exception signal. -/
theorem setter_conversion_error_terminates :
    (MemberPropertyWrapper.setter int32_tc 0 (.object 0) [.symbol 7] live_world).1
      = .terminated := by
  decide

/-- C7. The code departs from the specification here: the property adapters of the `int32_t`
member at position `0` on the plain object `1` of `sample_world` (no payload) and
on object `0` of `null_instance_world` (a cell holding a null instance pointer).
The getter returns `undefined`; the setter returns the exception signal and
writes nothing, but raises no engine error: the context has no pending
exception afterwards. -/
theorem property_adapters_dead_receiver :
    (MemberPropertyWrapper.getter int32_tc 0 (.object 1) sample_world).1 = .returned .undefined
    ∧ (MemberPropertyWrapper.getter int32_tc 0 (.object 0) null_instance_world).1
        = .returned .undefined
    ∧ (MemberPropertyWrapper.setter int32_tc 0 (.object 1) [.int 5] sample_world).1
        = .returned .exception
    ∧ (MemberPropertyWrapper.setter int32_tc 0 (.object 1) [.int 5] sample_world).2.ctx.current_exception
        = none
    ∧ (MemberPropertyWrapper.setter int32_tc 0 (.object 0) [.int 5] null_instance_world).1
        = .returned .exception
    ∧ (MemberPropertyWrapper.setter int32_tc 0 (.object 0) [.int 5]
        null_instance_world).2.ctx.current_exception = none
    ∧ (MemberPropertyWrapper.setter int32_tc 0 (.object 0) [.int 5] null_instance_world).2.heap
        = null_instance_world.heap := by
  refine ⟨?_, ?_, ?_, ?_, ?_, ?_, rfl⟩ <;> decide

/-! ## The member-function adapter: receivers -/

/-- C5. A receiver without payload, or whose indirection cell holds a null instance
pointer: the adapter returns the exception signal with the type error
"Invalid C++ object" pending, converts no argument, does not invoke the member
function and leaves the native heap as it was. -/
theorem member_function_dead_receiver (M : MemberFunction) (this_val : JSValue)
    (argv : List JSValue) (w : World)
    (hdead : JS_GetOpaque w.ctx this_val (JS_GetClassID w.ctx this_val) = 0
      ∨ w.heap.cells.lookup (JS_GetOpaque w.ctx this_val (JS_GetClassID w.ctx this_val))
          = some 0) :
    (MemberFunctionWrapper.call M this_val argv w).1 = .returned .exception
    ∧ (MemberFunctionWrapper.call M this_val argv w).2.ctx.current_exception
        = some (.TypeError "Invalid C++ object")
    ∧ (MemberFunctionWrapper.call M this_val argv w).2.conversions = w.conversions
    ∧ (MemberFunctionWrapper.call M this_val argv w).2.calls = w.calls
    ∧ (MemberFunctionWrapper.call M this_val argv w).2.heap = w.heap := by
  unfold MemberFunctionWrapper.call
  by_cases h0 : JS_GetOpaque w.ctx this_val (JS_GetClassID w.ctx this_val) = 0
  · simp [h0, JS_ThrowTypeError]
  · rcases hdead with h | h
    · exact absurd h h0
    · simp [h0, h, JS_ThrowTypeError]

/-- C5 at concrete calls: `int_member_function` on the plain object `1` of
`sample_world` (no payload) and on object `0` of `null_instance_world` (null
instance pointer). -/
theorem member_function_dead_receiver_witness :
    ((MemberFunctionWrapper.call int_member_function (.object 1) [.int 100] sample_world).1
        = .returned .exception
      ∧ (MemberFunctionWrapper.call int_member_function (.object 1) [.int 100]
          sample_world).2.calls = sample_world.calls)
    ∧ ((MemberFunctionWrapper.call int_member_function (.object 0) [.int 100]
          null_instance_world).1 = .returned .exception
      ∧ (MemberFunctionWrapper.call int_member_function (.object 0) [.int 100]
          null_instance_world).2.calls = null_instance_world.calls) :=
  ⟨⟨(member_function_dead_receiver int_member_function (.object 1) [.int 100] sample_world
        (Or.inl (by decide))).1,
      (member_function_dead_receiver int_member_function (.object 1) [.int 100] sample_world
        (Or.inl (by decide))).2.2.2.1⟩,
    ⟨(member_function_dead_receiver int_member_function (.object 0) [.int 100]
        null_instance_world (Or.inr (by decide))).1,
      (member_function_dead_receiver int_member_function (.object 0) [.int 100]
        null_instance_world (Or.inr (by decide))).2.2.2.1⟩⟩

/-- C6. The code departs from the specification here: `int_member_function`, bound for
`TestClass` (class id `57`), called with `100` on object `0` of
`other_class_world`, a live instance of the class `U` (class id `58`, dynamic
type `9`). The payload is fetched under the receiver's own class id, so the
call is not rejected: no error is raised, the member function runs on the
instance of `U` at address `1`, and its result `200` is returned. -/
theorem member_function_other_class_receiver :
    JS_GetClassID other_class_world.ctx (.object 0) = 58
    ∧ other_class_world.heap.instances.lookup 1 = some other_instance
    ∧ other_instance.type_id ≠ TestClass_default.type_id
    ∧ (MemberFunctionWrapper.call int_member_function (.object 0) [.int 100]
        other_class_world).1 = .returned (.int 200)
    ∧ (MemberFunctionWrapper.call int_member_function (.object 0) [.int 100]
        other_class_world).2.ctx.current_exception = none
    ∧ (MemberFunctionWrapper.call int_member_function (.object 0) [.int 100]
        other_class_world).2.calls = [(1, [.int 100])] := by
  refine ⟨rfl, rfl, by decide, by decide, by decide, rfl⟩

/-! ## Argument conversion -/

theorem push_back_loop_calls (elem : TypeConverter) (argv : List JSValue) :
    ∀ (i : Nat) (args : List CppValue) (w : World),
      (push_back_loop elem argv i args w).2.calls = w.calls
      ∧ (push_back_loop elem argv i args w).2.heap = w.heap := by
  induction argv with
  | nil => intro i args w; exact ⟨rfl, rfl⟩
  | cons a rest ih =>
    intro i args w
    unfold push_back_loop
    rcases hconv : elem.from_js w.ctx a with ⟨r, c⟩
    cases r with
    | error e => exact ⟨rfl, rfl⟩
    | ok v => exact ih _ _ _

theorem from_js_pack_calls (argv : List JSValue) (ps : List ParamType) :
    ∀ (i : Nat) (w : World),
      (from_js_pack ps i argv w).2.calls = w.calls
      ∧ (from_js_pack ps i argv w).2.heap = w.heap := by
  induction ps with
  | nil => intro i w; exact ⟨rfl, rfl⟩
  | cons p ps ih =>
    intro i w
    unfold from_js_pack
    rcases hconv : p.converter.from_js w.ctx (argv_at argv i) with ⟨r, c⟩
    cases r with
    | error e => exact ⟨rfl, rfl⟩
    | ok v =>
      have h := ih (i + 1)
        { w with ctx := c, conversions := w.conversions ++ [(i, argv_at argv i)] }
      rcases hrec : from_js_pack ps (i + 1) argv
          { w with ctx := c, conversions := w.conversions ++ [(i, argv_at argv i)] } with ⟨r1, w1⟩
      rw [hrec] at h
      cases r1 with
      | error e => simp only [hrec]; exact h
      | ok vs => simp only [hrec]; exact h

/-- The loop over the supplied arguments, when the conversions succeed one after
the other through the contexts `cs i`, `cs (i+1)`, ...: it returns the collection
extended by the converted values, in order. -/
theorem push_back_loop_ok (elem : TypeConverter) (cs : Nat → JSContext) (argv : List JSValue) :
    ∀ (i : Nat) (args vs : List CppValue) (w : World),
      w.ctx = cs i → vs.length = argv.length →
      (∀ j a, argv[j]? = some a →
        ∃ v, vs[j]? = some v ∧ elem.from_js (cs (i + j)) a = (.ok v, cs (i + j + 1))) →
      (push_back_loop elem argv i args w).1 = .ok (args ++ vs)
      ∧ (push_back_loop elem argv i args w).2.ctx = cs (i + argv.length) := by
  induction argv with
  | nil =>
    intro i args vs w hctx hlen _
    have hvs : vs = [] := List.length_eq_zero.mp hlen
    subst hvs
    simp [push_back_loop, hctx]
  | cons a rest ih =>
    intro i args vs w hctx hlen hconv
    cases vs with
    | nil => simp at hlen
    | cons v vs1 =>
      obtain ⟨v0, hv0, h0⟩ := hconv 0 a (by simp)
      have hv : v0 = v := by simpa using hv0.symm
      subst hv
      have hstep : elem.from_js w.ctx a = (.ok v0, cs (i + 1)) := by
        rw [hctx]; simpa using h0
      have hrec := ih (i + 1) (args ++ [v0]) vs1
        { w with ctx := cs (i + 1), conversions := w.conversions ++ [(i, a)] } rfl
        (by simpa using hlen)
        (by
          intro j b hb
          obtain ⟨u, hu, hub⟩ := hconv (j + 1) b (by simpa using hb)
          refine ⟨u, by simpa using hu, ?_⟩
          have e1 : i + 1 + j = i + (j + 1) := by omega
          rw [e1]
          exact hub)
      unfold push_back_loop
      rw [hstep]
      have e2 : i + (a :: rest).length = i + 1 + rest.length := by
        simp only [List.length_cons]; omega
      rw [e2]
      simpa using hrec

theorem free_function_apply_calls (F : FreeFunction) (args : List CppValue) (w : World) :
    (FreeFunctionWrapper.apply F args w).2.calls = w.calls ++ [(0, args)] := by
  unfold FreeFunctionWrapper.apply
  cases F.Func args with
  | error e => rfl
  | ok r =>
    cases F.ReturnType with
    | none => rfl
    | some tc => rfl

theorem free_function_call_world (F : FreeFunction) (argv : List JSValue) (w : World) :
    (FreeFunctionWrapper.call F argv w).2 = (FreeFunctionWrapper.invoke F argv w).2 := by
  unfold FreeFunctionWrapper.call
  rcases FreeFunctionWrapper.invoke F argv w with ⟨r, w1⟩
  cases r <;> rfl

/-! ## The free-function adapter: rest parameter -/

/-- C8. A registered function whose sole parameter is `rest<T>`, called with the
`K` arguments `argv`, where converting the `i`-th argument with the converter of
`T` yields `v i` (the conversions run one after the other through the contexts
`cs 0`, `cs 1`, ...): the call adds exactly one invocation of the native function,
its single argument is a collection `xs` of exactly `K` elements, the `i`-th
being `v i`; with no argument the collection is empty. -/
theorem rest_function_receives_every_argument (F : FreeFunction) (elem : TypeConverter)
    (argv : List JSValue) (w : World) (cs : Nat → JSContext) (v : Nat → CppValue)
    (hsole : F.Args = [.rest elem])
    (hctx : w.ctx = cs 0)
    (hconv : ∀ i a, argv[i]? = some a → elem.from_js (cs i) a = (.ok (v i), cs (i + 1))) :
    (∃ xs : List CppValue,
      (FreeFunctionWrapper.call F argv w).2.calls = w.calls ++ [(0, [.rest xs])]
      ∧ xs.length = argv.length
      ∧ ∀ i, i < argv.length → xs[i]? = some (v i))
    ∧ (argv = [] →
        (FreeFunctionWrapper.call F argv w).2.calls = w.calls ++ [(0, [.rest []])]) := by
  have hloop := push_back_loop_ok elem cs argv 0 [] ((List.range argv.length).map v) w hctx
    (by simp)
    (by
      intro j a ha
      have hj : j < argv.length := by
        rcases Nat.lt_or_ge j argv.length with h | h
        · exact h
        · rw [List.getElem?_eq_none h] at ha; cases ha
      refine ⟨v j, by simp [List.getElem?_map, List.getElem?_range hj], ?_⟩
      simpa using hconv j a ha)
  have hcalls := (push_back_loop_calls elem argv 0 [] w).1
  have key : (FreeFunctionWrapper.call F argv w).2.calls
      = w.calls ++ [(0, [.rest ((List.range argv.length).map v)])] := by
    have hinv : FreeFunctionWrapper.invoke F argv w
        = (match push_back_loop elem argv 0 [] w with
          | (.error e, w1) => (.error e, w1)
          | (.ok args, w1) => FreeFunctionWrapper.apply F [.rest args] w1) := by
      unfold FreeFunctionWrapper.invoke
      rw [hsole]
    rw [free_function_call_world, hinv]
    rcases hpl : push_back_loop elem argv 0 [] w with ⟨r, w1⟩
    rw [hpl] at hloop hcalls
    obtain ⟨hr, -⟩ := hloop
    simp only at hr hcalls
    subst hr
    simp only [List.nil_append]
    rw [free_function_apply_calls, hcalls]
  refine ⟨⟨(List.range argv.length).map v, key, by simp, ?_⟩, ?_⟩
  · intro i hi
    simp [List.getElem?_map, List.getElem?_range hi]
  · intro hnil
    rw [key, hnil]
    rfl

/-- C8 at the call `testRestFunction("a", "b", "c")` of `test_rest_function`. -/
theorem rest_function_receives_every_argument_witness :
    (∃ xs : List CppValue,
      (FreeFunctionWrapper.call test_rest_function [.string "a", .string "b", .string "c"]
          empty_world).2.calls = empty_world.calls ++ [(0, [.rest xs])]
      ∧ xs.length = [JSValue.string "a", .string "b", .string "c"].length
      ∧ ∀ i, i < [JSValue.string "a", .string "b", .string "c"].length →
          xs[i]? = some ([CppValue.string "a", .string "b", .string "c"].getD i .void))
    ∧ (FreeFunctionWrapper.call test_rest_function [] empty_world).2.calls
        = empty_world.calls ++ [(0, [.rest []])] :=
  ⟨(rest_function_receives_every_argument test_rest_function string_tc
      [.string "a", .string "b", .string "c"] empty_world (fun _ => empty_ctx)
      (fun i => [CppValue.string "a", .string "b", .string "c"].getD i .void) rfl rfl
      (by
        intro i a ha
        rcases i with _ | _ | _ | i <;> simp at ha <;> subst ha <;> rfl)).1,
    (rest_function_receives_every_argument test_rest_function string_tc [] empty_world
      (fun _ => empty_ctx) (fun _ => .void) rfl rfl
      (by intro i a ha; simp at ha)).2 rfl⟩

/-! ## Fixed arity: the result of a call -/

/-- The pack expansion, when the conversions succeed one after the other through
the contexts `cs i`, `cs (i+1)`, ...: it returns the converted values in order. -/
theorem from_js_pack_ok (cs : Nat → JSContext) (argv : List JSValue) (ps : List ParamType) :
    ∀ (i : Nat) (vs : List CppValue) (w : World),
      w.ctx = cs i → vs.length = ps.length →
      (∀ j p, ps[j]? = some p →
        ∃ x, vs[j]? = some x
          ∧ p.converter.from_js (cs (i + j)) (argv_at argv (i + j)) = (.ok x, cs (i + j + 1))) →
      (from_js_pack ps i argv w).1 = .ok vs
      ∧ (from_js_pack ps i argv w).2.ctx = cs (i + ps.length) := by
  induction ps with
  | nil =>
    intro i vs w hctx hlen _
    have hvs : vs = [] := List.length_eq_zero.mp hlen
    subst hvs
    simp [from_js_pack, hctx]
  | cons p ps ih =>
    intro i vs w hctx hlen hconv
    cases vs with
    | nil => simp at hlen
    | cons x vs1 =>
      obtain ⟨x0, hx0, h0⟩ := hconv 0 p (by simp)
      have hx : x0 = x := by simpa using hx0.symm
      subst hx
      have hstep : p.converter.from_js w.ctx (argv_at argv i) = (.ok x0, cs (i + 1)) := by
        rw [hctx]; simpa using h0
      have hrec := ih (i + 1) vs1
        { w with ctx := cs (i + 1), conversions := w.conversions ++ [(i, argv_at argv i)] } rfl
        (by simpa using hlen)
        (by
          intro j q hq
          obtain ⟨u, hu, huq⟩ := hconv (j + 1) q (by simpa using hq)
          refine ⟨u, by simpa using hu, ?_⟩
          have e1 : i + 1 + j = i + (j + 1) := by omega
          rw [e1]
          exact huq)
      have e2 : i + (p :: ps).length = i + 1 + ps.length := by
        simp only [List.length_cons]; omega
      unfold from_js_pack
      rw [hstep, e2]
      rcases hpk : from_js_pack ps (i + 1) argv
          { w with ctx := cs (i + 1), conversions := w.conversions ++ [(i, argv_at argv i)] }
        with ⟨r1, w1⟩
      rw [hpk] at hrec
      obtain ⟨hr1, hc1⟩ := hrec
      simp only at hr1 hc1
      subst hr1
      simp [hpk, hc1]

/-- The hypotheses of a call with exactly `N` arguments, each converted
successfully, in the form `from_js_pack_ok` takes them. -/
theorem pack_hypothesis (Args : List ParamType) (argv : List JSValue) (cs : Nat → JSContext)
    (v : Nat → CppValue) (hargc : argv.length = Args.length)
    (hconv : ∀ i p a, Args[i]? = some p → argv[i]? = some a →
      p.converter.from_js (cs i) a = (.ok (v i), cs (i + 1))) :
    ∀ j p, Args[j]? = some p →
      ∃ x, ((List.range Args.length).map v)[j]? = some x
        ∧ p.converter.from_js (cs (0 + j)) (argv_at argv (0 + j)) = (.ok x, cs (0 + j + 1)) := by
  intro j p hp
  have hj : j < Args.length := by
    rcases Nat.lt_or_ge j Args.length with h | h
    · exact h
    · rw [List.getElem?_eq_none h] at hp; cases hp
  have hja : j < argv.length := by omega
  have ha : argv[j]? = some (argv_at argv j) := by
    simp [argv_at, List.getD, List.getElem?_eq_getElem hja]
  refine ⟨v j, by simp [List.getElem?_map, List.getElem?_range hj], ?_⟩
  simpa using hconv j p (argv_at argv j) hp ha

theorem free_function_apply_ok (F : FreeFunction) (tc : TypeConverter) (args : List CppValue)
    (w : World) (r : CppValue) (hret : F.ReturnType = some tc) (hF : F.Func args = .ok r) :
    (FreeFunctionWrapper.apply F args w).1 = .ok (tc.to_js w.ctx r).1 := by
  unfold FreeFunctionWrapper.apply
  rw [hF, hret]

theorem member_function_apply_ok (M : MemberFunction) (tc : TypeConverter) (obj : Ptr)
    (inst inst1 : Instance) (args : List CppValue) (w : World) (r : CppValue)
    (hret : M.ReturnType = some tc) (hM : M.Member inst args = (.ok r, inst1)) :
    (MemberFunctionWrapper.apply M obj inst args w).1 = .ok (tc.to_js w.ctx r).1 := by
  unfold MemberFunctionWrapper.apply
  rw [hM, hret]

theorem free_function_invoke_impl_ok (Args : List ParamType) (tc : TypeConverter)
    (argv : List JSValue) (w : World) (cs : Nat → JSContext) (v : Nat → CppValue)
    (hargc : argv.length = Args.length) (hctx : w.ctx = cs 0)
    (hconv : ∀ i p a, Args[i]? = some p → argv[i]? = some a →
      p.converter.from_js (cs i) a = (.ok (v i), cs (i + 1)))
    (Func : List CppValue → Except CppException CppValue) (r : CppValue)
    (hF : Func ((List.range Args.length).map v) = .ok r) :
    (FreeFunctionWrapper.invoke_impl { ReturnType := some tc, Args := Args, Func := Func }
        argv w).1 = .ok (tc.to_js (cs Args.length) r).1 := by
  have hpack := from_js_pack_ok cs argv Args 0 ((List.range Args.length).map v) w hctx
    (by simp) (pack_hypothesis Args argv cs v hargc hconv)
  unfold FreeFunctionWrapper.invoke_impl
  rcases hpk : from_js_pack Args 0 argv w with ⟨r1, w1⟩
  rw [hpk] at hpack
  obtain ⟨hr1, hc1⟩ := hpack
  simp only at hr1 hc1
  subst hr1
  simp only
  rw [free_function_apply_ok _ tc _ _ r rfl hF, hc1, Nat.zero_add]

theorem member_function_invoke_ok (Args : List ParamType) (tc : TypeConverter)
    (argv : List JSValue) (w : World) (cs : Nat → JSContext) (v : Nat → CppValue)
    (hargc : argv.length = Args.length) (hctx : w.ctx = cs 0)
    (hconv : ∀ i p a, Args[i]? = some p → argv[i]? = some a →
      p.converter.from_js (cs i) a = (.ok (v i), cs (i + 1)))
    (Member : Instance → List CppValue → Except CppException CppValue × Instance)
    (obj : Ptr) (inst inst1 : Instance) (r : CppValue)
    (hM : Member inst ((List.range Args.length).map v) = (.ok r, inst1)) :
    (MemberFunctionWrapper.invoke { ReturnType := some tc, Args := Args, Member := Member }
        obj inst argv w).1 = .ok (tc.to_js (cs Args.length) r).1 := by
  cases Args with
  | nil =>
    show (MemberFunctionWrapper.apply _ obj inst [] w).1 = _
    rw [member_function_apply_ok _ tc obj inst inst1 [] w r rfl (by simpa using hM), hctx]
    rfl
  | cons p ps =>
    have hpack := from_js_pack_ok cs argv (p :: ps) 0 ((List.range (p :: ps).length).map v) w
      hctx (by simp) (pack_hypothesis (p :: ps) argv cs v hargc hconv)
    show (MemberFunctionWrapper.invoke_impl _ obj inst argv w).1 = _
    unfold MemberFunctionWrapper.invoke_impl
    rcases hpk : from_js_pack (p :: ps) 0 argv w with ⟨r1, w1⟩
    rw [hpk] at hpack
    obtain ⟨hr1, hc1⟩ := hpack
    simp only at hr1 hc1
    subst hr1
    simp only
    rw [member_function_apply_ok _ tc obj inst inst1 _ w1 r rfl hM, hc1, Nat.zero_add]

theorem free_function_invoke_ok (Args : List ParamType) (tc : TypeConverter)
    (argv : List JSValue) (w : World) (cs : Nat → JSContext) (v : Nat → CppValue)
    (hargc : argv.length = Args.length) (hctx : w.ctx = cs 0)
    (hconv : ∀ i p a, Args[i]? = some p → argv[i]? = some a →
      p.converter.from_js (cs i) a = (.ok (v i), cs (i + 1)))
    (Func : List CppValue → Except CppException CppValue) (r : CppValue)
    (hF : Func ((List.range Args.length).map v) = .ok r) :
    (FreeFunctionWrapper.invoke { ReturnType := some tc, Args := Args, Func := Func }
        argv w).1 = .ok (tc.to_js (cs Args.length) r).1 := by
  cases Args with
  | nil =>
    show (FreeFunctionWrapper.apply _ [] w).1 = _
    rw [free_function_apply_ok _ tc [] w r rfl (by simpa using hF), hctx]
    rfl
  | cons p ps =>
    cases ps with
    | cons q qs =>
      have hinv : FreeFunctionWrapper.invoke
            { ReturnType := some tc, Args := p :: q :: qs, Func := Func } argv w
          = FreeFunctionWrapper.invoke_impl
            { ReturnType := some tc, Args := p :: q :: qs, Func := Func } argv w := by
        cases p <;> rfl
      rw [hinv]
      exact free_function_invoke_impl_ok (p :: q :: qs) tc argv w cs v hargc hctx hconv Func r hF
    | nil =>
      cases p with
      | plain t =>
        exact free_function_invoke_impl_ok [.plain t] tc argv w cs v hargc hctx hconv Func r hF
      | rest elem =>
        cases argv with
        | nil => simp at hargc
        | cons a as =>
          cases as with
          | cons b bs => simp at hargc
          | nil =>
            have h0 := hconv 0 (.rest elem) a (by simp) (by simp)
            simp only [ParamType.converter, TypeConverter_rest] at h0
            rcases hel : elem.from_js (cs 0) a with ⟨r0, c0⟩
            rw [hel] at h0
            cases r0 with
            | error e => simp at h0
            | ok x =>
              simp only [Prod.mk.injEq, Except.ok.injEq] at h0
              obtain ⟨hx, hc⟩ := h0
              have hF1 : Func [.rest [x]] = .ok r := by
                rw [hx]; simpa [List.range_succ] using hF
              show (match push_back_loop elem [a] 0 [] w with
                | (Except.error e, w1) => (Except.error e, w1)
                | (Except.ok args, w1) =>
                  FreeFunctionWrapper.apply
                    { ReturnType := some tc, Args := [.rest elem], Func := Func }
                    [.rest args] w1).1 = _
              simp only [push_back_loop, hctx, hel, List.nil_append]
              rw [free_function_apply_ok _ tc _ _ r rfl hF1]
              simp [hc]

/-- C9. A free function or member function with parameter types `Args` and a
non-void return type with converter `tc`, called with exactly `N` arguments,
where converting the `i`-th argument with the converter of the `i`-th parameter
type yields `v i` (the conversions run one after the other through the contexts
`cs 0`, `cs 1`, ...): if the native callable returns `r` on `v 0, ..., v (N-1)`,
the adapter returns `to_js r`; for a member function the receiver holds a live
instance `inst`. -/
theorem adapter_returns_converted_result (Args : List ParamType) (tc : TypeConverter)
    (argv : List JSValue) (w : World) (cs : Nat → JSContext) (v : Nat → CppValue)
    (hargc : argv.length = Args.length) (hctx : w.ctx = cs 0)
    (hconv : ∀ i p a, Args[i]? = some p → argv[i]? = some a →
      p.converter.from_js (cs i) a = (.ok (v i), cs (i + 1))) :
    (∀ (Func : List CppValue → Except CppException CppValue) (r : CppValue),
      Func ((List.range Args.length).map v) = .ok r →
      (FreeFunctionWrapper.call { ReturnType := some tc, Args := Args, Func := Func } argv w).1
        = (tc.to_js (cs Args.length) r).1)
    ∧ (∀ (Member : Instance → List CppValue → Except CppException CppValue × Instance)
        (this_val : JSValue) (obj : Ptr) (inst inst1 : Instance) (r : CppValue),
      JS_GetOpaque w.ctx this_val (JS_GetClassID w.ctx this_val) ≠ 0 →
      w.heap.cells.lookup (JS_GetOpaque w.ctx this_val (JS_GetClassID w.ctx this_val))
        = some obj →
      obj ≠ 0 →
      w.heap.instances.lookup obj = some inst →
      Member inst ((List.range Args.length).map v) = (.ok r, inst1) →
      (MemberFunctionWrapper.call { ReturnType := some tc, Args := Args, Member := Member }
          this_val argv w).1 = .returned (tc.to_js (cs Args.length) r).1) := by
  constructor
  · intro Func r hF
    have h := free_function_invoke_ok Args tc argv w cs v hargc hctx hconv Func r hF
    unfold FreeFunctionWrapper.call
    rcases hinv : FreeFunctionWrapper.invoke
        { ReturnType := some tc, Args := Args, Func := Func } argv w with ⟨r1, w1⟩
    rw [hinv] at h
    simp only at h
    subst h
    rfl
  · intro Member this_val obj inst inst1 r hp hcell hobj hinst hM
    have h := member_function_invoke_ok Args tc argv w cs v hargc hctx hconv Member obj inst
      inst1 r hM
    unfold MemberFunctionWrapper.call
    rw [if_neg hp]
    simp only [hcell, if_neg hobj, hinst]
    rcases hinv : MemberFunctionWrapper.invoke
        { ReturnType := some tc, Args := Args, Member := Member } obj inst argv w with ⟨r1, w1⟩
    rw [hinv] at h
    simp only at h
    subst h
    rfl

/-- C9 at the calls `testIntFunction(10, 20)`, which yields `30`, and
`intMemberFunction(100)` on a live `TestClass` instance, which yields `200`. -/
theorem adapter_returns_converted_result_witness :
    (FreeFunctionWrapper.call test_int_function [.int 10, .int 20] empty_world).1 = .int 30
    ∧ (MemberFunctionWrapper.call int_member_function (.object 0) [.int 100] live_world).1
        = .returned (.int 200) :=
  ⟨(adapter_returns_converted_result [.plain int32_tc, .plain int32_tc] int32_tc
      [.int 10, .int 20] empty_world (fun _ => empty_ctx)
      (fun i => [CppValue.int 10, .int 20].getD i .void) rfl rfl
      (by
        intro i p a hp ha
        rcases i with _ | _ | i <;> simp at hp ha <;> subst hp <;> subst ha <;> rfl)).1
      test_int_function.Func (.int 30) rfl,
    (adapter_returns_converted_result [.plain int32_tc] int32_tc
      [.int 100] live_world (fun _ => live_world.ctx)
      (fun _ => CppValue.int 100) rfl rfl
      (by
        intro i p a hp ha
        rcases i with _ | i
        · simp at hp ha; subst hp; subst ha; rfl
        · simp at hp)).2
      int_member_function.Member (.object 0) 1 TestClass_default TestClass_default (.int 200)
      (by decide) (by decide) (by decide) rfl rfl⟩

/-! ## Void return type -/

theorem free_function_apply_void (F : FreeFunction) (args : List CppValue) (w w1 : World)
    (x : JSValue) (hret : F.ReturnType = none)
    (h : FreeFunctionWrapper.apply F args w = (.ok x, w1)) :
    x = .undefined ∧ w1.calls = w.calls ++ [(0, args)] := by
  have hc := free_function_apply_calls F args w
  rw [h] at hc
  refine ⟨?_, hc⟩
  unfold FreeFunctionWrapper.apply at h
  rw [hret] at h
  cases hF : F.Func args with
  | error e => rw [hF] at h; simp at h
  | ok r => rw [hF] at h; simp at h; exact h.1.symm

theorem member_function_apply_void (M : MemberFunction) (obj : Ptr) (inst : Instance)
    (args : List CppValue) (w w1 : World) (x : JSValue) (hret : M.ReturnType = none)
    (h : MemberFunctionWrapper.apply M obj inst args w = (.ok x, w1)) :
    x = .undefined ∧ w1.calls = w.calls ++ [(obj, args)] := by
  unfold MemberFunctionWrapper.apply at h
  rw [hret] at h
  rcases hM : M.Member inst args with ⟨r, inst1⟩
  rw [hM] at h
  cases r with
  | error e => simp at h
  | ok r =>
    simp only [Prod.mk.injEq, Except.ok.injEq] at h
    obtain ⟨hx, hw⟩ := h
    subst hw
    exact ⟨hx.symm, rfl⟩

theorem free_function_invoke_void (F : FreeFunction) (argv : List JSValue) (w w1 : World)
    (x : JSValue) (hret : F.ReturnType = none)
    (h : FreeFunctionWrapper.invoke F argv w = (.ok x, w1)) :
    x = .undefined ∧ ∃ args, w1.calls = w.calls ++ [(0, args)] := by
  unfold FreeFunctionWrapper.invoke at h
  split at h
  · obtain ⟨hx, hc⟩ := free_function_apply_void F [] w w1 x hret h
    exact ⟨hx, [], hc⟩
  · rename_i elem _
    have hcalls := (push_back_loop_calls elem argv 0 [] w).1
    rcases hpl : push_back_loop elem argv 0 [] w with ⟨r, w0⟩
    rw [hpl] at h hcalls
    cases r with
    | error e => simp at h
    | ok args =>
      obtain ⟨hx, hc⟩ := free_function_apply_void F [.rest args] w0 w1 x hret h
      exact ⟨hx, [.rest args], by rw [hc, hcalls]⟩
  · unfold FreeFunctionWrapper.invoke_impl at h
    have hcalls := (from_js_pack_calls argv F.Args 0 w).1
    rcases hpk : from_js_pack F.Args 0 argv w with ⟨r, w0⟩
    rw [hpk] at h hcalls
    cases r with
    | error e => simp at h
    | ok args =>
      obtain ⟨hx, hc⟩ := free_function_apply_void F args w0 w1 x hret h
      exact ⟨hx, args, by rw [hc, hcalls]⟩

theorem member_function_invoke_void (M : MemberFunction) (obj : Ptr) (inst : Instance)
    (argv : List JSValue) (w w1 : World) (x : JSValue) (hret : M.ReturnType = none)
    (h : MemberFunctionWrapper.invoke M obj inst argv w = (.ok x, w1)) :
    x = .undefined ∧ ∃ args, w1.calls = w.calls ++ [(obj, args)] := by
  unfold MemberFunctionWrapper.invoke at h
  split at h
  · obtain ⟨hx, hc⟩ := member_function_apply_void M obj inst [] w w1 x hret h
    exact ⟨hx, [], hc⟩
  · unfold MemberFunctionWrapper.invoke_impl at h
    have hcalls := (from_js_pack_calls argv M.Args 0 w).1
    rcases hpk : from_js_pack M.Args 0 argv w with ⟨r, w0⟩
    rw [hpk] at h hcalls
    cases r with
    | error e => simp at h
    | ok args =>
      obtain ⟨hx, hc⟩ := member_function_apply_void M obj inst args w0 w1 x hret h
      exact ⟨hx, args, by rw [hc, hcalls]⟩

/-- C10. A free function or member function whose return type is `void`: when the
body of the adapter completes without a native exception (`invoke` returns, in
the world `w1`), the adapter returns `undefined` and `w1` records exactly one
more invocation of the native callable than the world before the call; for a
member function the receiver holds a live instance `inst` at `obj`. -/
theorem void_adapter_returns_undefined (argv : List JSValue) (w w1 : World) (x : JSValue) :
    (∀ F : FreeFunction, F.ReturnType = none →
      FreeFunctionWrapper.invoke F argv w = (.ok x, w1) →
      FreeFunctionWrapper.call F argv w = (.undefined, w1)
        ∧ ∃ args, w1.calls = w.calls ++ [(0, args)])
    ∧ (∀ (M : MemberFunction) (this_val : JSValue) (obj : Ptr) (inst : Instance),
      M.ReturnType = none →
      JS_GetOpaque w.ctx this_val (JS_GetClassID w.ctx this_val) ≠ 0 →
      w.heap.cells.lookup (JS_GetOpaque w.ctx this_val (JS_GetClassID w.ctx this_val))
        = some obj →
      obj ≠ 0 →
      w.heap.instances.lookup obj = some inst →
      MemberFunctionWrapper.invoke M obj inst argv w = (.ok x, w1) →
      MemberFunctionWrapper.call M this_val argv w = (.returned .undefined, w1)
        ∧ ∃ args, w1.calls = w.calls ++ [(obj, args)]) := by
  constructor
  · intro F hret hinv
    obtain ⟨hx, hc⟩ := free_function_invoke_void F argv w w1 x hret hinv
    subst hx
    refine ⟨?_, hc⟩
    unfold FreeFunctionWrapper.call
    rw [hinv]
  · intro M this_val obj inst hret hp hcell hobj hinst hinv
    obtain ⟨hx, hc⟩ := member_function_invoke_void M obj inst argv w w1 x hret hinv
    subst hx
    refine ⟨?_, hc⟩
    unfold MemberFunctionWrapper.call
    rw [if_neg hp]
    simp only [hcell, if_neg hobj, hinst, hinv]

/-- C10 at the calls `testVoidFunction()` and `voidMemberFunction()` on a live
`TestClass` instance. -/
theorem void_adapter_returns_undefined_witness :
    (FreeFunctionWrapper.call test_void_function [] empty_world
        = (.undefined, { empty_world with calls := [(0, [])] })
      ∧ ∃ args, ({ empty_world with calls := [(0, [])] } : World).calls
          = empty_world.calls ++ [(0, args)])
    ∧ (MemberFunctionWrapper.call void_member_function (.object 0) [] live_world
        = (.returned .undefined,
            { live_world with
              heap := live_world.heap.store 1 TestClass_default, calls := [(1, [])] })
      ∧ ∃ args, ({ live_world with
              heap := live_world.heap.store 1 TestClass_default, calls := [(1, [])] } : World).calls
          = live_world.calls ++ [(1, args)]) :=
  ⟨(void_adapter_returns_undefined [] empty_world { empty_world with calls := [(0, [])] }
      .undefined).1 test_void_function rfl rfl,
    (void_adapter_returns_undefined [] live_world
      { live_world with heap := live_world.heap.store 1 TestClass_default, calls := [(1, [])] }
      .undefined).2 void_member_function (.object 0) 1 TestClass_default rfl
      (by decide) (by decide) (by decide) rfl rfl⟩

/-! ## Integer converters: round trip -/

theorem round_to_binary64_of_le (n : Nat) (h : n ≤ 2 ^ 53) : round_to_binary64 n = n := by
  rcases Nat.lt_or_ge n (2 ^ 53) with hlt | hge
  · have hsize : n.size ≤ 53 := Nat.size_le.mpr hlt
    have hk : n.size - 53 = 0 := by omega
    simp [round_to_binary64, hk, Nat.mod_one]
  · have hn : n = 2 ^ 53 := le_antisymm h hge
    subst hn
    have hk : (2 ^ 53 : Nat).size - 53 = 1 := by rw [Nat.size_pow]
    simp only [round_to_binary64, hk]
    norm_num

theorem int_to_double_of_abs_le (v : Int) (h : -2 ^ 53 ≤ v ∧ v ≤ 2 ^ 53) : int_to_double v = v := by
  have hn : v.natAbs ≤ 2 ^ 53 := by omega
  unfold int_to_double
  rw [round_to_binary64_of_le _ hn]
  split <;> omega

theorem trunc_finite_int (v : Int) : Double.trunc (.finite (v : ℚ)) = some v := by
  unfold Double.trunc
  by_cases h : (0 : ℚ) ≤ (v : ℚ)
  · simp [h]
  · simp only [h, if_false]
    have e : -(v : ℚ) = ((-v : Int) : ℚ) := by push_cast; ring
    rw [e, Int.floor_intCast]
    simp

theorem wrap_signed_of_holds (b : Nat) (v : Int) (hb : 1 ≤ b)
    (h : -2 ^ (b - 1) ≤ v ∧ v < 2 ^ (b - 1)) : wrap_signed b v = v := by
  unfold wrap_signed
  have hpow : (2 : Int) ^ b = 2 * 2 ^ (b - 1) := by
    have hb1 : b = (b - 1) + 1 := by omega
    conv_lhs => rw [hb1]
    rw [pow_succ]; ring
  rw [hpow]
  have h0 : 0 ≤ v + 2 ^ (b - 1) := by linarith [h.1]
  have h1 : v + 2 ^ (b - 1) < 2 * 2 ^ (b - 1) := by linarith [h.2]
  rw [Int.emod_eq_of_lt h0 h1]
  ring

theorem to_int64_new_int64 (slow : JSContext → JSValue → Option Int × JSContext)
    (c : JSContext) (v : Int) (hrange : -2 ^ 63 ≤ v ∧ v < 2 ^ 63)
    (hexact : -2 ^ 53 ≤ v ∧ v ≤ 2 ^ 53) :
    JS_ToInt64 slow c (JS_NewInt64 v) = (some v, c) := by
  unfold JS_NewInt64
  split
  · rfl
  · simp only [JS_ToInt64, Double.to_int64, int_to_double_of_abs_le v hexact, trunc_finite_int]
    rw [wrap_signed_of_holds 64 v (by norm_num) (by simpa using hrange)]

theorem to_uint32_new_uint32 (slow : JSContext → JSValue → Option Int × JSContext)
    (c : JSContext) (v : Int) (h : 0 ≤ v ∧ v < 2 ^ 32) :
    JS_ToUint32 slow c (JS_NewUint32 v) = (some v, c) := by
  unfold JS_NewUint32
  split
  · rename_i hle
    simp only [JS_ToUint32, JS_ToInt32, wrap_unsigned]
    have : v % 2 ^ 32 = v := Int.emod_eq_of_lt h.1 h.2
    rw [this]
  · rename_i hgt
    have hexact : -2 ^ 53 ≤ v ∧ v ≤ 2 ^ 53 := by constructor <;> omega
    simp only [JS_ToUint32, JS_ToInt32, Double.to_int32, int_to_double_of_abs_le v hexact,
      trunc_finite_int, wrap_unsigned, wrap_signed]
    have : ((v + 2 ^ (32 - 1)) % 2 ^ 32 - 2 ^ (32 - 1)) % 2 ^ 32 = v := by
      norm_num
      omega
    rw [this]

theorem static_cast_of_holds (T : IntegerType) (v : Int) (hb : 1 ≤ T.bits) (h : T.holds v) :
    static_cast T v = v := by
  unfold static_cast
  unfold IntegerType.holds at h
  cases hs : T.is_signed with
  | true =>
    simp only [hs, if_true] at h ⊢
    exact wrap_signed_of_holds T.bits v hb h
  | false =>
    simp only [hs, Bool.false_eq_true, if_false] at h ⊢
    exact Int.emod_eq_of_lt h.1 h.2

/-- Narrow types: casting to `int32_t` and back gives the value again. -/
theorem static_cast_via_int32 (T : IntegerType) (v : Int)
    (hbits : T.bits = 8 ∨ T.bits = 16 ∨ T.bits = 32) (h : T.holds v) :
    static_cast T (static_cast int32_t v) = v := by
  unfold IntegerType.holds at h
  obtain ⟨bits, sgn⟩ := T
  simp only at hbits h
  cases sgn <;> rcases hbits with hb | hb | hb <;> subst hb <;>
    simp only [static_cast, int32_t, wrap_signed, wrap_unsigned, Bool.false_eq_true, if_false,
      if_true] at h ⊢ <;> norm_num at h ⊢ <;> omega

/-- C11. Every integer converter gives back the value it was given, for every value
of the type the engine's numbers hold exactly: `int32_t`, `uint32_t`, `int64_t`
(from `-2^53` to `2^53`), and the generic converter of a type `T` of 8, 16, 32 or
64 bits, signed or unsigned (for 64 bits, from `-2^53` to `2^53`). The coercions
are the engine's, whatever its conversion `slow` of non-numbers; the contexts
`c` and `c1` of the two conversions are arbitrary. -/
theorem integer_round_trip (slow : JSContext → JSValue → Option Int × JSContext)
    (c c1 : JSContext) (v : Int) :
    (int32_t.holds v →
      ((TypeConverter_int32 (JS_ToInt32 slow)).from_js c1
        ((TypeConverter_int32 (JS_ToInt32 slow)).to_js c (.int v)).1).1 = .ok (.int v))
    ∧ (uint32_t.holds v →
      ((TypeConverter_uint32 (JS_ToUint32 slow)).from_js c1
        ((TypeConverter_uint32 (JS_ToUint32 slow)).to_js c (.int v)).1).1 = .ok (.int v))
    ∧ (int64_t.holds v → -2 ^ 53 ≤ v ∧ v ≤ 2 ^ 53 →
      ((TypeConverter_int64 (JS_ToInt64 slow)).from_js c1
        ((TypeConverter_int64 (JS_ToInt64 slow)).to_js c (.int v)).1).1 = .ok (.int v))
    ∧ (∀ (T : IntegerType) (exceptions : Bool) (failed : Int),
      T.bits = 8 ∨ T.bits = 16 ∨ T.bits = 32 ∨ T.bits = 64 →
      T.holds v →
      (T.bits = 64 → -2 ^ 53 ≤ v ∧ v ≤ 2 ^ 53) →
      ((TypeConverter_integral T (JS_ToInt32 slow) (JS_ToInt64 slow) exceptions failed).from_js c1
        ((TypeConverter_integral T (JS_ToInt32 slow) (JS_ToInt64 slow) exceptions failed).to_js c
          (.int v)).1).1 = .ok (.int v)) := by
  refine ⟨fun _ => rfl, ?_, ?_, ?_⟩
  · intro h
    have h32 : 0 ≤ v ∧ v < 2 ^ 32 := by simpa [IntegerType.holds, uint32_t] using h
    simp only [TypeConverter_uint32, to_uint32_new_uint32 slow c1 v h32]
  · intro h hexact
    have h64 : -2 ^ 63 ≤ v ∧ v < 2 ^ 63 := by simpa [IntegerType.holds, int64_t] using h
    simp only [TypeConverter_int64, to_int64_new_int64 slow c1 v h64 hexact]
  · intro T exceptions failed hbits hv hexact
    by_cases hle : T.bits ≤ 32
    · have hb : T.bits = 8 ∨ T.bits = 16 ∨ T.bits = 32 := by omega
      simp only [TypeConverter_integral, hle, if_true, JS_NewInt32, JS_ToInt32,
        static_cast_via_int32 T v hb hv]
    · have hb : T.bits = 64 := by omega
      have hex := hexact hb
      have h64 : -2 ^ 63 ≤ static_cast int64_t v ∧ static_cast int64_t v < 2 ^ 63 := by
        simp only [static_cast, int64_t, wrap_signed, if_true]
        norm_num
        omega
      have hcast : static_cast int64_t v = v := by
        apply static_cast_of_holds int64_t v (by decide)
        simp only [IntegerType.holds, int64_t, if_true]
        norm_num
        omega
      rw [hcast] at h64
      simp only [TypeConverter_integral, hle, if_false, hcast,
        to_int64_new_int64 slow c1 v h64 hex, static_cast_of_holds T v (by omega) hv]

/-- C11 at concrete values: `2^53` as `int64_t`, `4294967295` as `uint32_t`,
`-128` through the generic converter of a signed 8-bit type and `2^53` through
that of an unsigned 64-bit type. -/
theorem integer_round_trip_witness :
    ((TypeConverter_int64 (JS_ToInt64 sample_ToInt32)).from_js empty_ctx
        ((TypeConverter_int64 (JS_ToInt64 sample_ToInt32)).to_js empty_ctx
          (.int 9007199254740992)).1).1 = .ok (.int 9007199254740992)
    ∧ ((TypeConverter_uint32 (JS_ToUint32 sample_ToInt32)).from_js empty_ctx
        ((TypeConverter_uint32 (JS_ToUint32 sample_ToInt32)).to_js empty_ctx
          (.int 4294967295)).1).1 = .ok (.int 4294967295)
    ∧ ((TypeConverter_integral { bits := 8, is_signed := true } (JS_ToInt32 sample_ToInt32)
          (JS_ToInt64 sample_ToInt32) QUICKJS_USE_EXCEPTION 0).from_js empty_ctx
        ((TypeConverter_integral { bits := 8, is_signed := true } (JS_ToInt32 sample_ToInt32)
          (JS_ToInt64 sample_ToInt32) QUICKJS_USE_EXCEPTION 0).to_js empty_ctx
          (.int (-128))).1).1 = .ok (.int (-128))
    ∧ ((TypeConverter_integral { bits := 64, is_signed := false } (JS_ToInt32 sample_ToInt32)
          (JS_ToInt64 sample_ToInt32) QUICKJS_USE_EXCEPTION 0).from_js empty_ctx
        ((TypeConverter_integral { bits := 64, is_signed := false } (JS_ToInt32 sample_ToInt32)
          (JS_ToInt64 sample_ToInt32) QUICKJS_USE_EXCEPTION 0).to_js empty_ctx
          (.int 9007199254740992)).1).1 = .ok (.int 9007199254740992) :=
  ⟨(integer_round_trip sample_ToInt32 empty_ctx empty_ctx 9007199254740992).2.2.1
      (by norm_num [IntegerType.holds, int64_t]) (by norm_num),
    (integer_round_trip sample_ToInt32 empty_ctx empty_ctx 4294967295).2.1
      (by norm_num [IntegerType.holds, uint32_t]),
    (integer_round_trip sample_ToInt32 empty_ctx empty_ctx (-128)).2.2.2
      { bits := 8, is_signed := true } QUICKJS_USE_EXCEPTION 0 (by decide)
      (by norm_num [IntegerType.holds]) (by decide),
    (integer_round_trip sample_ToInt32 empty_ctx empty_ctx 9007199254740992).2.2.2
      { bits := 64, is_signed := false } QUICKJS_USE_EXCEPTION 0 (by decide)
      (by norm_num [IntegerType.holds]) (by intro _; norm_num)⟩

/-! ## The optional converter -/

/-- C14. The optional converter, for every element converter `T`: `from_js` yields
the empty optional when the value is null or undefined, and yields it only
then; on any other value it yields the optional holding what `T`'s `from_js`
returns (or throws what that throws); `to_js` maps the empty optional to null
and a present value to `T`'s `to_js` of it; and the empty optional converts to
null and back to the empty optional. -/
theorem optional_converter (T : TypeConverter) (c : JSContext) (value : JSValue) :
    (JS_IsNull value = true ∨ JS_IsUndefined value = true →
      (TypeConverter_optional T).from_js c value = (.ok (.optional none), c))
    ∧ (((TypeConverter_optional T).from_js c value).1 = .ok (.optional none) →
      JS_IsNull value = true ∨ JS_IsUndefined value = true)
    ∧ (JS_IsNull value = false → JS_IsUndefined value = false →
      (∀ x c1, T.from_js c value = (.ok x, c1) →
        (TypeConverter_optional T).from_js c value = (.ok (.optional (some x)), c1))
      ∧ (∀ e c1, T.from_js c value = (.error e, c1) →
        (TypeConverter_optional T).from_js c value = (.error e, c1)))
    ∧ (TypeConverter_optional T).to_js c (.optional none) = (.null, c)
    ∧ (∀ v, (TypeConverter_optional T).to_js c (.optional (some v)) = T.to_js c v)
    ∧ (∀ c1, (TypeConverter_optional T).from_js c1
        ((TypeConverter_optional T).to_js c (.optional none)).1 = (.ok (.optional none), c1)) := by
  refine ⟨?_, ?_, ?_, rfl, fun _ => rfl, fun _ => rfl⟩
  · intro h
    have hb : (JS_IsNull value || JS_IsUndefined value) = true := by
      rcases h with h | h <;> simp [h]
    simp only [TypeConverter_optional]
    rw [if_pos hb]
  · intro h
    by_contra hne
    have hn : JS_IsNull value = false := by
      cases hx : JS_IsNull value with
      | true => exact absurd (Or.inl hx) hne
      | false => rfl
    have hu : JS_IsUndefined value = false := by
      cases hx : JS_IsUndefined value with
      | true => exact absurd (Or.inr hx) hne
      | false => rfl
    simp only [TypeConverter_optional, hn, hu, Bool.or_self, Bool.false_eq_true, if_false] at h
    rcases hT : T.from_js c value with ⟨r, c1⟩
    rw [hT] at h
    cases r <;> simp at h
  · intro hn hu
    constructor
    · intro x c1 hT
      simp [TypeConverter_optional, hn, hu, hT]
    · intro e c1 hT
      simp [TypeConverter_optional, hn, hu, hT]

/-- C14 at concrete values, with the `int32_t` converter as `T`: `undefined` gives
the empty optional, `7` the optional holding `7`. -/
theorem optional_converter_witness :
    (TypeConverter_optional int32_tc).from_js empty_ctx .undefined
        = (.ok (.optional none), empty_ctx)
    ∧ (TypeConverter_optional int32_tc).from_js empty_ctx (.int 7)
        = (.ok (.optional (some (.int 7))), empty_ctx) :=
  ⟨(optional_converter int32_tc empty_ctx .undefined).1 (Or.inr rfl),
    ((optional_converter int32_tc empty_ctx (.int 7)).2.2.1 rfl rfl).1 (.int 7) empty_ctx rfl⟩

/-! ## Numeric converters: failure -/

/-- C15. With exceptions enabled (`QUICKJS_USE_EXCEPTION`), for each numeric
converter and whatever the engine's coercion `f` does: `from_js` throws a
`std::runtime_error` exactly when the coercion reports failure, and when the
coercion yields `r` it returns `r` (cast to the target type by the generic
converter) and throws nothing. -/
theorem numeric_from_js_failure (f : JSContext → JSValue → Option Int × JSContext)
    (g : JSContext → JSValue → Option Double × JSContext) (c : JSContext) (value : JSValue) :
    (((∃ what, ((TypeConverter_int32 f).from_js c value).1 = .error (.std_exception what))
        ↔ (f c value).1 = none)
      ∧ ∀ r, (f c value).1 = some r → ((TypeConverter_int32 f).from_js c value).1 = .ok (.int r))
    ∧ (((∃ what, ((TypeConverter_int64 f).from_js c value).1 = .error (.std_exception what))
        ↔ (f c value).1 = none)
      ∧ ∀ r, (f c value).1 = some r → ((TypeConverter_int64 f).from_js c value).1 = .ok (.int r))
    ∧ (((∃ what, ((TypeConverter_uint32 f).from_js c value).1 = .error (.std_exception what))
        ↔ (f c value).1 = none)
      ∧ ∀ r, (f c value).1 = some r → ((TypeConverter_uint32 f).from_js c value).1 = .ok (.int r))
    ∧ (∀ (new_float64 : Double → JSValue) (failed : Double),
      ((∃ what, ((TypeConverter_double new_float64 g QUICKJS_USE_EXCEPTION failed).from_js c
          value).1 = .error (.std_exception what)) ↔ (g c value).1 = none)
      ∧ ∀ r, (g c value).1 = some r →
        ((TypeConverter_double new_float64 g QUICKJS_USE_EXCEPTION failed).from_js c value).1
          = .ok (.double r))
    ∧ (∀ (T : IntegerType) (f64 : JSContext → JSValue → Option Int × JSContext) (failed : Int),
      (T.bits ≤ 32 →
        ((∃ what, ((TypeConverter_integral T f f64 QUICKJS_USE_EXCEPTION failed).from_js c
            value).1 = .error (.std_exception what)) ↔ (f c value).1 = none)
        ∧ ∀ r, (f c value).1 = some r →
          ((TypeConverter_integral T f f64 QUICKJS_USE_EXCEPTION failed).from_js c value).1
            = .ok (.int (static_cast T r)))
      ∧ (32 < T.bits →
        ((∃ what, ((TypeConverter_integral T f f64 QUICKJS_USE_EXCEPTION failed).from_js c
            value).1 = .error (.std_exception what)) ↔ (f64 c value).1 = none)
        ∧ ∀ r, (f64 c value).1 = some r →
          ((TypeConverter_integral T f f64 QUICKJS_USE_EXCEPTION failed).from_js c value).1
            = .ok (.int (static_cast T r)))) := by
  refine ⟨?_, ?_, ?_, ?_, ?_⟩
  · rcases hf : f c value with ⟨r, c1⟩
    cases r <;> simp [TypeConverter_int32, hf]
  · rcases hf : f c value with ⟨r, c1⟩
    cases r <;> simp [TypeConverter_int64, hf]
  · rcases hf : f c value with ⟨r, c1⟩
    cases r <;> simp [TypeConverter_uint32, hf]
  · intro new_float64 failed
    rcases hg : g c value with ⟨r, c1⟩
    cases r <;> simp [TypeConverter_double, hg, QUICKJS_USE_EXCEPTION]
  · intro T f64 failed
    constructor
    · intro hle
      rcases hf : f c value with ⟨r, c1⟩
      cases r <;> simp [TypeConverter_integral, hle, hf, QUICKJS_USE_EXCEPTION]
    · intro hgt
      have hle : ¬ T.bits ≤ 32 := by omega
      rcases hf : f64 c value with ⟨r, c1⟩
      cases r <;> simp [TypeConverter_integral, hle, hf, QUICKJS_USE_EXCEPTION]

/-- C15 at concrete values, with the engine's `JS_ToInt32`: a symbol makes the
`int32_t` converter throw, `7` is returned as `7`. -/
theorem numeric_from_js_failure_witness :
    (∃ what, ((TypeConverter_int32 (JS_ToInt32 sample_ToInt32)).from_js empty_ctx
        (.symbol 1)).1 = .error (.std_exception what))
    ∧ ((TypeConverter_int32 (JS_ToInt32 sample_ToInt32)).from_js empty_ctx (.int 7)).1
        = .ok (.int 7) :=
  ⟨((numeric_from_js_failure (JS_ToInt32 sample_ToInt32) (fun c _ => (none, c)) empty_ctx
      (.symbol 1)).1.1).mpr rfl,
    (numeric_from_js_failure (JS_ToInt32 sample_ToInt32) (fun c _ => (none, c)) empty_ctx
      (.int 7)).1.2 7 rfl⟩

/-! ## The string and boolean converters -/

theorem take_length_takeWhile (p : Char → Bool) (l : List Char) :
    l.take (l.takeWhile p).length = l.takeWhile p := by
  induction l with
  | nil => rfl
  | cons a l ih =>
    by_cases h : p a = true
    · simp [List.takeWhile_cons, h, ih]
    · simp [List.takeWhile_cons, h]

theorem to_std_string_of_buffer (s : String) :
    JSString.to_std_string { str := some s, len := strlen s }
      = String.mk (s.toList.takeWhile (fun ch => ch ≠ Char.ofNat 0)) := by
  unfold JSString.to_std_string JSString.empty
  simp only
  by_cases h : strlen s = 0
  · have hb : (strlen s == 0) = true := by simp [h]
    rw [if_pos hb]
    have hnil : s.toList.takeWhile (fun ch => ch ≠ Char.ofNat 0) = [] :=
      List.length_eq_zero.mp h
    rw [hnil]
  · have hb : ¬ ((strlen s == 0) = true) := by simpa using h
    rw [if_neg hb]
    show String.mk (s.toList.take (strlen s)) = _
    unfold strlen
    rw [take_length_takeWhile]

/-- What `from_js` makes of an engine string: the characters before the first
NUL. -/
theorem string_from_js_string (slow : JSContext → JSValue → Option String × JSContext)
    (c : JSContext) (s : String) :
    (TypeConverter_string (JS_ToCString slow)).from_js c (.string s)
      = (.ok (.string (String.mk (s.toList.takeWhile (fun ch => ch ≠ Char.ofNat 0)))), c) := by
  simp only [TypeConverter_string, JSString.new, JS_ToCString]
  rw [to_std_string_of_buffer]

/-- C12, refuted as stated: the string `a`, NUL, `b` is valid UTF-8, and converting
it to the engine and back gives `a`. -/
theorem string_round_trip_loses_after_nul :
    ((TypeConverter_string (JS_ToCString sample_ToString)).from_js empty_ctx
        ((TypeConverter_string (JS_ToCString sample_ToString)).to_js empty_ctx
          (.string nul_string)).1).1 = .ok (.string "a")
    ∧ nul_string ≠ "a"
    ∧ nul_string.length = 3 := by
  refine ⟨rfl, by decide, by decide⟩

/-- C12, amended. Converting a native string to the engine and back gives the
characters that precede its first NUL character; hence every string without a
NUL character comes back unchanged. The contexts `c` and `c1` of the two
conversions are arbitrary. -/
theorem string_round_trip (slow : JSContext → JSValue → Option String × JSContext)
    (c c1 : JSContext) (s : String) :
    (TypeConverter_string (JS_ToCString slow)).from_js c1
        ((TypeConverter_string (JS_ToCString slow)).to_js c (.string s)).1
      = (.ok (.string (String.mk (s.toList.takeWhile (fun ch => ch ≠ Char.ofNat 0)))), c1)
    ∧ ((∀ ch ∈ s.toList, ch ≠ Char.ofNat 0) →
      (TypeConverter_string (JS_ToCString slow)).from_js c1
          ((TypeConverter_string (JS_ToCString slow)).to_js c (.string s)).1
        = (.ok (.string s), c1)) := by
  have hto : ((TypeConverter_string (JS_ToCString slow)).to_js c (.string s)).1 = .string s := rfl
  rw [hto, string_from_js_string]
  refine ⟨rfl, ?_⟩
  intro hall
  have hall2 : s.toList.takeWhile (fun ch => ch ≠ Char.ofNat 0) = s.toList := by
    rw [List.takeWhile_eq_self_iff]
    intro ch hch
    simpa using hall ch hch
  rw [hall2]
  rfl

/-- C12, amended, at the string `echo: hello js`. -/
theorem string_round_trip_witness :
    (TypeConverter_string (JS_ToCString sample_ToString)).from_js empty_ctx
        ((TypeConverter_string (JS_ToCString sample_ToString)).to_js empty_ctx
          (.string "echo: hello js")).1
      = (.ok (.string "echo: hello js"), empty_ctx) :=
  (string_round_trip sample_ToString empty_ctx empty_ctx "echo: hello js").2 (by decide)

/-- C16, refuted as stated: the engine cannot turn a symbol into a C string
(`JS_ToCString` returns no string) and the string converter returns the empty
string; the engine's `JS_ToBool` reports an error on the exception signal and
the boolean converter returns `true`. Neither conversion throws. -/
theorem string_bool_from_js_return_on_failure :
    (JS_ToCString sample_ToString empty_ctx (.symbol 1)).1 = none
    ∧ ((TypeConverter_string (JS_ToCString sample_ToString)).from_js empty_ctx (.symbol 1)).1
        = .ok (.string "")
    ∧ (JS_ToBool empty_ctx .exception).1 = -1
    ∧ ((TypeConverter_bool JS_ToBool).from_js empty_ctx .exception).1 = .ok (.bool true) := by
  refine ⟨rfl, rfl, rfl, rfl⟩

/-- C16, amended. When the engine's to-C-string coercion `f` returns no string, the
string converter throws nothing and returns the empty string, in the engine
state the coercion left; when the engine's to-boolean coercion `g` succeeds
(`0` or `1`), the boolean converter returns that truth value. -/
theorem string_bool_from_js (f : JSContext → JSValue → Option String × JSContext)
    (g : JSContext → JSValue → Int × JSContext) (c : JSContext) (value : JSValue) :
    ((f c value).1 = none →
      (TypeConverter_string f).from_js c value = (.ok (.string ""), (f c value).2))
    ∧ ((g c value).1 = 0 →
      (TypeConverter_bool g).from_js c value = (.ok (.bool false), (g c value).2))
    ∧ ((g c value).1 = 1 →
      (TypeConverter_bool g).from_js c value = (.ok (.bool true), (g c value).2)) := by
  refine ⟨?_, ?_, ?_⟩
  · intro h
    rcases hf : f c value with ⟨r, c1⟩
    rw [hf] at h
    simp only at h
    subst h
    simp only [TypeConverter_string, JSString.new, hf]
    rfl
  · intro h
    rcases hg : g c value with ⟨r, c1⟩
    rw [hg] at h
    simp only at h
    subst h
    simp [TypeConverter_bool, hg]
  · intro h
    rcases hg : g c value with ⟨r, c1⟩
    rw [hg] at h
    simp only at h
    subst h
    simp [TypeConverter_bool, hg]

/-- C16, amended, at concrete values: a symbol gives the empty string with the
engine's type error pending; the engine string `x` is true, `null` is false. -/
theorem string_bool_from_js_witness :
    (TypeConverter_string (JS_ToCString sample_ToString)).from_js empty_ctx (.symbol 1)
        = (.ok (.string ""), (JS_ToCString sample_ToString empty_ctx (.symbol 1)).2)
    ∧ (TypeConverter_bool JS_ToBool).from_js empty_ctx .null
        = (.ok (.bool false), (JS_ToBool empty_ctx .null).2)
    ∧ (TypeConverter_bool JS_ToBool).from_js empty_ctx (.string "x")
        = (.ok (.bool true), (JS_ToBool empty_ctx (.string "x")).2) :=
  ⟨(string_bool_from_js (JS_ToCString sample_ToString) JS_ToBool empty_ctx (.symbol 1)).1 rfl,
    (string_bool_from_js (JS_ToCString sample_ToString) JS_ToBool empty_ctx .null).2.1 rfl,
    (string_bool_from_js (JS_ToCString sample_ToString) JS_ToBool empty_ctx
      (.string "x")).2.2 (by decide)⟩

/-! ## `js::Value`: property access -/

/-- C18, refuted as stated: in `sample_world` the object `1` has no property
`missing`; the lookup by name on a valid handle of it raises nothing and the
handle returned is valid (it holds `undefined`). -/
theorem subscript_missing_property_is_valid :
    (sample_GetProperty sample_world.ctx (.object 1) "missing").1 = .undefined
    ∧ (sample_GetProperty sample_world.ctx (.object 1) "missing").2.current_exception = none
    ∧ (Value.subscript_name sample_GetProperty { _ctx := 1, _val := .object 1 } "missing"
        sample_world.ctx).1.is_valid = true
    ∧ (Value.subscript_name sample_GetProperty { _ctx := 1, _val := .object 1 } "missing"
        sample_world.ctx).1 = { _ctx := 1, _val := .undefined } := by
  decide

/-- C18, amended. Access by index on a value that is not an array (an invalid
handle included) returns an invalid handle and leaves the engine state as it
was, whatever the engine's lookup would do. Access by name returns an invalid
handle when the handle is invalid and when the lookup returns the exception
signal; in every other case, a missing property (for which the engine returns
`undefined`) included, it returns a valid handle holding the value the lookup
returned. -/
theorem subscript_access (self : Value) (c : JSContext) :
    (∀ (lookup_index : JSContext → JSValue → Nat → JSValue × JSContext) (index : Nat),
      self.is_array c = false →
      Value.subscript_index lookup_index self index c = (Value.new, c)
      ∧ (Value.subscript_index lookup_index self index c).1.is_valid = false)
    ∧ (∀ (lookup : JSContext → JSValue → String → JSValue × JSContext) (name : String),
      (self.is_valid = false →
        Value.subscript_name lookup self name c = (Value.new, c)
        ∧ (Value.subscript_name lookup self name c).1.is_valid = false)
      ∧ (self.is_valid = true → (lookup c self._val name).1 = .exception →
        (Value.subscript_name lookup self name c).1 = Value.new
        ∧ (Value.subscript_name lookup self name c).1.is_valid = false)
      ∧ (self.is_valid = true → (lookup c self._val name).1 ≠ .exception →
        (Value.subscript_name lookup self name c).1
            = { _ctx := self._ctx, _val := (lookup c self._val name).1 }
        ∧ (Value.subscript_name lookup self name c).1.is_valid = true)) := by
  constructor
  · intro lookup_index index harr
    simp [Value.subscript_index, harr, Value.new, Value.is_valid]
  · intro lookup name
    refine ⟨?_, ?_, ?_⟩
    · intro hinv
      have h0 : self._ctx = 0 := by simpa [Value.is_valid] using hinv
      simp [Value.subscript_name, h0, Value.new, Value.is_valid]
    · intro hval hexc
      have h0 : ¬ self._ctx = 0 := by simpa [Value.is_valid] using hval
      rcases hl : lookup c self._val name with ⟨r, c1⟩
      rw [hl] at hexc
      simp only at hexc
      subst hexc
      simp [Value.subscript_name, h0, hl, JS_IsException, Value.new, Value.is_valid]
    · intro hval hexc
      have h0 : ¬ self._ctx = 0 := by simpa [Value.is_valid] using hval
      rcases hl : lookup c self._val name with ⟨r, c1⟩
      rw [hl] at hexc
      simp only at hexc
      have hne : JS_IsException r = false := by
        cases r <;> first | rfl | exact absurd rfl hexc
      simp [Value.subscript_name, h0, hl, hne, Value.is_valid]

/-- C18, amended, at concrete handles in `sample_world`: access by index on the
plain object `1`, and access by name to the property `prototype` of the object
`0`, which yields a valid handle of the object `1`. -/
theorem subscript_access_witness :
    Value.subscript_index (fun c _ _ => (.undefined, c)) { _ctx := 1, _val := .object 1 } 0
        sample_world.ctx = (Value.new, sample_world.ctx)
    ∧ (Value.subscript_name sample_GetProperty { _ctx := 1, _val := .object 0 } "prototype"
        sample_world.ctx).1 = { _ctx := 1, _val := .object 1 } :=
  ⟨((subscript_access { _ctx := 1, _val := .object 1 } sample_world.ctx).1
      (fun c _ _ => (.undefined, c)) 0 (by decide)).1,
    ((subscript_access { _ctx := 1, _val := .object 0 } sample_world.ctx).2
      sample_GetProperty "prototype").2.2 (by decide) (by decide) |>.1⟩

/-! ## `js::Value`: calling a script function -/

/-- C19. The code departs from the specification here: the native callable made
from a script function, declared `int32_t(int32_t)`, called with `123`, where
the script function returns a new object whose conversion to a number throws.
The temporary argument is released, but the conversion of the result throws
before `JS_FreeValue(ctx, result)` is reached: the result is not among the
released values and the object (object `2`) keeps its reference. With a `void`
return type the same call releases the result. -/
theorem function_call_conversion_failure_keeps_result :
    (Value.function_call sample_Call [TypeConverter_int32 (JS_ToInt32 throwing_valueOf)]
        (some (TypeConverter_int32 (JS_ToInt32 throwing_valueOf))) (.object 0) [.int 123]
        sample_world.ctx).released = [.int 123]
    ∧ (Value.function_call sample_Call [TypeConverter_int32 (JS_ToInt32 throwing_valueOf)]
        (some (TypeConverter_int32 (JS_ToInt32 throwing_valueOf))) (.object 0) [.int 123]
        sample_world.ctx).ctx.objects[2]? = some { class_id := 1, ref_count := 1, payload := 0 }
    ∧ (∃ what, (Value.function_call sample_Call
        [TypeConverter_int32 (JS_ToInt32 throwing_valueOf)]
        (some (TypeConverter_int32 (JS_ToInt32 throwing_valueOf))) (.object 0) [.int 123]
        sample_world.ctx).result = .error (.std_exception what))
    ∧ (Value.function_call sample_Call [TypeConverter_int32 (JS_ToInt32 throwing_valueOf)]
        none (.object 0) [.int 123] sample_world.ctx).released = [.int 123, .object 2]
    ∧ (Value.function_call sample_Call [TypeConverter_int32 (JS_ToInt32 throwing_valueOf)]
        none (.object 0) [.int 123] sample_world.ctx).ctx.objects[2]?
        = some { class_id := 1, ref_count := 0, payload := 0 } := by
  refine ⟨by decide, by decide, ⟨_, rfl⟩, by decide, by decide⟩

/-! ## `js::Context::eval` -/

/-- C20. `Context::eval` with exceptions enabled, `result` being what the engine's
`JS_Eval` returns and `c1` the engine state it leaves. The `Context` object is
never changed, so a later `eval` runs on the same `Context`. If `result` is not
the exception signal, `eval` returns the handle of `result` in the context
(valid when the context is), the callback is not invoked and nothing is
released. If `result` is the exception signal: without a callback, `eval`
throws `js::Exception` after releasing `result`; with a callback that returns,
the callback is invoked exactly once, on `c1`, then `result` is released and
`js::Exception` is thrown. So, the callback returning if there is one, `eval`
throws `js::Exception` exactly when `result` is the exception signal. -/
theorem eval_raises_iff_exception
    (JS_Eval : JSContext → String → String → Int → JSValue × JSContext)
    (self : Context) (code filename : String) (flags : Int) (c : JSContext) :
    (Context.eval JS_Eval self code filename flags c).self = self
    ∧ (∀ code2 filename2 flags2 c2,
      Context.eval JS_Eval (Context.eval JS_Eval self code filename flags c).self code2 filename2
          flags2 c2 = Context.eval JS_Eval self code2 filename2 flags2 c2)
    ∧ ((JS_Eval c code filename flags).1 ≠ .exception →
      (Context.eval JS_Eval self code filename flags c).result
          = .ok { _ctx := self._context, _val := (JS_Eval c code filename flags).1 }
      ∧ (Context.eval JS_Eval self code filename flags c).callback_calls = 0
      ∧ (Context.eval JS_Eval self code filename flags c).released = []
      ∧ (Context.eval JS_Eval self code filename flags c).ctx = (JS_Eval c code filename flags).2
      ∧ (self._context ≠ 0 →
        Value.is_valid { _ctx := self._context, _val := (JS_Eval c code filename flags).1 } = true))
    ∧ ((JS_Eval c code filename flags).1 = .exception → self._on_exception = none →
      (Context.eval JS_Eval self code filename flags c).result
          = .error (.Exception ("Failed to evaluate JS code (filename: \"" ++ filename ++ "\")")
              self._context)
      ∧ (Context.eval JS_Eval self code filename flags c).callback_calls = 0
      ∧ (Context.eval JS_Eval self code filename flags c).released = [.exception]
      ∧ (Context.eval JS_Eval self code filename flags c).ctx = (JS_Eval c code filename flags).2)
    ∧ (∀ callback c2, (JS_Eval c code filename flags).1 = .exception →
      self._on_exception = some callback →
      callback (JS_Eval c code filename flags).2 = (.ok (), c2) →
      (Context.eval JS_Eval self code filename flags c).result
          = .error (.Exception ("Failed to evaluate JS code (filename: \"" ++ filename ++ "\")")
              self._context)
      ∧ (Context.eval JS_Eval self code filename flags c).callback_calls = 1
      ∧ (Context.eval JS_Eval self code filename flags c).released = [.exception]
      ∧ (Context.eval JS_Eval self code filename flags c).ctx = c2)
    ∧ ((∀ callback, self._on_exception = some callback →
        ∃ c2, callback (JS_Eval c code filename flags).2 = (.ok (), c2)) →
      ((∃ message p, (Context.eval JS_Eval self code filename flags c).result
          = .error (.Exception message p))
        ↔ (JS_Eval c code filename flags).1 = .exception)) := by
  have hself : (Context.eval JS_Eval self code filename flags c).self = self := by
    unfold Context.eval
    rcases JS_Eval c code filename flags with ⟨result, c1⟩
    simp only
    split
    · cases self._on_exception with
      | none => rfl
      | some callback =>
        simp only
        rcases callback c1 with ⟨r, c2⟩
        cases r <;> rfl
    · rfl
  refine ⟨hself, ?_, ?_, ?_, ?_, ?_⟩
  · intro code2 filename2 flags2 c2
    rw [hself]
  · intro hne
    unfold Context.eval
    rcases hev : JS_Eval c code filename flags with ⟨result, c1⟩
    rw [hev] at hne
    simp only at hne
    have hfalse : JS_IsException result = false := by
      cases result <;> first | rfl | exact absurd rfl hne
    simp [hfalse, Value.is_valid]
  · intro hexc hnone
    unfold Context.eval
    rcases hev : JS_Eval c code filename flags with ⟨result, c1⟩
    rw [hev] at hexc
    simp only at hexc
    subst hexc
    simp [JS_IsException, hnone, JS_FreeValue]
  · intro callback c2 hexc hsome hcb
    unfold Context.eval
    rcases hev : JS_Eval c code filename flags with ⟨result, c1⟩
    rw [hev] at hexc hcb
    simp only at hexc hcb
    subst hexc
    simp [JS_IsException, hsome, hcb, JS_FreeValue]
  · intro hret
    unfold Context.eval
    rcases hev : JS_Eval c code filename flags with ⟨result, c1⟩
    rw [hev] at hret
    simp only at hret
    by_cases hexc : result = .exception
    · subst hexc
      cases hcb : self._on_exception with
      | none => simp [JS_IsException]
      | some callback =>
        obtain ⟨c2, hc2⟩ := hret callback hcb
        simp [JS_IsException, hc2]
    · have hfalse : JS_IsException result = false := by
        cases result <;> first | rfl | exact absurd rfl hexc
      simp [hfalse, hexc]

/-- C20 at concrete calls on `sample_context`: the text that does not parse makes
`eval` throw after one invocation of the callback; another text yields a valid
handle of its value without any invocation. -/
theorem eval_raises_iff_exception_witness :
    ((Context.eval sample_Eval sample_context "this is invalid javascript code" "<eval>" 8
        empty_ctx).result
        = .error (.Exception ("Failed to evaluate JS code (filename: \"" ++ "<eval>" ++ "\")")
            sample_context._context)
      ∧ (Context.eval sample_Eval sample_context "this is invalid javascript code" "<eval>" 8
        empty_ctx).callback_calls = 1
      ∧ (Context.eval sample_Eval sample_context "this is invalid javascript code" "<eval>" 8
        empty_ctx).released = [.exception]
      ∧ (Context.eval sample_Eval sample_context "this is invalid javascript code" "<eval>" 8
        empty_ctx).ctx
        = (sample_Eval empty_ctx "this is invalid javascript code" "<eval>" 8).2)
    ∧ (Context.eval sample_Eval sample_context "10 + 20" "<eval>" 8 empty_ctx).result
        = .ok { _ctx := sample_context._context,
                _val := (sample_Eval empty_ctx "10 + 20" "<eval>" 8).1 } :=
  ⟨(eval_raises_iff_exception sample_Eval sample_context "this is invalid javascript code"
      "<eval>" 8 empty_ctx).2.2.2.2.1 (fun c => (.ok (), c))
      (sample_Eval empty_ctx "this is invalid javascript code" "<eval>" 8).2
      (by decide) rfl rfl,
    ((eval_raises_iff_exception sample_Eval sample_context "10 + 20" "<eval>" 8
      empty_ctx).2.2.1 (by decide)).1⟩

/-! ## `js::Value`: reference accounting -/

theorem getElem?_modify_object (f : JSObject → JSObject) (n m : Nat) (l : List JSObject) :
    (modify_object f n l)[m]? = if n = m then (l[m]?).map f else l[m]? := by
  induction l generalizing n m with
  | nil => cases n <;> simp [modify_object]
  | cons o os ih =>
    cases n with
    | zero =>
      cases m with
      | zero => simp [modify_object]
      | succ m => simp [modify_object]
    | succ n =>
      cases m with
      | zero => simp [modify_object]
      | succ m => simp [modify_object, ih]

theorem ref_count_at_free (c : JSContext) (v : JSValue) (r : Nat) :
    ref_count_at (JS_FreeValue c v) r
      = ref_count_at c r - (if v = .object r then 1 else 0) := by
  cases v with
  | object r1 =>
    simp only [JS_FreeValue, ref_count_at, getElem?_modify_object, JSValue.object.injEq]
    by_cases h : r1 = r
    · subst h
      cases c.objects[r1]? <;> simp
    · simp [h]
  | _ => simp [JS_FreeValue]

theorem ref_count_at_dup (c : JSContext) (v : JSValue) (r : Nat) :
    ref_count_at (JS_DupValue c v) r
      = ref_count_at c r + (if v = .object r ∧ r < c.objects.length then 1 else 0) := by
  cases v with
  | object r1 =>
    simp only [JS_DupValue, ref_count_at, getElem?_modify_object, JSValue.object.injEq]
    by_cases h : r1 = r
    · subst h
      by_cases hlt : r1 < c.objects.length
      · simp [hlt, List.getElem?_eq_getElem hlt]
      · simp [hlt, List.getElem?_eq_none (Nat.le_of_not_lt hlt)]
    · simp [h]
  | _ => simp [JS_DupValue]

theorem ref_count_at_pos_lt (c : JSContext) (r : Nat) (h : 0 < ref_count_at c r) :
    r < c.objects.length := by
  by_contra hge
  rw [ref_count_at, List.getElem?_eq_none (Nat.le_of_not_lt hge)] at h
  exact Nat.lt_irrefl 0 h

theorem held_append (hs : List Value) (h : Value) (r : Nat) :
    held (hs ++ [h]) r = held hs r + h.holds r := by
  induction hs with
  | nil => simp [held]
  | cons a hs ih =>
    show a.holds r + held (hs ++ [h]) r = a.holds r + held hs r + h.holds r
    rw [ih]
    omega

theorem held_set (hs : List Value) (i : Nat) (t h : Value) (r : Nat) (ht : hs[i]? = some t) :
    held (hs.set i h) r + t.holds r = held hs r + h.holds r := by
  induction hs generalizing i with
  | nil => simp at ht
  | cons a hs ih =>
    cases i with
    | zero =>
      simp only [List.getElem?_cons_zero, Option.some.injEq] at ht
      subst ht
      simp only [List.set_cons_zero, held]
      omega
    | succ i =>
      simp only [List.getElem?_cons_succ] at ht
      have := ih i ht
      simp only [List.set_cons_succ, held]
      omega

theorem holds_le_held (hs : List Value) (i : Nat) (t : Value) (r : Nat) (ht : hs[i]? = some t) :
    t.holds r ≤ held hs r := by
  have := held_set hs i t Value.new r ht
  have h0 : Value.new.holds r = 0 := by simp [Value.holds, Value.new]
  omega

theorem holds_add_le_held (hs : List Value) (i j : Nat) (t o : Value) (r : Nat) (hij : i ≠ j)
    (ht : hs[i]? = some t) (ho : hs[j]? = some o) :
    t.holds r + o.holds r ≤ held hs r := by
  have h1 := held_set hs i t Value.new r ht
  have hj : (hs.set i Value.new)[j]? = some o := by
    rw [List.getElem?_set]
    simp [hij, ho]
  have h2 := holds_le_held (hs.set i Value.new) j o r hj
  have h0 : Value.new.holds r = 0 := by simp [Value.holds, Value.new]
  omega

theorem free_length (c : JSContext) (v : JSValue) :
    (JS_FreeValue c v).objects.length = c.objects.length := by
  cases v <;> simp [JS_FreeValue, modify_object_length]

theorem holds_pos_lt (hs : List Value) (c : JSContext) (i : Nat) (t : Value) (r : Nat)
    (hbal : ∀ r, held hs r ≤ ref_count_at c r) (ht : hs[i]? = some t)
    (hpos : 0 < t.holds r) : r < c.objects.length := by
  apply ref_count_at_pos_lt
  have := holds_le_held hs i t r ht
  have := hbal r
  omega

theorem copy_construct_accounting (hs : List Value) (c : JSContext) (j : Nat) (o : Value)
    (hbal : ∀ r, held hs r ≤ ref_count_at c r) (ho : hs[j]? = some o) (r : Nat) :
    ref_count_at (Value.copy_construct o c).2 r + held hs r
        = ref_count_at c r + held (hs ++ [(Value.copy_construct o c).1]) r
    ∧ held (hs ++ [(Value.copy_construct o c).1]) r ≤ ref_count_at (Value.copy_construct o c).2 r
      := by
  have hb := hbal r
  have hle := holds_le_held hs j o r ho
  rw [held_append]
  unfold Value.copy_construct
  by_cases hv : o._ctx = 0
  · simp only [hv, ne_eq, not_true_eq_false, if_false]
    simp only [Value.holds, hv, ne_eq, not_true_eq_false, false_and, if_false]
    omega
  · simp only [ne_eq, hv, not_false_eq_true, if_true]
    rw [ref_count_at_dup]
    by_cases hr : o._val = .object r
    · have hpos : 0 < o.holds r := by simp [Value.holds, hv, hr]
      have hlt := holds_pos_lt hs c j o r hbal ho hpos
      simp only [Value.holds, ne_eq, hv, not_false_eq_true, hr, and_self, if_true, hlt] at hle ⊢
      omega
    · simp only [Value.holds, ne_eq, hv, not_false_eq_true, hr, and_false, false_and,
        if_false] at hle ⊢
      omega

theorem destroy_accounting (hs : List Value) (c : JSContext) (i : Nat) (t : Value)
    (hbal : ∀ r, held hs r ≤ ref_count_at c r) (ht : hs[i]? = some t) (r : Nat) :
    ref_count_at (Value.destroy hs i c).2 r + held hs r
        = ref_count_at c r + held (Value.destroy hs i c).1 r
    ∧ held (Value.destroy hs i c).1 r ≤ ref_count_at (Value.destroy hs i c).2 r := by
  have hb := hbal r
  have hle := holds_le_held hs i t r ht
  have hset := held_set hs i t Value.new r ht
  have h0 : Value.new.holds r = 0 := by simp [Value.holds, Value.new]
  rw [h0] at hset
  simp only [Value.destroy, ht]
  by_cases hv : t._ctx = 0
  · simp only [hv, ne_eq, not_true_eq_false, if_false]
    simp only [Value.holds, hv, ne_eq, not_true_eq_false, false_and, if_false] at hle hset
    omega
  · simp only [ne_eq, hv, not_false_eq_true, if_true]
    rw [ref_count_at_free]
    by_cases hr : t._val = .object r
    · simp only [Value.holds, ne_eq, hv, not_false_eq_true, hr, and_self, if_true] at hle hset ⊢
      omega
    · simp only [Value.holds, ne_eq, hv, not_false_eq_true, hr, and_false, if_false]
        at hle hset ⊢
      omega

/-- Releasing what a handle holds, as the assignments and the destructor do. -/
theorem release_count (c : JSContext) (t : Value) (r : Nat) :
    ref_count_at (if t._ctx ≠ 0 then JS_FreeValue c t._val else c) r
      = ref_count_at c r - t.holds r := by
  by_cases hv : t._ctx = 0
  · simp [hv, Value.holds]
  · simp only [ne_eq, hv, not_false_eq_true, if_true, ref_count_at_free, Value.holds, true_and]

theorem release_length (c : JSContext) (t : Value) :
    (if t._ctx ≠ 0 then JS_FreeValue c t._val else c).objects.length = c.objects.length := by
  split
  · exact free_length c t._val
  · rfl

/-- Acquiring a reference to what a valid handle holds. -/
theorem acquire_count (c : JSContext) (o : Value) (r : Nat) (hv : o._ctx ≠ 0)
    (hlt : 0 < o.holds r → r < c.objects.length) :
    ref_count_at (JS_DupValue c o._val) r = ref_count_at c r + o.holds r := by
  rw [ref_count_at_dup]
  by_cases hr : o._val = .object r
  · have hpos : 0 < o.holds r := by simp [Value.holds, hv, hr]
    have := hlt hpos
    simp [Value.holds, hv, hr, this]
  · simp [Value.holds, hr]

theorem copy_assign_accounting (hs : List Value) (c : JSContext) (i j : Nat) (t o : Value)
    (hbal : ∀ r, held hs r ≤ ref_count_at c r) (hij : i ≠ j)
    (ht : hs[i]? = some t) (ho : hs[j]? = some o) (r : Nat) :
    ref_count_at (Value.copy_assign hs i j c).2 r + held hs r
        = ref_count_at c r + held (Value.copy_assign hs i j c).1 r
    ∧ held (Value.copy_assign hs i j c).1 r ≤ ref_count_at (Value.copy_assign hs i j c).2 r := by
  have hb := hbal r
  have hsum := holds_add_le_held hs i j t o r hij ht ho
  have hlt : 0 < o.holds r → r < c.objects.length := holds_pos_lt hs c j o r hbal ho
  simp only [Value.copy_assign, if_neg hij, ht, ho]
  by_cases hv : o._ctx = 0
  · have hset := held_set hs i t { _ctx := o._ctx, _val := .undefined } r ht
    have hnew : Value.holds { _ctx := o._ctx, _val := .undefined } r = 0 := by
      simp [Value.holds]
    have ho0 : o.holds r = 0 := by simp [Value.holds, hv]
    rw [hnew] at hset
    simp only [hv, ne_eq, not_true_eq_false, if_false] at hset ⊢
    rw [release_count]
    omega
  · have hset := held_set hs i t { _ctx := o._ctx, _val := o._val } r ht
    have hnew : Value.holds { _ctx := o._ctx, _val := o._val } r = o.holds r := rfl
    rw [hnew] at hset
    simp only [ne_eq, hv, not_false_eq_true, if_true]
    rw [acquire_count _ o r hv (by rw [release_length]; exact hlt), release_count]
    omega

theorem move_assign_accounting (hs : List Value) (c : JSContext) (i j : Nat) (t o : Value)
    (hbal : ∀ r, held hs r ≤ ref_count_at c r) (hij : i ≠ j)
    (ht : hs[i]? = some t) (ho : hs[j]? = some o) (r : Nat) :
    ref_count_at (Value.move_assign hs i j c).2 r + held hs r
        = ref_count_at c r + held (Value.move_assign hs i j c).1 r
    ∧ held (Value.move_assign hs i j c).1 r ≤ ref_count_at (Value.move_assign hs i j c).2 r := by
  have hb := hbal r
  have hsum := holds_add_le_held hs i j t o r hij ht ho
  have hset1 := held_set hs i t { _ctx := o._ctx, _val := o._val } r ht
  have hnew : Value.holds { _ctx := o._ctx, _val := o._val } r = o.holds r := rfl
  rw [hnew] at hset1
  have hj : (hs.set i { _ctx := o._ctx, _val := o._val })[j]? = some o := by
    rw [List.getElem?_set]
    simp [hij, ho]
  have hset2 := held_set (hs.set i { _ctx := o._ctx, _val := o._val }) j o
    { _ctx := 0, _val := .undefined } r hj
  have h0 : Value.holds { _ctx := 0, _val := .undefined } r = 0 := by simp [Value.holds]
  rw [h0] at hset2
  simp only [Value.move_assign, if_neg hij, ht, ho]
  rw [release_count]
  omega

theorem move_construct_accounting (hs : List Value) (j : Nat) (o : Value)
    (ho : hs[j]? = some o) (r : Nat) :
    held ((hs.set j (Value.move_construct o).2) ++ [(Value.move_construct o).1]) r
      = held hs r := by
  have hset := held_set hs j o { _ctx := 0, _val := .undefined } r ho
  have h0 : Value.holds { _ctx := 0, _val := .undefined } r = 0 := by simp [Value.holds]
  have hnew : Value.holds { _ctx := o._ctx, _val := o._val } r = o.holds r := rfl
  rw [h0] at hset
  simp only [Value.move_construct]
  rw [held_append, hnew]
  omega

/-- C17. Handles `hs` over an engine state `c` in which every object has at least
as many references as the handles hold of it. For each operation of `Value`,
`r` ranging over the objects: the reference count of `r` changes by exactly the
change in the number of references the handles hold of `r`, and the new state
again has at least as many references as the handles hold.
Copy construction from a valid source duplicates its value once (one more
reference to the object) and from an invalid source touches nothing; move
construction touches no reference and leaves the source invalid (no context,
`undefined`); both assignments release what the destination held, the copy
then acquires one reference for a valid source, the move leaves the source
invalid, and self-assignment changes nothing; destruction releases the value
once for a valid handle and nothing for an invalid one. -/
theorem value_reference_accounting (hs : List Value) (c : JSContext)
    (hbal : ∀ r, held hs r ≤ ref_count_at c r) :
    (∀ (j : Nat) (o : Value), hs[j]? = some o →
      (o._ctx ≠ 0 → Value.copy_construct o c = (o, JS_DupValue c o._val))
      ∧ (o._ctx ≠ 0 → ∀ r, o._val = .object r →
        ref_count_at (Value.copy_construct o c).2 r = ref_count_at c r + 1)
      ∧ (o._ctx = 0 → Value.copy_construct o c = (Value.new, c))
      ∧ ∀ r, ref_count_at (Value.copy_construct o c).2 r + held hs r
            = ref_count_at c r + held (hs ++ [(Value.copy_construct o c).1]) r
          ∧ held (hs ++ [(Value.copy_construct o c).1]) r
            ≤ ref_count_at (Value.copy_construct o c).2 r)
    ∧ (∀ (j : Nat) (o : Value), hs[j]? = some o →
      Value.move_construct o = (o, Value.new)
      ∧ ∀ r, held ((hs.set j (Value.move_construct o).2) ++ [(Value.move_construct o).1]) r
          = held hs r)
    ∧ (∀ i : Nat, Value.copy_assign hs i i c = (hs, c))
    ∧ (∀ (i j : Nat) (t o : Value), i ≠ j → hs[i]? = some t → hs[j]? = some o →
      (Value.copy_assign hs i j c).1[i]? = some (if o._ctx ≠ 0 then o else Value.new)
      ∧ (Value.copy_assign hs i j c).1[j]? = some o
      ∧ ∀ r, ref_count_at (Value.copy_assign hs i j c).2 r + held hs r
            = ref_count_at c r + held (Value.copy_assign hs i j c).1 r
          ∧ held (Value.copy_assign hs i j c).1 r ≤ ref_count_at (Value.copy_assign hs i j c).2 r)
    ∧ (∀ i : Nat, Value.move_assign hs i i c = (hs, c))
    ∧ (∀ (i j : Nat) (t o : Value), i ≠ j → hs[i]? = some t → hs[j]? = some o →
      (Value.move_assign hs i j c).1[i]? = some o
      ∧ (Value.move_assign hs i j c).1[j]? = some Value.new
      ∧ ∀ r, ref_count_at (Value.move_assign hs i j c).2 r + held hs r
            = ref_count_at c r + held (Value.move_assign hs i j c).1 r
          ∧ held (Value.move_assign hs i j c).1 r ≤ ref_count_at (Value.move_assign hs i j c).2 r)
    ∧ (∀ (i : Nat) (t : Value), hs[i]? = some t →
      (t._ctx ≠ 0 → (Value.destroy hs i c).2 = JS_FreeValue c t._val)
      ∧ (t._ctx ≠ 0 → ∀ r, t._val = .object r →
        ref_count_at (Value.destroy hs i c).2 r + 1 = ref_count_at c r)
      ∧ (t._ctx = 0 → (Value.destroy hs i c).2 = c)
      ∧ ∀ r, ref_count_at (Value.destroy hs i c).2 r + held hs r
            = ref_count_at c r + held (Value.destroy hs i c).1 r
          ∧ held (Value.destroy hs i c).1 r ≤ ref_count_at (Value.destroy hs i c).2 r) := by
  refine ⟨?_, ?_, ?_, ?_, ?_, ?_, ?_⟩
  · intro j o ho
    refine ⟨?_, ?_, ?_, fun r => copy_construct_accounting hs c j o hbal ho r⟩
    · intro hv
      simp [Value.copy_construct, hv]
    · intro hv r hr
      have hpos : 0 < o.holds r := by simp [Value.holds, hv, hr]
      have hlt := holds_pos_lt hs c j o r hbal ho hpos
      simp only [Value.copy_construct, ne_eq, hv, not_false_eq_true, if_true]
      rw [acquire_count c o r hv (fun _ => hlt)]
      simp [Value.holds, hv, hr]
    · intro hv
      simp [Value.copy_construct, hv, Value.new]
  · intro j o ho
    exact ⟨rfl, fun r => move_construct_accounting hs j o ho r⟩
  · intro i
    simp [Value.copy_assign]
  · intro i j t o hij ht ho
    have hlen : i < hs.length := by
      rcases Nat.lt_or_ge i hs.length with h | h
      · exact h
      · rw [List.getElem?_eq_none h] at ht; cases ht
    refine ⟨?_, ?_, fun r => copy_assign_accounting hs c i j t o hbal hij ht ho r⟩
    · simp only [Value.copy_assign, if_neg hij, ht, ho]
      by_cases hv : o._ctx = 0
      · simp [hv, List.getElem?_set, hlen, Value.new]
      · simp [hv, List.getElem?_set, hlen]
    · simp only [Value.copy_assign, if_neg hij, ht, ho]
      by_cases hv : o._ctx = 0
      · simp [hv, List.getElem?_set, hij, ho]
      · simp [hv, List.getElem?_set, hij, ho]
  · intro i
    simp [Value.move_assign]
  · intro i j t o hij ht ho
    have hlen : i < hs.length := by
      rcases Nat.lt_or_ge i hs.length with h | h
      · exact h
      · rw [List.getElem?_eq_none h] at ht; cases ht
    have hlenj : j < hs.length := by
      rcases Nat.lt_or_ge j hs.length with h | h
      · exact h
      · rw [List.getElem?_eq_none h] at ho; cases ho
    refine ⟨?_, ?_, fun r => move_assign_accounting hs c i j t o hbal hij ht ho r⟩
    · simp only [Value.move_assign, if_neg hij, ht, ho]
      simp [List.getElem?_set, hlen, Ne.symm hij]
    · simp only [Value.move_assign, if_neg hij, ht, ho]
      simp [List.getElem?_set, hlenj, Value.new]
  · intro i t ht
    refine ⟨?_, ?_, ?_, fun r => destroy_accounting hs c i t hbal ht r⟩
    · intro hv
      simp [Value.destroy, ht, hv]
    · intro hv r hr
      have hle := holds_le_held hs i t r ht
      have hb := hbal r
      have hone : t.holds r = 1 := by simp [Value.holds, hv, hr]
      simp only [Value.destroy, ht, ne_eq, hv, not_false_eq_true, if_true]
      rw [ref_count_at_free]
      simp only [hr, if_true]
      omega
    · intro hv
      simp [Value.destroy, ht, hv]

theorem sample_handles_balanced (r : Nat) :
    held sample_handles r ≤ ref_count_at sample_world.ctx r := by
  by_cases h : r = 1
  · subst h
    decide
  · have h0 : held sample_handles r = 0 := by
      have hne : ¬ (1 = r) := fun e => h e.symm
      simp [held, sample_handles, Value.holds, Value.new, hne]
    omega

/-- C17 on `sample_handles` in `sample_world`: copying the valid handle of the
object `1` adds one reference to it, destroying that handle removes one,
destroying the invalid handle leaves the state as it was, and move assignment
of the valid handle to the invalid one leaves the source invalid. -/
theorem value_reference_accounting_witness :
    ref_count_at (Value.copy_construct { _ctx := 1, _val := .object 1 } sample_world.ctx).2 1
        = ref_count_at sample_world.ctx 1 + 1
    ∧ ref_count_at (Value.destroy sample_handles 0 sample_world.ctx).2 1 + 1
        = ref_count_at sample_world.ctx 1
    ∧ (Value.destroy sample_handles 1 sample_world.ctx).2 = sample_world.ctx
    ∧ (Value.move_assign sample_handles 1 0 sample_world.ctx).1[0]? = some Value.new :=
  ⟨((value_reference_accounting sample_handles sample_world.ctx sample_handles_balanced).1 0
      { _ctx := 1, _val := .object 1 } rfl).2.1 (by decide) 1 rfl,
    ((value_reference_accounting sample_handles sample_world.ctx
      sample_handles_balanced).2.2.2.2.2.2 0 { _ctx := 1, _val := .object 1 } rfl).2.1
      (by decide) 1 rfl,
    ((value_reference_accounting sample_handles sample_world.ctx
      sample_handles_balanced).2.2.2.2.2.2 1 Value.new rfl).2.2.1 rfl,
    ((value_reference_accounting sample_handles sample_world.ctx
      sample_handles_balanced).2.2.2.2.2.1 1 0 Value.new { _ctx := 1, _val := .object 1 }
      (by decide) rfl rfl).2.1⟩

/-! ## The vector converter -/

theorem same_shape_refl (o : JSObject) : same_shape o o := ⟨rfl, rfl⟩

theorem same_shape_trans {o o1 o2 : JSObject} (h : same_shape o o1) (h1 : same_shape o1 o2) :
    same_shape o o2 := ⟨h.1.trans h1.1, h.2.trans h1.2⟩

theorem keeps_from_refl (lo : Nat) (c : JSContext) : keeps_from lo c c :=
  fun _ o _ h => ⟨o, h, same_shape_refl o⟩

theorem keeps_from_trans {lo : Nat} {c c1 c2 : JSContext} (h : keeps_from lo c c1)
    (h1 : keeps_from lo c1 c2) : keeps_from lo c c2 := by
  intro i o hi ho
  obtain ⟨o1, ho1, hs1⟩ := h i o hi ho
  obtain ⟨o2, ho2, hs2⟩ := h1 i o1 hi ho1
  exact ⟨o2, ho2, same_shape_trans hs1 hs2⟩

theorem keeps_from_mono {lo lo1 : Nat} {c c1 : JSContext} (hle : lo ≤ lo1)
    (h : keeps_from lo c c1) : keeps_from lo1 c c1 :=
  fun i o hi ho => h i o (Nat.le_trans hle hi) ho

theorem keeps_length {c c1 : JSContext} (h : keeps_from 0 c c1) :
    c.objects.length ≤ c1.objects.length := by
  by_contra hlt
  have hi : c1.objects.length < c.objects.length := Nat.lt_of_not_le hlt
  obtain ⟨o1, ho1, -⟩ := h c1.objects.length _ (Nat.zero_le _) (List.getElem?_eq_getElem hi)
  rw [List.getElem?_eq_none (Nat.le_refl _)] at ho1
  cases ho1

theorem keeps_modify (c : JSContext) (f : JSObject → JSObject) (n : Nat)
    (hf : ∀ o, same_shape o (f o)) :
    keeps_from 0 c { c with objects := modify_object f n c.objects } := by
  intro i o _ ho
  show ∃ o1, (modify_object f n c.objects)[i]? = some o1 ∧ same_shape o o1
  rw [getElem?_modify_object]
  by_cases h : n = i
  · subst h
    exact ⟨f o, by simp [ho], hf o⟩
  · exact ⟨o, by simp [h, ho], same_shape_refl o⟩

theorem keeps_dup (c : JSContext) (v : JSValue) : keeps_from 0 c (JS_DupValue c v) := by
  cases v with
  | object r =>
    exact keeps_modify c (fun o => { o with ref_count := o.ref_count + 1 }) r
      (fun o => ⟨rfl, rfl⟩)
  | _ => exact keeps_from_refl 0 c

theorem keeps_free (c : JSContext) (v : JSValue) : keeps_from 0 c (JS_FreeValue c v) := by
  cases v with
  | object r =>
    exact keeps_modify c (fun o => { o with ref_count := o.ref_count - 1 }) r
      (fun o => ⟨rfl, rfl⟩)
  | _ => exact keeps_from_refl 0 c

/-- Storing at the index just past the last element appends; nothing else
changes. -/
theorem set_property_append (c : JSContext) (n : Nat) (a : JSObject) (v : JSValue)
    (ha : c.objects[n]? = some a) :
    (∀ j, (JS_SetPropertyUint32 c (.object n) a.items.length v).2.objects[j]?
        = if n = j then some { a with items := a.items ++ [v] } else c.objects[j]?)
    ∧ (JS_SetPropertyUint32 c (.object n) a.items.length v).2.out_of_memory = c.out_of_memory
    ∧ (JS_SetPropertyUint32 c (.object n) a.items.length v).2.objects.length
        = c.objects.length := by
  have hnone : a.items[a.items.length]? = none := List.getElem?_eq_none (Nat.le_refl _)
  have hset : set_item a.items a.items.length v = a.items ++ [v] := by
    simp [set_item]
  simp only [JS_SetPropertyUint32, ha, hnone]
  refine ⟨?_, ?_, ?_⟩
  · intro j
    rw [getElem?_modify_object]
    by_cases h : n = j
    · subst h
      simp [ha, hset]
    · simp [h]
  · trivial
  · simp [modify_object_length]

/-- The loop of `to_js` on the array `n`, which holds `i` elements: every other
object keeps its shape, the array ends with the converted values `vs` appended,
and each of them converts back to its element in every context that keeps the
objects existing after the loop, from those the loop started with on. -/
theorem vector_to_js_loop_spec (T : TypeConverter) (good : CppValue → Prop)
    (hT : RoundTrips T good) (n : Nat) :
    ∀ (xs : List CppValue) (i : Nat) (c : JSContext) (a : JSObject),
      c.objects[n]? = some a → a.class_id = JS_CLASS_ARRAY → a.items.length = i →
      i + xs.length ≤ 2 ^ 32 → (∀ x ∈ xs, good x) → c.out_of_memory = false →
      (∀ j o, j ≠ n → c.objects[j]? = some o →
        ∃ o1, (vector_to_js_loop T (.object n) xs i c).objects[j]? = some o1 ∧ same_shape o o1)
      ∧ (vector_to_js_loop T (.object n) xs i c).out_of_memory = false
      ∧ ∃ vs aF, (vector_to_js_loop T (.object n) xs i c).objects[n]? = some aF
          ∧ aF.class_id = JS_CLASS_ARRAY ∧ aF.items = a.items ++ vs ∧ vs.length = xs.length
          ∧ ∀ c2, keeps_from c.objects.length (vector_to_js_loop T (.object n) xs i c) c2 →
              ∀ (k : Nat) (x : CppValue) (v : JSValue), xs[k]? = some x → vs[k]? = some v →
                (T.from_js c2 v).1 = .ok x ∧ keeps_from 0 c2 (T.from_js c2 v).2 := by
  intro xs
  induction xs with
  | nil =>
    intro i c a ha hcls hlen hbound hgood hoom
    refine ⟨fun j o _ ho => ⟨o, ho, same_shape_refl o⟩, hoom, [], a, ha, hcls, by simp, rfl, ?_⟩
    intro c2 _ k x v hx
    simp at hx
  | cons x xs ih =>
    intro i c a ha hcls hlen hbound hgood hoom
    have gx : good x := hgood x (List.mem_cons_self x xs)
    obtain ⟨hk, hoom1⟩ := hT.to_js_keeps c x gx hoom
    obtain ⟨a1, ha1, hsh1⟩ := hk n a (Nat.zero_le _) ha
    have hi : i % 2 ^ 32 = i := by
      apply Nat.mod_eq_of_lt
      simp only [List.length_cons] at hbound
      omega
    have hlen1 : a1.items.length = i := by rw [← hsh1.2]; exact hlen
    have hset := set_property_append (T.to_js c x).2 n a1 (T.to_js c x).1 ha1
    rw [hlen1] at hset
    obtain ⟨hget, hoomS, hlenS⟩ := hset
    have haS : (JS_SetPropertyUint32 (T.to_js c x).2 (.object n) i (T.to_js c x).1).2.objects[n]?
        = some { a1 with items := a1.items ++ [(T.to_js c x).1] } := by
      rw [hget n]; simp
    have hrec := ih (i + 1)
      (JS_SetPropertyUint32 (T.to_js c x).2 (.object n) i (T.to_js c x).1).2
      { a1 with items := a1.items ++ [(T.to_js c x).1] } haS
      (by show a1.class_id = JS_CLASS_ARRAY; rw [← hsh1.1]; exact hcls)
      (by simp [hlen1])
      (by simp only [List.length_cons] at hbound; omega)
      (fun y hy => hgood y (List.mem_cons_of_mem x hy))
      (by rw [hoomS]; exact hoom1)
    obtain ⟨hothers, hoomF, vs, aF, haF, hclsF, hitemsF, hvslen, hdec⟩ := hrec
    have hloop : vector_to_js_loop T (.object n) (x :: xs) i c
        = vector_to_js_loop T (.object n) xs (i + 1)
            (JS_SetPropertyUint32 (T.to_js c x).2 (.object n) i (T.to_js c x).1).2 := by
      show vector_to_js_loop T (.object n) xs (i + 1)
          (JS_SetPropertyUint32 (T.to_js c x).2 (.object n) (i % 2 ^ 32) (T.to_js c x).1).2 = _
      rw [hi]
    rw [hloop]
    have hlen_c1 : c.objects.length ≤ (T.to_js c x).2.objects.length := keeps_length hk
    have hn_lt : n < c.objects.length := by
      rcases Nat.lt_or_ge n c.objects.length with h | h
      · exact h
      · rw [List.getElem?_eq_none h] at ha; cases ha
    refine ⟨?_, hoomF, (T.to_js c x).1 :: vs, aF, haF, hclsF, ?_, by simp [hvslen], ?_⟩
    · intro j o hj ho
      obtain ⟨o1, ho1, hs1⟩ := hk j o (Nat.zero_le _) ho
      have hoS : (JS_SetPropertyUint32 (T.to_js c x).2 (.object n) i
          (T.to_js c x).1).2.objects[j]? = some o1 := by
        rw [hget j]; simp [Ne.symm hj, ho1]
      obtain ⟨o2, ho2, hs2⟩ := hothers j o1 hj hoS
      exact ⟨o2, ho2, same_shape_trans hs1 hs2⟩
    · rw [hitemsF]
      show (a1.items ++ [(T.to_js c x).1]) ++ vs = a.items ++ (T.to_js c x).1 :: vs
      rw [← hsh1.2]
      simp
    · intro c2 hc2 k y v hy hv
      cases k with
      | zero =>
        simp only [List.getElem?_cons_zero, Option.some.injEq] at hy hv
        subst hy
        subst hv
        apply hT.from_js_back c x c2 gx hoom
        intro j o hj ho
        have hjn : j ≠ n := by omega
        have hoS : (JS_SetPropertyUint32 (T.to_js c x).2 (.object n) i
            (T.to_js c x).1).2.objects[j]? = some o := by
          rw [hget j]; simp [Ne.symm hjn, ho]
        obtain ⟨o2, ho2, hs2⟩ := hothers j o hjn hoS
        obtain ⟨o3, ho3, hs3⟩ := hc2 j o2 hj ho2
        exact ⟨o3, ho3, same_shape_trans hs2 hs3⟩
      | succ k =>
        simp only [List.getElem?_cons_succ] at hy hv
        apply hdec c2 _ k y v hy hv
        apply keeps_from_mono _ hc2
        rw [hlenS]
        exact hlen_c1

/-- The loop of `from_js` on the array `n`, in contexts satisfying `K`: a property
that says the array holds `vs`, that survives every step keeping the objects,
and under which each of `vs` converts back to the element of `xs` at its
index. The loop returns the elements from `i` on, appended to `result`. -/
theorem vector_from_js_loop_spec (T : TypeConverter)
    (slow : JSContext → JSValue → Nat → JSValue × JSContext) (n : Nat)
    (xs : List CppValue) (vs : List JSValue) (K : JSContext → Prop)
    (harr : ∀ c, K c → ∃ a, c.objects[n]? = some a ∧ a.class_id = JS_CLASS_ARRAY ∧ a.items = vs)
    (hstep : ∀ c c1, K c → keeps_from 0 c c1 → K c1)
    (hdec : ∀ c, K c → ∀ (k : Nat) (x : CppValue) (v : JSValue), xs[k]? = some x →
      vs[k]? = some v → (T.from_js c v).1 = .ok x ∧ keeps_from 0 c (T.from_js c v).2)
    (hlen : vs.length = xs.length) (hbound : xs.length ≤ 2 ^ 32) :
    ∀ (todo i : Nat) (result : List CppValue) (c : JSContext), K c → i + todo = xs.length →
      (vector_from_js_loop (JS_GetPropertyUint32 slow) T (.object n) todo i result c).1
          = .ok (result ++ xs.drop i)
      ∧ keeps_from 0 c
          (vector_from_js_loop (JS_GetPropertyUint32 slow) T (.object n) todo i result c).2 := by
  intro todo
  induction todo with
  | zero =>
    intro i result c _ hi
    have : xs.drop i = [] := by
      apply List.drop_eq_nil_of_le
      omega
    simp [vector_from_js_loop, this, keeps_from_refl]
  | succ todo ih =>
    intro i result c hK hi
    have hilt : i < xs.length := by omega
    have himod : i % 2 ^ 32 = i := Nat.mod_eq_of_lt (by omega)
    have hivs : i < vs.length := by omega
    obtain ⟨a, ha, hcls, hitems⟩ := harr c hK
    have hv : vs[i]? = some vs[i] := List.getElem?_eq_getElem hivs
    have hx : xs[i]? = some xs[i] := List.getElem?_eq_getElem hilt
    have hget : JS_GetPropertyUint32 slow c (.object n) i
        = (vs[i], JS_DupValue c vs[i]) := by
      simp only [JS_GetPropertyUint32, ha, hcls, if_true, hitems, hv]
    have hK1 : K (JS_DupValue c vs[i]) := hstep c _ hK (keeps_dup c _)
    obtain ⟨hok, hkeep⟩ := hdec _ hK1 i _ _ hx hv
    unfold vector_from_js_loop
    rw [himod, hget]
    simp only
    rcases hfrom : T.from_js (JS_DupValue c vs[i]) vs[i] with ⟨r, c1⟩
    rw [hfrom] at hok hkeep
    simp only at hok hkeep
    subst hok
    simp only
    have hK2 : K c1 := hstep _ _ hK1 hkeep
    have hK3 : K (JS_FreeValue c1 vs[i]) := hstep _ _ hK2 (keeps_free c1 _)
    obtain ⟨hres, hkeepF⟩ := ih (i + 1) (result ++ [xs[i]])
      (JS_FreeValue c1 vs[i]) hK3 (by omega)
    refine ⟨?_, ?_⟩
    · rw [hres, List.append_assoc]
      congr 2
      rw [List.singleton_append, ← List.drop_eq_getElem_cons hilt]
    · exact keeps_from_trans (keeps_from_trans (keeps_from_trans (keeps_dup c _) hkeep)
        (keeps_free c1 _)) hkeepF

theorem new_array_ok (c : JSContext) (hoom : c.out_of_memory = false) :
    JS_NewArray c
      = (.object c.objects.length,
          { c with
            objects := c.objects
              ++ [{ class_id := JS_CLASS_ARRAY, ref_count := 1, payload := 0, items := [] }] }) := by
  simp [JS_NewArray, hoom]

/-- The vector converter over a converter that round-trips is itself of that kind,
on the vectors of fewer than `2^32` elements. -/
theorem vector_converter_round_trips (T : TypeConverter) (good : CppValue → Prop) (hT : RoundTrips T good)
    (slowL : JSContext → JSValue → Option Int × JSContext)
    (slowP : JSContext → JSValue → Nat → JSValue × JSContext) :
    RoundTrips (TypeConverter_vector (JS_GetLength slowL) (JS_GetPropertyUint32 slowP) T)
      (vector_of good) := by
  have key : ∀ (c : JSContext) (xs : List CppValue), c.out_of_memory = false →
      xs.length < 2 ^ 32 → (∀ y ∈ xs, good y) →
      ((TypeConverter_vector (JS_GetLength slowL) (JS_GetPropertyUint32 slowP) T).to_js c
          (.vector xs)).1 = .object c.objects.length
      ∧ keeps_from 0 c ((TypeConverter_vector (JS_GetLength slowL) (JS_GetPropertyUint32 slowP)
          T).to_js c (.vector xs)).2
      ∧ ((TypeConverter_vector (JS_GetLength slowL) (JS_GetPropertyUint32 slowP) T).to_js c
          (.vector xs)).2.out_of_memory = false
      ∧ ∃ vs aF, ((TypeConverter_vector (JS_GetLength slowL) (JS_GetPropertyUint32 slowP)
            T).to_js c (.vector xs)).2.objects[c.objects.length]? = some aF
          ∧ aF.class_id = JS_CLASS_ARRAY ∧ aF.items = vs ∧ vs.length = xs.length
          ∧ ∀ c2, keeps_from c.objects.length ((TypeConverter_vector (JS_GetLength slowL)
                (JS_GetPropertyUint32 slowP) T).to_js c (.vector xs)).2 c2 →
              ∀ (k : Nat) (x : CppValue) (v : JSValue), xs[k]? = some x → vs[k]? = some v →
                (T.from_js c2 v).1 = .ok x ∧ keeps_from 0 c2 (T.from_js c2 v).2 := by
    intro c xs hoom hlen hgood
    have hnew := new_array_ok c hoom
    have ha0 : ({ c with objects := c.objects
        ++ [{ class_id := JS_CLASS_ARRAY, ref_count := 1, payload := 0, items := [] }] }
          : JSContext).objects[c.objects.length]?
        = some { class_id := JS_CLASS_ARRAY, ref_count := 1, payload := 0, items := [] } := by
      simp
    obtain ⟨hothers, hoomF, vs, aF, haF, hclsF, hitemsF, hvslen, hdec⟩ :=
      vector_to_js_loop_spec T good hT c.objects.length xs 0 _ _ ha0 rfl rfl (by omega) hgood hoom
    simp only [TypeConverter_vector, hnew]
    refine ⟨trivial, ?_, hoomF, vs, aF, haF, hclsF, by simpa using hitemsF, hvslen, ?_⟩
    · intro j o _ ho
      have hj : j < c.objects.length := by
        rcases Nat.lt_or_ge j c.objects.length with h | h
        · exact h
        · rw [List.getElem?_eq_none h] at ho; cases ho
      apply hothers j o (by omega)
      show (c.objects ++ _)[j]? = some o
      rw [List.getElem?_append_left hj]
      exact ho
    · intro c2 hc2 k x v hx hv
      apply hdec c2 _ k x v hx hv
      apply keeps_from_mono _ hc2
      simp
  constructor
  · intro c x hx hoom
    obtain ⟨xs, rfl, hlen, hgood⟩ := hx
    obtain ⟨-, hk, hoomF, -⟩ := key c xs hoom hlen hgood
    exact ⟨hk, hoomF⟩
  · intro c x c2 hx hoom hc2
    obtain ⟨xs, rfl, hlen, hgood⟩ := hx
    obtain ⟨harr, -, -, vs, aF, haF, hclsF, hitemsF, hvslen, hdec⟩ := key c xs hoom hlen hgood
    rw [harr]
    obtain ⟨a2, ha2, hsh2⟩ := hc2 c.objects.length aF (Nat.le_refl _) haF
    have hcls2 : a2.class_id = JS_CLASS_ARRAY := by rw [← hsh2.1]; exact hclsF
    have hitems2 : a2.items.length = xs.length := by rw [← hsh2.2, hitemsF]; exact hvslen
    have hlenq : JS_GetLength slowL c2 (.object c.objects.length)
        = (some (xs.length : Int), c2) := by
      simp only [JS_GetLength, ha2, hcls2, if_true, hitems2]
    simp only [TypeConverter_vector, hlenq]
    by_cases hpos : (0 : Int) < (xs.length : Int)
    · rw [if_pos hpos]
      have hloop := vector_from_js_loop_spec T slowP c.objects.length xs vs
        (fun c1 => keeps_from c.objects.length
          ((TypeConverter_vector (JS_GetLength slowL) (JS_GetPropertyUint32 slowP) T).to_js c
            (.vector xs)).2 c1)
        (by
          intro c1 hK
          obtain ⟨a3, ha3, hsh3⟩ := hK c.objects.length aF (Nat.le_refl _) haF
          exact ⟨a3, ha3, by rw [← hsh3.1]; exact hclsF, by rw [← hsh3.2]; exact hitemsF⟩)
        (by
          intro c1 c3 hK hkeep
          exact keeps_from_trans hK (keeps_from_mono (Nat.zero_le _) hkeep))
        (by
          intro c1 hK k x v hx hv
          exact hdec c1 hK k x v hx hv)
        hvslen (by omega) xs.length 0 [] c2 hc2 (by omega)
      rw [Int.toNat_ofNat]
      rcases hres : vector_from_js_loop (JS_GetPropertyUint32 slowP) T
          (.object c.objects.length) xs.length 0 [] c2 with ⟨r, c3⟩
      rw [hres] at hloop
      obtain ⟨hr, hk⟩ := hloop
      simp only at hr hk
      subst hr
      simpa using hk
    · rw [if_neg hpos]
      have hnil : xs = [] := by
        apply List.length_eq_zero.mp
        omega
      subst hnil
      exact ⟨rfl, keeps_from_refl 0 c2⟩

/-- The `int32_t` converter round-trips and does not touch the engine state. -/
theorem int32_round_trips (slow : JSContext → JSValue → Option Int × JSContext) :
    RoundTrips (TypeConverter_int32 (JS_ToInt32 slow)) is_int := by
  constructor
  · intro c x hx hoom
    obtain ⟨n, rfl⟩ := hx
    exact ⟨keeps_from_refl 0 c, hoom⟩
  · intro c x c2 hx _ _
    obtain ⟨n, rfl⟩ := hx
    exact ⟨rfl, keeps_from_refl 0 c2⟩

/-- C13. For every element converter `T` that round-trips on the values `good`
(`RoundTrips`), every context with memory left and every sequence `xs` of fewer
than `2^32` such values, the empty one included: converting `xs` to an engine
array and that array back gives `xs` (same length, same elements, same order);
the vector converter is again a converter that round-trips, so this holds for
vectors nested to any depth. And whatever the engine's `JS_GetLength` is: a value
whose length cannot be read, or is not positive, converts to the empty
sequence. -/
theorem vector_round_trip (T : TypeConverter) (good : CppValue → Prop) (hT : RoundTrips T good)
    (slowL : JSContext → JSValue → Option Int × JSContext)
    (slowP : JSContext → JSValue → Nat → JSValue × JSContext) :
    (∀ (c : JSContext) (xs : List CppValue), c.out_of_memory = false → xs.length < 2 ^ 32 →
      (∀ x ∈ xs, good x) →
      ((TypeConverter_vector (JS_GetLength slowL) (JS_GetPropertyUint32 slowP) T).from_js
        ((TypeConverter_vector (JS_GetLength slowL) (JS_GetPropertyUint32 slowP) T).to_js c
          (.vector xs)).2
        ((TypeConverter_vector (JS_GetLength slowL) (JS_GetPropertyUint32 slowP) T).to_js c
          (.vector xs)).1).1 = .ok (.vector xs))
    ∧ RoundTrips (TypeConverter_vector (JS_GetLength slowL) (JS_GetPropertyUint32 slowP) T)
        (vector_of good)
    ∧ (∀ (get_length : JSContext → JSValue → Option Int × JSContext)
        (get_property : JSContext → JSValue → Nat → JSValue × JSContext)
        (c : JSContext) (value : JSValue),
      ((get_length c value).1 = none ∨ ∃ len, (get_length c value).1 = some len ∧ len ≤ 0) →
      (TypeConverter_vector get_length get_property T).from_js c value
        = (.ok (.vector []), (get_length c value).2)) := by
  have hV := vector_converter_round_trips T good hT slowL slowP
  refine ⟨?_, hV, ?_⟩
  · intro c xs hoom hlen hgood
    exact (hV.from_js_back c (.vector xs) _ ⟨xs, rfl, hlen, hgood⟩ hoom
      (keeps_from_refl _ _)).1
  · intro get_length get_property c value h
    rcases hg : get_length c value with ⟨r, c1⟩
    rw [hg] at h
    simp only at h
    rcases h with h | ⟨len, h, hle⟩
    · subst h
      simp [TypeConverter_vector, hg]
    · subst h
      have hnot : ¬ (0 < len) := by omega
      simp [TypeConverter_vector, hg, hnot]

/-- C13 at concrete vectors in the empty context, with the `int32_t` converter for
the elements: `[1, 2, 3]`, the empty vector, and the nested vector
`[[1], [2, 3]]`; and `undefined`, whose length cannot be read. -/
theorem vector_round_trip_witness :
    ((TypeConverter_vector (JS_GetLength (fun c _ => (none, c)))
          (JS_GetPropertyUint32 (fun c _ _ => (.undefined, c)))
          (TypeConverter_int32 (JS_ToInt32 sample_ToInt32))).from_js
        ((TypeConverter_vector (JS_GetLength (fun c _ => (none, c)))
          (JS_GetPropertyUint32 (fun c _ _ => (.undefined, c)))
          (TypeConverter_int32 (JS_ToInt32 sample_ToInt32))).to_js empty_ctx
          (.vector [.int 1, .int 2, .int 3])).2
        ((TypeConverter_vector (JS_GetLength (fun c _ => (none, c)))
          (JS_GetPropertyUint32 (fun c _ _ => (.undefined, c)))
          (TypeConverter_int32 (JS_ToInt32 sample_ToInt32))).to_js empty_ctx
          (.vector [.int 1, .int 2, .int 3])).1).1 = .ok (.vector [.int 1, .int 2, .int 3])
    ∧ ((TypeConverter_vector (JS_GetLength (fun c _ => (none, c)))
          (JS_GetPropertyUint32 (fun c _ _ => (.undefined, c)))
          (TypeConverter_int32 (JS_ToInt32 sample_ToInt32))).from_js
        ((TypeConverter_vector (JS_GetLength (fun c _ => (none, c)))
          (JS_GetPropertyUint32 (fun c _ _ => (.undefined, c)))
          (TypeConverter_int32 (JS_ToInt32 sample_ToInt32))).to_js empty_ctx (.vector [])).2
        ((TypeConverter_vector (JS_GetLength (fun c _ => (none, c)))
          (JS_GetPropertyUint32 (fun c _ _ => (.undefined, c)))
          (TypeConverter_int32 (JS_ToInt32 sample_ToInt32))).to_js empty_ctx (.vector [])).1).1
        = .ok (.vector [])
    ∧ ((TypeConverter_vector (JS_GetLength (fun c _ => (none, c)))
          (JS_GetPropertyUint32 (fun c _ _ => (.undefined, c)))
          (TypeConverter_vector (JS_GetLength (fun c _ => (none, c)))
            (JS_GetPropertyUint32 (fun c _ _ => (.undefined, c)))
            (TypeConverter_int32 (JS_ToInt32 sample_ToInt32)))).from_js
        ((TypeConverter_vector (JS_GetLength (fun c _ => (none, c)))
          (JS_GetPropertyUint32 (fun c _ _ => (.undefined, c)))
          (TypeConverter_vector (JS_GetLength (fun c _ => (none, c)))
            (JS_GetPropertyUint32 (fun c _ _ => (.undefined, c)))
            (TypeConverter_int32 (JS_ToInt32 sample_ToInt32)))).to_js empty_ctx
          (.vector [.vector [.int 1], .vector [.int 2, .int 3]])).2
        ((TypeConverter_vector (JS_GetLength (fun c _ => (none, c)))
          (JS_GetPropertyUint32 (fun c _ _ => (.undefined, c)))
          (TypeConverter_vector (JS_GetLength (fun c _ => (none, c)))
            (JS_GetPropertyUint32 (fun c _ _ => (.undefined, c)))
            (TypeConverter_int32 (JS_ToInt32 sample_ToInt32)))).to_js empty_ctx
          (.vector [.vector [.int 1], .vector [.int 2, .int 3]])).1).1
        = .ok (.vector [.vector [.int 1], .vector [.int 2, .int 3]])
    ∧ (TypeConverter_vector (JS_GetLength (fun c _ => (none, c)))
          (JS_GetPropertyUint32 (fun c _ _ => (.undefined, c)))
          (TypeConverter_int32 (JS_ToInt32 sample_ToInt32))).from_js empty_ctx .undefined
        = (.ok (.vector []), empty_ctx) :=
  ⟨(vector_round_trip _ is_int (int32_round_trips sample_ToInt32) (fun c _ => (none, c))
      (fun c _ _ => (.undefined, c))).1 empty_ctx [.int 1, .int 2, .int 3] rfl (by norm_num)
      (by
        intro x hx
        simp only [List.mem_cons, List.mem_singleton, List.not_mem_nil, or_false] at hx
        rcases hx with h | h | h <;> exact ⟨_, h⟩),
    (vector_round_trip _ is_int (int32_round_trips sample_ToInt32) (fun c _ => (none, c))
      (fun c _ _ => (.undefined, c))).1 empty_ctx [] rfl (by norm_num)
      (by intro x hx; cases hx),
    (vector_round_trip _ (vector_of is_int)
      (vector_round_trip _ is_int (int32_round_trips sample_ToInt32) (fun c _ => (none, c))
        (fun c _ _ => (.undefined, c))).2.1
      (fun c _ => (none, c)) (fun c _ _ => (.undefined, c))).1 empty_ctx
      [.vector [.int 1], .vector [.int 2, .int 3]] rfl (by norm_num)
      (by
        intro x hx
        simp only [List.mem_cons, List.mem_singleton, List.not_mem_nil, or_false] at hx
        rcases hx with h | h
        · refine ⟨[.int 1], h, by norm_num, ?_⟩
          intro y hy
          simp only [List.mem_singleton] at hy
          exact ⟨_, hy⟩
        · refine ⟨[.int 2, .int 3], h, by norm_num, ?_⟩
          intro y hy
          simp only [List.mem_cons, List.mem_singleton, List.not_mem_nil, or_false] at hy
          rcases hy with h1 | h1 <;> exact ⟨_, h1⟩),
    (vector_round_trip _ is_int (int32_round_trips sample_ToInt32) (fun c _ => (none, c))
      (fun c _ _ => (.undefined, c))).2.2 (JS_GetLength (fun c _ => (none, c)))
      (JS_GetPropertyUint32 (fun c _ _ => (.undefined, c))) empty_ctx .undefined
      (Or.inl rfl)⟩

/-! ## Evaluation options -/

theorem nat_or_eq_zero (a b : Nat) : a ||| b = 0 ↔ a = 0 ∧ b = 0 := by
  constructor
  · intro h
    have key : ∀ i, a.testBit i = false ∧ b.testBit i = false := by
      intro i
      have := congrArg (fun n => n.testBit i) h
      simpa [Nat.testBit_or] using this
    exact ⟨Nat.eq_of_testBit_eq (fun i => by simp [(key i).1]),
      Nat.eq_of_testBit_eq (fun i => by simp [(key i).2])⟩
  · rintro ⟨rfl, rfl⟩
    rfl

/-- What a combination of flags holds, for any starting value `x`. -/
theorem combine_options_spec (F : List JSEvalOptions) (hF : ∀ f ∈ F, f ∈ eval_flags) (x : Nat) :
    ∃ y : Nat, (combine_options { value := (x : Int) } F).value = (y : Int)
      ∧ y &&& 3 = x &&& 3
      ∧ ∀ g : Nat, g ∈ [8, 16, 32, 64, 128] →
          (y &&& g ≠ 0 ↔ (x &&& g ≠ 0 ∨ ({ value := (g : Int) } : JSEvalOptions) ∈ F)) := by
  induction F generalizing x with
  | nil => exact ⟨x, rfl, rfl, fun g _ => by simp⟩
  | cons f F ih =>
    have hf : f ∈ eval_flags := hF f (List.mem_cons_self _ _)
    have hF2 : ∀ f2 ∈ F, f2 ∈ eval_flags := fun f2 h2 => hF f2 (List.mem_cons_of_mem _ h2)
    obtain ⟨n, hn, hn3, hng⟩ : ∃ n : Nat, f = { value := (n : Int) } ∧ n &&& 3 = 0
        ∧ ∀ g : Nat, g ∈ [8, 16, 32, 64, 128] → (n &&& g ≠ 0 ↔ n = g) := by
      simp only [eval_flags, List.mem_cons, List.mem_singleton, List.not_mem_nil, or_false] at hf
      rcases hf with h | h | h | h | h
      · exact ⟨8, by rw [h]; rfl, by decide, by decide⟩
      · exact ⟨16, by rw [h]; rfl, by decide, by decide⟩
      · exact ⟨32, by rw [h]; rfl, by decide, by decide⟩
      · exact ⟨64, by rw [h]; rfl, by decide, by decide⟩
      · exact ⟨128, by rw [h]; rfl, by decide, by decide⟩
    subst hn
    obtain ⟨y, hy, hy3, hyg⟩ := ih hF2 (x ||| n)
    refine ⟨y, ?_, ?_, ?_⟩
    · rw [← hy]
      rfl
    · rw [hy3, Nat.and_distrib_right, hn3, Nat.or_zero]
    · intro g hg
      rw [hyg g hg, Nat.and_distrib_right]
      have hne : (x &&& g ||| n &&& g ≠ 0) ↔ (x &&& g ≠ 0 ∨ n &&& g ≠ 0) := by
        rw [Ne, nat_or_eq_zero]
        tauto
      rw [hne, hng g hg]
      constructor
      · rintro ((h | h) | h)
        · exact Or.inl h
        · exact Or.inr (by rw [h]; exact List.mem_cons_self _ _)
        · exact Or.inr (List.mem_cons_of_mem _ h)
      · rintro (h | h)
        · exact Or.inl (Or.inl h)
        · rcases List.mem_cons.mp h with h1 | h1
          · have : (g : Int) = (n : Int) := by
              have := congrArg JSEvalOptions.value h1
              simpa using this
            exact Or.inl (Or.inr (by exact_mod_cast this.symm))
          · exact Or.inr h1

/-- C26. The enumerators of `JSEvalOptions` have the engine's values: the types
global `0`, module `1`, direct `2`, indirect `3` with mask `3`, and the flags
strict `8`, compile-only `32`, backtrace-barrier `64`, async `128`. For every
evaluation type `t` and every list `F` of flags combined with it by `operator|`:
masking with `TYPE_MASK` gives `t` back, and `operator&` with a flag `f` is
non-zero exactly when `f` is among `F`. The two operators are the bitwise or
and the bitwise and of the underlying integers, bit by bit. -/
theorem eval_options_bit_layout :
    (JSEvalOptions.TYPE_GLOBAL.value = 0 ∧ JSEvalOptions.TYPE_MODULE.value = 1
      ∧ JSEvalOptions.TYPE_DIRECT.value = 2 ∧ JSEvalOptions.TYPE_INDIRECT.value = 3
      ∧ JSEvalOptions.TYPE_MASK.value = 3 ∧ JSEvalOptions.FLAG_STRICT.value = 8
      ∧ JSEvalOptions.FLAG_COMPILE_ONLY.value = 32
      ∧ JSEvalOptions.FLAG_BACKTRACE_BARRIER.value = 64 ∧ JSEvalOptions.FLAG_ASYNC.value = 128)
    ∧ (∀ t ∈ eval_types, ∀ F : List JSEvalOptions, (∀ f ∈ F, f ∈ eval_flags) →
      (combine_options t F).operator_and JSEvalOptions.TYPE_MASK = t
      ∧ ∀ f ∈ eval_flags, (((combine_options t F).operator_and f).value ≠ 0 ↔ f ∈ F))
    ∧ (∀ (a b : JSEvalOptions) (k : Nat),
      (a.operator_or b).value.testBit k = (a.value.testBit k || b.value.testBit k)
      ∧ (a.operator_and b).value.testBit k = (a.value.testBit k && b.value.testBit k)) := by
  refine ⟨by decide, ?_, fun a b k => ⟨Int.testBit_lor _ _ _, Int.testBit_land _ _ _⟩⟩
  intro t ht F hF
  obtain ⟨n, hn, hn3, hng⟩ : ∃ n : Nat, t = { value := (n : Int) } ∧ n &&& 3 = n
      ∧ ∀ g : Nat, g ∈ [8, 16, 32, 64, 128] → n &&& g = 0 := by
    simp only [eval_types, List.mem_cons, List.mem_singleton, List.not_mem_nil, or_false] at ht
    rcases ht with h | h | h | h
    · exact ⟨0, by rw [h]; rfl, by decide, by decide⟩
    · exact ⟨1, by rw [h]; rfl, by decide, by decide⟩
    · exact ⟨2, by rw [h]; rfl, by decide, by decide⟩
    · exact ⟨3, by rw [h]; rfl, by decide, by decide⟩
  subst hn
  obtain ⟨y, hy, hy3, hyg⟩ := combine_options_spec F hF n
  constructor
  · unfold JSEvalOptions.operator_and
    rw [hy, JSEvalOptions.mk.injEq]
    show ((y &&& 3 : Nat) : Int) = (n : Int)
    rw [hy3, hn3]
  · intro f hf
    obtain ⟨g, hg, hgm⟩ : ∃ g : Nat, f = { value := (g : Int) } ∧ g ∈ [8, 16, 32, 64, 128] := by
      simp only [eval_flags, List.mem_cons, List.mem_singleton, List.not_mem_nil, or_false] at hf
      rcases hf with h | h | h | h | h
      · exact ⟨8, by rw [h]; rfl, by decide⟩
      · exact ⟨16, by rw [h]; rfl, by decide⟩
      · exact ⟨32, by rw [h]; rfl, by decide⟩
      · exact ⟨64, by rw [h]; rfl, by decide⟩
      · exact ⟨128, by rw [h]; rfl, by decide⟩
    subst hg
    show Int.land (combine_options { value := (n : Int) } F).value (g : Int) ≠ 0 ↔ _
    rw [hy]
    show ((y &&& g : Nat) : Int) ≠ 0 ↔ _
    have h := hyg g hgm
    rw [hng g hgm] at h
    simp only [ne_eq, not_true_eq_false, false_or] at h
    rw [← h]
    exact_mod_cast Iff.rfl

/-- C26 at the options `TYPE_MODULE | FLAG_STRICT | FLAG_ASYNC`: the type read
back through the mask is `TYPE_MODULE`, the strict flag is set and the
compile-only flag is not. -/
theorem eval_options_bit_layout_witness :
    (combine_options JSEvalOptions.TYPE_MODULE
        [JSEvalOptions.FLAG_STRICT, JSEvalOptions.FLAG_ASYNC]).operator_and
        JSEvalOptions.TYPE_MASK = JSEvalOptions.TYPE_MODULE
    ∧ ((combine_options JSEvalOptions.TYPE_MODULE
        [JSEvalOptions.FLAG_STRICT, JSEvalOptions.FLAG_ASYNC]).operator_and
        JSEvalOptions.FLAG_STRICT).value ≠ 0
    ∧ ¬ ((combine_options JSEvalOptions.TYPE_MODULE
        [JSEvalOptions.FLAG_STRICT, JSEvalOptions.FLAG_ASYNC]).operator_and
        JSEvalOptions.FLAG_COMPILE_ONLY).value ≠ 0 :=
  ⟨(eval_options_bit_layout.2.1 JSEvalOptions.TYPE_MODULE (by decide)
      [JSEvalOptions.FLAG_STRICT, JSEvalOptions.FLAG_ASYNC] (by decide)).1,
    ((eval_options_bit_layout.2.1 JSEvalOptions.TYPE_MODULE (by decide)
      [JSEvalOptions.FLAG_STRICT, JSEvalOptions.FLAG_ASYNC] (by decide)).2
      JSEvalOptions.FLAG_STRICT (by decide)).mpr (by decide),
    fun h => absurd (((eval_options_bit_layout.2.1 JSEvalOptions.TYPE_MODULE (by decide)
      [JSEvalOptions.FLAG_STRICT, JSEvalOptions.FLAG_ASYNC] (by decide)).2
      JSEvalOptions.FLAG_COMPILE_ONLY (by decide)).mp h) (by decide)⟩

/-! ## `js::Value`: invalid handles -/

/-- C28. A default-constructed handle and a moved-from handle have no context, and
for every handle without a context, whatever its value and whatever the engine
functions are: `is_valid`, `is_function`, `is_error`, `is_array` and
`operator bool` are false; `to_string` returns the empty string, `to_int32`
returns `0`, `to_bool` returns false; access by name, access by index, `call`
and `call_with_this` return the invalid handle. None of them throws, and each
leaves the engine state as it was, so none has called into the engine. -/
theorem invalid_value_operations (self : Value) (h : self._ctx = 0) (c : JSContext) :
    Value.new._ctx = 0
    ∧ (∀ o : Value, (Value.move_construct o).2._ctx = 0)
    ∧ self.is_valid = false
    ∧ (∀ is_function, self.is_function is_function c = false)
    ∧ self.is_error c = false
    ∧ self.is_array c = false
    ∧ self.operator_bool = false
    ∧ (∀ to_cstring, self.to_string to_cstring c = (.ok (.string ""), c))
    ∧ (∀ to_int32, self.to_int32 to_int32 c = (.ok (.int 0), c))
    ∧ (∀ to_bool, self.to_bool to_bool c = (false, c))
    ∧ (∀ lookup name, Value.subscript_name lookup self name c = (Value.new, c))
    ∧ (∀ lookup index, Value.subscript_index lookup self index c = (Value.new, c))
    ∧ (∀ js_call args, Value.call js_call self args c = (Value.new, c))
    ∧ (∀ js_call this_val args, Value.call_with_this js_call self this_val args c
        = (Value.new, c))
    ∧ Value.new.is_valid = false := by
  refine ⟨rfl, fun _ => rfl, ?_, ?_, ?_, ?_, ?_, ?_, ?_, ?_, ?_, ?_, ?_, ?_, rfl⟩
  · simp [Value.is_valid, h]
  · intro f
    simp [Value.is_function, h]
  · simp [Value.is_error, h]
  · simp [Value.is_array, h]
  · simp [Value.operator_bool, Value.is_valid, h]
  · intro f
    simp [Value.to_string, h]
  · intro f
    simp [Value.to_int32, h]
  · intro f
    simp [Value.to_bool, h]
  · intro f name
    simp [Value.subscript_name, h]
  · intro f index
    simp [Value.subscript_index, Value.is_array, h]
  · intro f args
    simp [Value.call, h]
  · intro f this_val args
    simp [Value.call_with_this, h]

/-- C28 at the moved-from handle of a handle of the object `1`, with the sample
engine functions: the string conversion gives the empty string and a call
gives the invalid handle, in the unchanged `sample_world`. -/
theorem invalid_value_operations_witness :
    (Value.move_construct { _ctx := 1, _val := .object 1 }).2._ctx = 0
    ∧ Value.to_string (JS_ToCString sample_ToString)
        (Value.move_construct { _ctx := 1, _val := .object 1 }).2 sample_world.ctx
        = (.ok (.string ""), sample_world.ctx)
    ∧ Value.call sample_Call (Value.move_construct { _ctx := 1, _val := .object 1 }).2
        [{ _ctx := 1, _val := .object 1 }] sample_world.ctx = (Value.new, sample_world.ctx) :=
  ⟨rfl,
    (invalid_value_operations (Value.move_construct { _ctx := 1, _val := .object 1 }).2 rfl
      sample_world.ctx).2.2.2.2.2.2.2.1 (JS_ToCString sample_ToString),
    (invalid_value_operations (Value.move_construct { _ctx := 1, _val := .object 1 }).2 rfl
      sample_world.ctx).2.2.2.2.2.2.2.2.2.2.2.2.1 sample_Call [{ _ctx := 1, _val := .object 1 }]⟩

/-! ## Property adapters: a setter call followed by a getter call -/

theorem lookup_store_same (l : List (Ptr × Instance)) (p : Ptr) (inst new_inst : Instance)
    (h : l.lookup p = some inst) :
    (l.map (fun e => if e.1 = p then (p, new_inst) else e)).lookup p = some new_inst := by
  induction l with
  | nil => simp at h
  | cons e es ih =>
    obtain ⟨k, v⟩ := e
    rw [List.map_cons]
    by_cases hk : k = p
    · subst hk
      show List.lookup k ((if k = k then (k, new_inst) else (k, v)) :: _) = _
      rw [if_pos rfl, List.lookup_cons]
      simp
    · have hb : (p == k) = false := by simpa using fun e => hk e.symm
      show List.lookup p ((if k = p then (p, new_inst) else (k, v)) :: _) = _
      rw [if_neg hk, List.lookup_cons, hb]
      rw [List.lookup_cons, hb] at h
      exact ih h

theorem lookup_store_other (l : List (Ptr × Instance)) (p q : Ptr) (new_inst : Instance)
    (hq : q ≠ p) :
    (l.map (fun e => if e.1 = p then (p, new_inst) else e)).lookup q = l.lookup q := by
  induction l with
  | nil => rfl
  | cons e es ih =>
    obtain ⟨k, v⟩ := e
    rw [List.map_cons]
    by_cases hk : k = p
    · subst hk
      have hb : (q == k) = false := by simpa using hq
      show List.lookup q ((if k = k then (k, new_inst) else (k, v)) :: _) = _
      rw [if_pos rfl, List.lookup_cons, List.lookup_cons, hb]
      exact ih
    · show List.lookup q ((if k = p then (p, new_inst) else (k, v)) :: _) = _
      rw [if_neg hk, List.lookup_cons, List.lookup_cons, ih]

/-- C30. A bound data member at position `Member` with converter `tc`, a receiver
whose payload is a live cell holding the live instance `inst` at `obj`, and an
argument that `from_js` converts to `v`, leaving the engine state `c` in which
the receiver still carries its payload. The setter returns `undefined`; the
instance at `obj` then has `v` at `Member` and every other member as before;
every other instance, the cells and the invocation history are as before. A
getter call that follows returns `to_js` of `v`, that is
`to_js(from_js(x))`. -/
theorem setter_then_getter (tc : TypeConverter) (Member : Nat) (this_val : JSValue)
    (argv : List JSValue) (w : World) (obj : Ptr) (inst : Instance) (v : CppValue)
    (c : JSContext)
    (hp : MemberPropertyWrapper.get_pptr w.ctx this_val ≠ 0)
    (hcell : w.heap.cells.lookup (MemberPropertyWrapper.get_pptr w.ctx this_val) = some obj)
    (hobj : obj ≠ 0)
    (hinst : w.heap.instances.lookup obj = some inst)
    (hmem : Member < inst.fields.length)
    (hconv : tc.from_js w.ctx (argv_at argv 0) = (.ok v, c))
    (hkeep : MemberPropertyWrapper.get_pptr c this_val
      = MemberPropertyWrapper.get_pptr w.ctx this_val) :
    (MemberPropertyWrapper.setter tc Member this_val argv w).1 = .returned .undefined
    ∧ (MemberPropertyWrapper.setter tc Member this_val argv w).2.heap.instances.lookup obj
        = some { inst with fields := inst.fields.set Member v }
    ∧ (inst.fields.set Member v)[Member]? = some v
    ∧ (∀ k, k ≠ Member → (inst.fields.set Member v)[k]? = inst.fields[k]?)
    ∧ (inst.fields.set Member v).length = inst.fields.length
    ∧ (∀ q, q ≠ obj →
        (MemberPropertyWrapper.setter tc Member this_val argv w).2.heap.instances.lookup q
          = w.heap.instances.lookup q)
    ∧ (MemberPropertyWrapper.setter tc Member this_val argv w).2.heap.cells = w.heap.cells
    ∧ (MemberPropertyWrapper.setter tc Member this_val argv w).2.calls = w.calls
    ∧ (MemberPropertyWrapper.getter tc Member this_val
        (MemberPropertyWrapper.setter tc Member this_val argv w).2).1
        = .returned (tc.to_js c v).1 := by
  have hle : ¬ inst.fields.length ≤ Member := by omega
  have hset : MemberPropertyWrapper.setter tc Member this_val argv w
      = (.returned .undefined,
          { w with
            ctx := c,
            heap := w.heap.store obj { inst with fields := inst.fields.set Member v },
            conversions := w.conversions ++ [(0, argv_at argv 0)] }) := by
    simp only [MemberPropertyWrapper.setter, hp, if_false, hcell, hobj, hinst, hle, hconv]
  have hlook : (w.heap.store obj { inst with fields := inst.fields.set Member v }).instances.lookup
      obj = some { inst with fields := inst.fields.set Member v } :=
    lookup_store_same _ _ _ _ hinst
  rw [hset]
  refine ⟨rfl, hlook, ?_, ?_, ?_, ?_, rfl, rfl, ?_⟩
  · simp [List.getElem?_set, hmem]
  · intro k hk
    simp [List.getElem?_set, Ne.symm hk]
  · simp
  · intro q hq
    exact lookup_store_other _ _ _ _ hq
  · have hp2 : MemberPropertyWrapper.get_pptr c this_val ≠ 0 := by rw [hkeep]; exact hp
    have hcell2 : (w.heap.store obj { inst with fields := inst.fields.set Member v }).cells.lookup
        (MemberPropertyWrapper.get_pptr c this_val) = some obj := by
      rw [hkeep]
      exact hcell
    have hfield : (inst.fields.set Member v)[Member]? = some v := by
      simp [List.getElem?_set, hmem]
    simp only [MemberPropertyWrapper.getter, hp2, if_false, hcell2, hobj, hlook, hfield]

/-- C30 on `live_world`: `obj.intMember = 7` on the instance of `TestClass` stores
`7`, keeps `string_member`, and the getter that follows returns `7`. -/
theorem setter_then_getter_witness :
    (MemberPropertyWrapper.setter int32_tc 0 (.object 0) [.int 7] live_world).1
        = .returned .undefined
    ∧ (MemberPropertyWrapper.setter int32_tc 0 (.object 0) [.int 7]
        live_world).2.heap.instances.lookup 1
        = some { TestClass_default with fields := TestClass_default.fields.set 0 (.int 7) }
    ∧ (TestClass_default.fields.set 0 (.int 7))[1]? = some (.string "hello from c++")
    ∧ (MemberPropertyWrapper.getter int32_tc 0 (.object 0)
        (MemberPropertyWrapper.setter int32_tc 0 (.object 0) [.int 7] live_world).2).1
        = .returned (.int 7) :=
  ⟨(setter_then_getter int32_tc 0 (.object 0) [.int 7] live_world 1 TestClass_default (.int 7)
      live_world.ctx (by decide) rfl (by decide) rfl (by decide) rfl rfl).1,
    (setter_then_getter int32_tc 0 (.object 0) [.int 7] live_world 1 TestClass_default (.int 7)
      live_world.ctx (by decide) rfl (by decide) rfl (by decide) rfl rfl).2.1,
    rfl,
    (setter_then_getter int32_tc 0 (.object 0) [.int 7] live_world 1 TestClass_default (.int 7)
      live_world.ctx (by decide) rfl (by decide) rfl (by decide) rfl rfl).2.2.2.2.2.2.2.2⟩

/-! ## Destruction of a `Context` -/

theorem release_exports_events (ctx : Ptr) (es : List ModuleExportEntry) (c : JSContext) :
    (Module.release_exports ctx es c).1
      = (es.filter (fun e => !JS_IsUndefined e.value)).map
          (fun e => LifecycleEvent.free_value ctx e.value) := by
  induction es generalizing c with
  | nil => rfl
  | cons e es ih =>
    by_cases h : JS_IsUndefined e.value = true
    · simp [Module.release_exports, h, ih]
    · simp [Module.release_exports, h, ih]

theorem modules_clear_events (ms : List Module) (c : JSContext) :
    (modules_clear ms c).1 = released_exports ms := by
  induction ms generalizing c with
  | nil => rfl
  | cons m ms ih =>
    simp only [modules_clear, released_exports, List.flatMap_cons, ih]
    congr 1
    by_cases h : m._ctx = 0
    · simp [Module.destroy, h]
    · simp [Module.destroy, h, release_exports_events]

theorem released_exports_are_values (ms : List Module) :
    ∀ e ∈ released_exports ms, ∃ q v, e = LifecycleEvent.free_value q v := by
  intro e he
  simp only [released_exports, List.mem_flatMap] at he
  obtain ⟨m, _, hm⟩ := he
  by_cases h : m._ctx = 0
  · simp [h] at hm
  · simp only [h, if_false, List.mem_map] at hm
    obtain ⟨x, _, hx⟩ := hm
    exact ⟨_, _, hx.symm⟩

theorem free_values_append (xs ys : List JSValue) (c : JSContext) :
    free_values (xs ++ ys) c = free_values ys (free_values xs c) := by
  induction xs generalizing c with
  | nil => rfl
  | cons x xs ih => simp [free_values, ih]

theorem release_exports_state (ctx : Ptr) (es : List ModuleExportEntry) (c : JSContext) :
    (Module.release_exports ctx es c).2
      = free_values ((es.filter (fun e => !JS_IsUndefined e.value)).map (fun e => e.value)) c := by
  induction es generalizing c with
  | nil => rfl
  | cons e es ih =>
    by_cases h : JS_IsUndefined e.value = true
    · simp [Module.release_exports, h, ih]
    · simp [Module.release_exports, h, ih, free_values]

theorem modules_clear_state (ms : List Module) (c : JSContext) :
    (modules_clear ms c).2 = free_values (released_values ms) c := by
  induction ms generalizing c with
  | nil => rfl
  | cons m ms ih =>
    simp only [modules_clear, released_values, List.flatMap_cons, ih, free_values_append]
    congr 1
    by_cases h : m._ctx = 0
    · simp [Module.destroy, h, free_values]
    · simp [Module.destroy, h, release_exports_state]

/-- C29. Destroying a `Context`, and move-assigning into it, make these calls, in
this order: for every module it owns, first to last, `JS_FreeValue` once for
each export entry that holds a value (`released_exports`); then
`JS_FreeContext(_context)`, once, when the handle is not null, and never
otherwise. So every release of an export value comes before the release of the
engine context, and the engine state afterwards is the one these releases
leave. The moved-from `Context` (no handle, no modules) makes no call when
destroyed; move assignment hands the handle and the modules over and leaves
the source in that state; self-assignment does nothing. -/
theorem context_destruction_order (self : Context) (c : JSContext) :
    (Context.destroy self c).1
        = released_exports self._modules
          ++ (if self._context ≠ 0 then [LifecycleEvent.free_context self._context] else [])
    ∧ (∀ (i j : Nat) (p q : Ptr) (v : JSValue),
        (Context.destroy self c).1[i]? = some (LifecycleEvent.free_context p) →
        (Context.destroy self c).1[j]? = some (LifecycleEvent.free_value q v) → j < i)
    ∧ (∀ p, (Context.destroy self c).1.count (LifecycleEvent.free_context p)
        = if p = self._context ∧ self._context ≠ 0 then 1 else 0)
    ∧ (∀ callback other, (Context.move_construct callback other).2._context = 0
        ∧ (Context.move_construct callback other).1._context = other._context
        ∧ (Context.move_construct callback other).1._modules = other._modules
        ∧ (Context.destroy (Context.move_construct callback other).2 c).1 = [])
    ∧ (∀ (cs : List Context) (this : Nat), Context.move_assign cs this this c = (cs, [], c))
    ∧ (∀ (cs : List Context) (this other : Nat) (t o : Context), this ≠ other →
        cs[this]? = some t → cs[other]? = some o →
        (Context.move_assign cs this other c).2.1 = (Context.destroy t c).1
        ∧ (Context.move_assign cs this other c).2.2 = (Context.destroy t c).2
        ∧ (∃ t1, (Context.move_assign cs this other c).1[this]? = some t1
            ∧ t1._context = o._context ∧ t1._modules = o._modules)
        ∧ (∃ o1, (Context.move_assign cs this other c).1[other]? = some o1
            ∧ o1._context = 0 ∧ o1._modules = [] ∧ (Context.destroy o1 c).1 = []))
    ∧ (Context.destroy self c).2 = free_values (released_values self._modules) c := by
  have hev : (Context.destroy self c).1
      = released_exports self._modules
        ++ (if self._context ≠ 0 then [LifecycleEvent.free_context self._context] else []) := by
    simp only [Context.destroy, modules_clear_events]
  refine ⟨hev, ?_, ?_, ?_, ?_, ?_, modules_clear_state self._modules c⟩
  · intro i j p q v hi hj
    rw [hev] at hi hj
    by_contra hlt
    have hij : i ≤ j := Nat.le_of_not_lt hlt
    by_cases hi2 : i < (released_exports self._modules).length
    · rw [List.getElem?_append_left hi2] at hi
      obtain ⟨q1, v1, h1⟩ := released_exports_are_values self._modules _
        (List.getElem?_mem hi)
      cases h1
    · have hj2 : (released_exports self._modules).length ≤ j := by omega
      rw [List.getElem?_append_right hj2] at hj
      by_cases hc : self._context = 0
      · simp [hc] at hj
      · simp only [ne_eq, hc, not_false_eq_true, if_true] at hj
        have := List.getElem?_mem hj
        simp at this
  · intro p
    rw [hev, List.count_append]
    have h0 : (released_exports self._modules).count (LifecycleEvent.free_context p) = 0 := by
      rw [List.count_eq_zero]
      intro hmem
      obtain ⟨q1, v1, h1⟩ := released_exports_are_values self._modules _ hmem
      cases h1
    rw [h0]
    by_cases hc : self._context = 0
    · simp [hc]
    · by_cases hp : p = self._context
      · subst hp
        simp [hc]
      · have hp2 : ¬ self._context = p := fun e => hp e.symm
        simp [hc, hp, hp2]
  · intro callback other
    exact ⟨rfl, rfl, rfl, rfl⟩
  · intro cs this
    simp [Context.move_assign]
  · intro cs this other t o hne ht ho
    have hlen : this < cs.length := by
      rcases Nat.lt_or_ge this cs.length with h | h
      · exact h
      · rw [List.getElem?_eq_none h] at ht; cases ht
    have hlen2 : other < cs.length := by
      rcases Nat.lt_or_ge other cs.length with h | h
      · exact h
      · rw [List.getElem?_eq_none h] at ho; cases ho
    simp only [Context.move_assign, if_neg hne, ht, ho]
    refine ⟨rfl, rfl, ⟨{ t with _context := o._context, _modules := o._modules }, ?_, rfl, rfl⟩,
      ⟨{ o with _context := 0, _modules := [] }, ?_, rfl, rfl, rfl⟩⟩
    · rw [List.getElem?_set_ne (Ne.symm hne), List.getElem?_set_self hlen]
    · rw [List.getElem?_set_self (by simpa using hlen2)]

/-- C29 on `two_module_context`: the three export values are released, module by
module, the entry without a value is skipped, and the engine context is freed
last; move-assigning the default-constructed `Context` into it makes the same
calls. -/
theorem context_destruction_order_witness :
    (Context.destroy two_module_context sample_world.ctx).1
        = [LifecycleEvent.free_value 1 (.object 0), LifecycleEvent.free_value 1 (.object 1),
            LifecycleEvent.free_value 1 (.object 1), LifecycleEvent.free_context 1]
    ∧ (Context.move_assign
          [two_module_context, { _context := 0, _modules := [], _on_exception := none }] 0 1
          sample_world.ctx).2.1
        = (Context.destroy two_module_context sample_world.ctx).1 :=
  ⟨(context_destruction_order two_module_context sample_world.ctx).1,
    ((context_destruction_order two_module_context sample_world.ctx).2.2.2.2.2.1
      [two_module_context, { _context := 0, _modules := [], _on_exception := none }] 0 1
      two_module_context { _context := 0, _modules := [], _on_exception := none }
      (by decide) rfl rfl).1⟩

/-! ## Class identifiers -/

/-- A call made when the identifier of the type exists returns it and changes
nothing. -/
theorem get_or_create_class_id_cached (JS_GetRuntime : Ptr → Nat) (b : ClassBuilder)
    (w : ClassWorld) (h : w.class_id b.T ≠ 0) :
    ClassBuilder.get_or_create_class_id JS_GetRuntime b w = (w.class_id b.T, w) := by
  simp [ClassBuilder.get_or_create_class_id, h]

/-- No call changes the identifier of a type once it exists. -/
theorem get_or_create_class_id_keeps (JS_GetRuntime : Ptr → Nat) (b : ClassBuilder)
    (w : ClassWorld) (T : Nat) (h : w.class_id T ≠ 0) :
    (ClassBuilder.get_or_create_class_id JS_GetRuntime b w).2.class_id T = w.class_id T := by
  by_cases hb : w.class_id b.T = 0
  · have hne : T ≠ b.T := fun e => h (e ▸ hb)
    simp [ClassBuilder.get_or_create_class_id, hb, Function.update_noteq hne]
  · simp [ClassBuilder.get_or_create_class_id, hb]

theorem class_id_calls_keeps (JS_GetRuntime : Ptr → Nat) (bs : List ClassBuilder)
    (w : ClassWorld) (T : Nat) (h : w.class_id T ≠ 0) :
    (class_id_calls JS_GetRuntime bs w).class_id T = w.class_id T := by
  induction bs generalizing w with
  | nil => rfl
  | cons b bs ih =>
    have hk := get_or_create_class_id_keeps JS_GetRuntime b w T h
    have hne : (ClassBuilder.get_or_create_class_id JS_GetRuntime b w).2.class_id T ≠ 0 := by
      rw [hk]; exact h
    show (class_id_calls JS_GetRuntime bs
      (ClassBuilder.get_or_create_class_id JS_GetRuntime b w).2).class_id T = _
    rw [ih _ hne, hk]

/-- C23. For a native type whose identifier has not been created (the static is
`0`), in a runtime whose next identifier is not `0`: the first call of
`get_or_create_class_id` allocates one identifier, which is not `0`, stores it
in the static of the type, and the class is registered in the runtime
afterwards. After any further calls by any builders of any types, a call by
any builder `b2` of the same type returns that same identifier and leaves the
whole state, statics and runtimes, as it was: nothing is allocated and nothing
is registered. -/
theorem class_id_created_once (JS_GetRuntime : Ptr → Nat) (b : ClassBuilder) (w : ClassWorld)
    (hfirst : w.class_id b.T = 0)
    (halloc : (w.runtimes (JS_GetRuntime b._context)).js_class_id_alloc ≠ 0) :
    (ClassBuilder.get_or_create_class_id JS_GetRuntime b w).1
        = (w.runtimes (JS_GetRuntime b._context)).js_class_id_alloc
    ∧ (ClassBuilder.get_or_create_class_id JS_GetRuntime b w).1 ≠ 0
    ∧ (ClassBuilder.get_or_create_class_id JS_GetRuntime b w).2.class_id b.T
        = (ClassBuilder.get_or_create_class_id JS_GetRuntime b w).1
    ∧ ((ClassBuilder.get_or_create_class_id JS_GetRuntime b w).2.runtimes
          (JS_GetRuntime b._context)).js_class_id_alloc
        = (w.runtimes (JS_GetRuntime b._context)).js_class_id_alloc + 1
    ∧ JS_IsRegisteredClass
        ((ClassBuilder.get_or_create_class_id JS_GetRuntime b w).2.runtimes
          (JS_GetRuntime b._context))
        (ClassBuilder.get_or_create_class_id JS_GetRuntime b w).1 = true
    ∧ (∀ (bs : List ClassBuilder) (b2 : ClassBuilder), b2.T = b.T →
        ClassBuilder.get_or_create_class_id JS_GetRuntime b2
            (class_id_calls JS_GetRuntime bs
              (ClassBuilder.get_or_create_class_id JS_GetRuntime b w).2)
          = ((ClassBuilder.get_or_create_class_id JS_GetRuntime b w).1,
              class_id_calls JS_GetRuntime bs
                (ClassBuilder.get_or_create_class_id JS_GetRuntime b w).2)) := by
  have hid : (ClassBuilder.get_or_create_class_id JS_GetRuntime b w).1
      = (w.runtimes (JS_GetRuntime b._context)).js_class_id_alloc := by
    simp [ClassBuilder.get_or_create_class_id, hfirst, JS_NewClassID]
  have hstatic : (ClassBuilder.get_or_create_class_id JS_GetRuntime b w).2.class_id b.T
      = (ClassBuilder.get_or_create_class_id JS_GetRuntime b w).1 := by
    simp [ClassBuilder.get_or_create_class_id, hfirst]
  refine ⟨hid, by rw [hid]; exact halloc, hstatic, ?_, ?_, ?_⟩
  · simp only [ClassBuilder.get_or_create_class_id, hfirst, if_true, JS_NewClassID,
      Function.update_same]
    split
    · simp only [JS_NewClass]
      split <;> rfl
    · rfl
  · simp only [ClassBuilder.get_or_create_class_id, hfirst, if_true, JS_NewClassID,
      Function.update_same]
    by_cases hreg : JS_IsRegisteredClass
        { (w.runtimes (JS_GetRuntime b._context)) with
          js_class_id_alloc := (w.runtimes (JS_GetRuntime b._context)).js_class_id_alloc + 1 }
        (w.runtimes (JS_GetRuntime b._context)).js_class_id_alloc = true
    · simp only [hreg, Bool.not_true, Bool.false_eq_true, if_false]
    · simp only [hreg, Bool.not_eq_true, Bool.not_false, if_true, JS_NewClass, if_false]
      simp [JS_IsRegisteredClass]
  · intro bs b2 hT
    have hne : (ClassBuilder.get_or_create_class_id JS_GetRuntime b w).2.class_id b.T ≠ 0 := by
      rw [hstatic, hid]; exact halloc
    have hkeep := class_id_calls_keeps JS_GetRuntime bs _ b.T hne
    have hne2 : (class_id_calls JS_GetRuntime bs
        (ClassBuilder.get_or_create_class_id JS_GetRuntime b w).2).class_id b2.T ≠ 0 := by
      rw [hT, hkeep]; exact hne
    rw [get_or_create_class_id_cached JS_GetRuntime b2 _ hne2, hT, hkeep, hstatic]

/-- C23 on `fresh_class_world`: the first call for `TestClass` returns `56`; after
calls by a builder of another type and by the same builder, a second builder of
`TestClass`, with another name and module, still gets `56`. -/
theorem class_id_created_once_witness :
    (ClassBuilder.get_or_create_class_id (fun _ => 0) TestClass_builder fresh_class_world).1 = 56
    ∧ (ClassBuilder.get_or_create_class_id (fun _ => 0)
        { T := 1, _module := 3, _name := "Other", _context := 1, _proto := .undefined }
        (class_id_calls (fun _ => 0)
          [{ T := 2, _module := 0, _name := "U", _context := 1, _proto := .undefined },
            TestClass_builder]
          (ClassBuilder.get_or_create_class_id (fun _ => 0) TestClass_builder
            fresh_class_world).2)).1 = 56 :=
  ⟨(class_id_created_once (fun _ => 0) TestClass_builder fresh_class_world rfl
      (by decide)).1,
    congrArg Prod.fst
      ((class_id_created_once (fun _ => 0) TestClass_builder fresh_class_world rfl
        (by decide)).2.2.2.2.2
        [{ T := 2, _module := 0, _name := "U", _context := 1, _proto := .undefined },
          TestClass_builder]
        { T := 1, _module := 3, _name := "Other", _context := 1, _proto := .undefined } rfl)⟩

/-! ## Modules: the deferred resolution callback -/

/-- C22. The code departs from the specification here. In `two_module_world` the
module `A` (definition `1`) has declared `f` and the module `B` (definition `2`)
has declared `g`. When the engine invokes the callback for the definition of
`A`, the callback returns `0` but publishes `g` into the definition of `B` and
nothing into the definition of `A`: it works on `current_module`, the module
constructed last, whatever definition it is invoked for. Invoked for the
definition of `B`, it publishes exactly the export list of `B`. -/
theorem module_init_callback_publishes_last_module :
    two_module_world.declared = [(1, "f"), (2, "g")]
    ∧ two_module_world.modules.map (fun m => (m._mod, m._exports))
        = [(1, [{ name := "f", value := .object 0 }]), (2, [{ name := "g", value := .object 1 }])]
    ∧ two_module_world.current_module = some 1
    ∧ (Module.module_init_callback 1 1 two_module_world).map (fun r => r.1) = some 0
    ∧ (Module.module_init_callback 1 1 two_module_world).map (fun r => r.2.published)
        = some [(2, "g", .object 1)]
    ∧ (Module.module_init_callback 1 1 two_module_world).map
        (fun r => r.2.published.filter (fun e => e.1 == 1)) = some []
    ∧ (Module.module_init_callback 1 2 two_module_world).map (fun r => r.2.published)
        = some [(2, "g", .object 1)] := by
  refine ⟨by decide, by decide, by decide, by decide, by decide, by decide, by decide⟩

/-! ## Finalization -/

theorem lookup_filter_same {α : Type} (l : List (Ptr × α)) (p : Ptr) :
    (l.filter (fun e => e.1 != p)).lookup p = none := by
  induction l with
  | nil => rfl
  | cons e es ih =>
    obtain ⟨k, v⟩ := e
    by_cases hk : k = p
    · subst hk
      simp [List.filter_cons, ih]
    · have hb : (p == k) = false := by simpa using fun e => hk e.symm
      simp [List.filter_cons, hk, List.lookup_cons, hb, ih]

theorem lookup_filter_other {α : Type} (l : List (Ptr × α)) (p q : Ptr) (hq : q ≠ p) :
    (l.filter (fun e => e.1 != p)).lookup q = l.lookup q := by
  induction l with
  | nil => rfl
  | cons e es ih =>
    obtain ⟨k, v⟩ := e
    by_cases hk : k = p
    · subst hk
      have hb : (q == k) = false := by simpa using hq
      simp [List.filter_cons, List.lookup_cons, hb, ih]
    · simp [List.filter_cons, hk, List.lookup_cons, ih]

/-- The payload read back from an object after `JS_SetOpaque`. -/
theorem payload_after_set_payload (c : JSContext) (n : Nat) (p : Ptr) (o : JSObject)
    (h : c.objects[n]? = some o) :
    JS_GetOpaque (JS_SetOpaque c (.object n) p) (.object n)
      (JS_GetClassID (JS_SetOpaque c (.object n) p) (.object n)) = p := by
  simp [JS_GetOpaque, JS_GetClassID, JS_SetOpaque, getElem?_modify_object, h]

/-- What the finalizer does on an object whose payload is a live cell that holds
a live instance. -/
theorem finalizer_on_cell (obj : JSValue) (w : World) (p : Ptr) (inst : Instance)
    (hcell : JS_GetOpaque w.ctx obj (JS_GetClassID w.ctx obj) ≠ 0)
    (hp : w.heap.cells.lookup (JS_GetOpaque w.ctx obj (JS_GetClassID w.ctx obj)) = some p)
    (hp0 : p ≠ 0) (hinst : w.heap.instances.lookup p = some inst) :
    (ClassBuilder.finalizer obj w).defined = true
    ∧ (ClassBuilder.finalizer obj w).destroyed = [p]
    ∧ (ClassBuilder.finalizer obj w).freed_cells
        = [JS_GetOpaque w.ctx obj (JS_GetClassID w.ctx obj)]
    ∧ (ClassBuilder.finalizer obj w).world.heap.instances.lookup p = none
    ∧ (ClassBuilder.finalizer obj w).world.heap.cells.lookup
        (JS_GetOpaque w.ctx obj (JS_GetClassID w.ctx obj)) = none
    ∧ (∀ q, q ≠ p →
        (ClassBuilder.finalizer obj w).world.heap.instances.lookup q
          = w.heap.instances.lookup q)
    ∧ (∀ q, q ≠ JS_GetOpaque w.ctx obj (JS_GetClassID w.ctx obj) →
        (ClassBuilder.finalizer obj w).world.heap.cells.lookup q = w.heap.cells.lookup q)
    ∧ (ClassBuilder.finalizer obj w).world.ctx = w.ctx := by
  have hfin : ClassBuilder.finalizer obj w
      = { defined := true,
          world := { w with
            heap := (w.heap.delete_instance p).delete_cell
              (JS_GetOpaque w.ctx obj (JS_GetClassID w.ctx obj)) },
          destroyed := [p],
          freed_cells := [JS_GetOpaque w.ctx obj (JS_GetClassID w.ctx obj)] } := by
    simp only [ClassBuilder.finalizer, hcell, if_false, hp, hp0, hinst]
  rw [hfin]
  refine ⟨rfl, rfl, rfl, ?_, ?_, ?_, ?_, rfl⟩
  · exact lookup_filter_same _ _
  · exact lookup_filter_same _ _
  · intro q hq
    exact lookup_filter_other _ _ _ hq
  · intro q hq
    exact lookup_filter_other _ _ _ hq

/-- C27. The finalizer on an object whose payload is a live indirection cell
holding the live instance `p`: the destructor of `p` runs once, then the cell is
freed; afterwards neither is live, and every other instance and cell is as
before. On an object without payload it destroys nothing and changes nothing.
And after a construction that succeeds (prototype found, memory left, the native
constructor returned the instance `new_instance`, the allocated engine object
still in the object table), the object returned carries one new cell holding
`new_instance`, and the finalizer run on it destroys exactly `new_instance`,
once, and that cell: the instance is no longer live. -/
theorem finalizer_destroys_once (obj : JSValue) (w : World) :
    (∀ (p : Ptr) (inst : Instance),
      JS_GetOpaque w.ctx obj (JS_GetClassID w.ctx obj) ≠ 0 →
      w.heap.cells.lookup (JS_GetOpaque w.ctx obj (JS_GetClassID w.ctx obj)) = some p →
      p ≠ 0 → w.heap.instances.lookup p = some inst →
      (ClassBuilder.finalizer obj w).defined = true
      ∧ (ClassBuilder.finalizer obj w).destroyed = [p]
      ∧ (ClassBuilder.finalizer obj w).freed_cells
          = [JS_GetOpaque w.ctx obj (JS_GetClassID w.ctx obj)]
      ∧ (ClassBuilder.finalizer obj w).world.heap.instances.lookup p = none
      ∧ (ClassBuilder.finalizer obj w).world.heap.cells.lookup
          (JS_GetOpaque w.ctx obj (JS_GetClassID w.ctx obj)) = none
      ∧ (∀ q, q ≠ p →
          (ClassBuilder.finalizer obj w).world.heap.instances.lookup q
            = w.heap.instances.lookup q)
      ∧ (∀ q, q ≠ JS_GetOpaque w.ctx obj (JS_GetClassID w.ctx obj) →
          (ClassBuilder.finalizer obj w).world.heap.cells.lookup q = w.heap.cells.lookup q))
    ∧ (JS_GetOpaque w.ctx obj (JS_GetClassID w.ctx obj) = 0 →
      (ClassBuilder.finalizer obj w).defined = true
      ∧ (ClassBuilder.finalizer obj w).destroyed = []
      ∧ (ClassBuilder.finalizer obj w).freed_cells = []
      ∧ (ClassBuilder.finalizer obj w).world.heap.instances = w.heap.instances
      ∧ (ClassBuilder.finalizer obj w).world.heap.cells = w.heap.cells)
    ∧ (∀ (JS_GetProperty : JSContext → JSValue → String → JSValue × JSContext)
        (class_id : JSClassID) (K : Constructor) (argv : List JSValue) (proto : JSValue)
        (c1 : JSContext) (new_instance : Ptr) (w1 : World) (inst : Instance) (o : JSObject),
      JS_GetProperty w.ctx obj "prototype" = (proto, c1) →
      JS_IsException proto = false →
      c1.out_of_memory = false →
      ConstructorWrapper.create K argv
          { w with ctx := JS_FreeValue (JS_NewObjectProtoClass c1 proto class_id).2 proto }
        = (.ok new_instance, w1) →
      new_instance ≠ 0 →
      w1.heap.instances.lookup new_instance = some inst →
      w1.ctx.objects[c1.objects.length]? = some o →
      (ClassBuilder.constructor_wrapper JS_GetProperty class_id K obj argv w).1
          = .object c1.objects.length
      ∧ (ClassBuilder.constructor_wrapper JS_GetProperty class_id K obj argv w).2.heap.cells
          = (w1.heap.next + 1, new_instance) :: w1.heap.cells
      ∧ (ClassBuilder.finalizer
            (ClassBuilder.constructor_wrapper JS_GetProperty class_id K obj argv w).1
            (ClassBuilder.constructor_wrapper JS_GetProperty class_id K obj argv w).2).defined
          = true
      ∧ (ClassBuilder.finalizer
            (ClassBuilder.constructor_wrapper JS_GetProperty class_id K obj argv w).1
            (ClassBuilder.constructor_wrapper JS_GetProperty class_id K obj argv w).2).destroyed
          = [new_instance]
      ∧ (ClassBuilder.finalizer
            (ClassBuilder.constructor_wrapper JS_GetProperty class_id K obj argv w).1
            (ClassBuilder.constructor_wrapper JS_GetProperty class_id K obj argv w).2).freed_cells
          = [w1.heap.next + 1]
      ∧ (ClassBuilder.finalizer
            (ClassBuilder.constructor_wrapper JS_GetProperty class_id K obj argv w).1
            (ClassBuilder.constructor_wrapper JS_GetProperty class_id K obj argv
              w).2).world.heap.instances.lookup new_instance = none) := by
  refine ⟨?_, ?_, ?_⟩
  · intro p inst hcell hp hp0 hinst
    obtain ⟨h1, h2, h3, h4, h5, h6, h7, _⟩ := finalizer_on_cell obj w p inst hcell hp hp0 hinst
    exact ⟨h1, h2, h3, h4, h5, h6, h7⟩
  · intro h0
    simp [ClassBuilder.finalizer, h0]
  · intro JS_GetProperty class_id K argv proto c1 new_instance w1 inst o hget hproto hmem hcreate
      hobj hlive hthere
    have hnew : JS_NewObjectProtoClass c1 proto class_id
        = (.object c1.objects.length,
            { JS_DupValue c1 proto with
              objects := (JS_DupValue c1 proto).objects
                ++ [{ class_id := class_id, ref_count := 1, payload := 0 }] }) := by
      simp [JS_NewObjectProtoClass, hmem]
    rw [hnew] at hcreate
    have hisobj : JS_IsException (.object c1.objects.length) = false := rfl
    have hwrap : ClassBuilder.constructor_wrapper JS_GetProperty class_id K obj argv w
        = (.object c1.objects.length,
            { w1 with
              ctx := JS_SetOpaque w1.ctx (.object c1.objects.length)
                (w1.heap.new_cell new_instance).1,
              heap := (w1.heap.new_cell new_instance).2 }) := by
      simp only [ClassBuilder.constructor_wrapper, hget, hnew, hproto, hisobj,
        Bool.false_eq_true, if_false, hcreate, hobj]
    rw [hwrap]
    have hpay : JS_GetOpaque
        ({ w1 with
          ctx := JS_SetOpaque w1.ctx (.object c1.objects.length)
            (w1.heap.new_cell new_instance).1,
          heap := (w1.heap.new_cell new_instance).2 } : World).ctx (.object c1.objects.length)
        (JS_GetClassID
          ({ w1 with
            ctx := JS_SetOpaque w1.ctx (.object c1.objects.length)
              (w1.heap.new_cell new_instance).1,
            heap := (w1.heap.new_cell new_instance).2 } : World).ctx
          (.object c1.objects.length)) = w1.heap.next + 1 :=
      payload_after_set_payload w1.ctx c1.objects.length (w1.heap.next + 1) o hthere
    have hfin := finalizer_on_cell (.object c1.objects.length)
      { w1 with
        ctx := JS_SetOpaque w1.ctx (.object c1.objects.length) (w1.heap.new_cell new_instance).1,
        heap := (w1.heap.new_cell new_instance).2 } new_instance inst
      (by rw [hpay]; exact Nat.succ_ne_zero _)
      (by
        rw [hpay]
        show List.lookup (w1.heap.next + 1) ((w1.heap.next + 1, new_instance) :: w1.heap.cells)
          = _
        rw [List.lookup_cons]
        simp)
      hobj hlive
    obtain ⟨h1, h2, h3, h4, _, _, _, _⟩ := hfin
    refine ⟨rfl, rfl, h1, h2, ?_, h4⟩
    rw [h3, hpay]

/-- C27 on concrete worlds: the finalizer on the object of `live_world` destroys
the instance `1` and frees the cell `2`; on the prototype object of
`sample_world`, which has no payload, it destroys nothing; and the object that
`new T(5)` constructs in `sample_world` is finalized by destroying the one new
instance. -/
theorem finalizer_destroys_once_witness :
    (ClassBuilder.finalizer (.object 0) live_world).destroyed = [1]
    ∧ (ClassBuilder.finalizer (.object 0) live_world).freed_cells = [2]
    ∧ (ClassBuilder.finalizer (.object 0) live_world).world.heap.instances.lookup 1 = none
    ∧ (ClassBuilder.finalizer (.object 1) sample_world).destroyed = []
    ∧ (ClassBuilder.finalizer
          (ClassBuilder.constructor_wrapper sample_GetProperty 57 int_constructor (.object 0)
            [.int 5] sample_world).1
          (ClassBuilder.constructor_wrapper sample_GetProperty 57 int_constructor (.object 0)
            [.int 5] sample_world).2).destroyed = [1] :=
  ⟨((finalizer_destroys_once (.object 0) live_world).1 1 TestClass_default (by decide) rfl
      (by decide) rfl).2.1,
    ((finalizer_destroys_once (.object 0) live_world).1 1 TestClass_default (by decide) rfl
      (by decide) rfl).2.2.1,
    ((finalizer_destroys_once (.object 0) live_world).1 1 TestClass_default (by decide) rfl
      (by decide) rfl).2.2.2.1,
    ((finalizer_destroys_once (.object 1) sample_world).2.1 rfl).2.1,
    ((finalizer_destroys_once (.object 0) sample_world).2.2 sample_GetProperty 57 int_constructor
      [.int 5] (.object 1) (JS_DupValue sample_world.ctx (.object 1)) 1
      (ConstructorWrapper.create int_constructor [.int 5]
        { sample_world with
          ctx := JS_FreeValue
            (JS_NewObjectProtoClass (JS_DupValue sample_world.ctx (.object 1)) (.object 1) 57).2
            (.object 1) }).2
      { type_id := 2, fields := [.int 5] }
      { class_id := 57, ref_count := 1, payload := 0 }
      rfl rfl rfl rfl (by decide) rfl rfl).2.2.2.1⟩

/-! ## Global constants -/

/-- C25. The code departs from the specification here. For every name and every
`int32_t` value `v`, in `global_ctx` and whatever the engine's other cases are:
`add_constant(name, v)` defines the global property `name` with the value
`to_js(v)` and the flags `JS_PROP_CONFIGURABLE | JS_PROP_WRITABLE`. The writable
bit is set, so the property is not read-only: the assignment `name = 7` that
follows succeeds and the property then holds `7`. -/
theorem add_constant_defines_writable_property
    (define_slow : JSContext → JSValue → String → JSValue → Nat → Int × JSContext)
    (set_slow : JSContext → JSValue → String → JSValue → Int × JSContext)
    (name : String) (v : Int) :
    (Context.add_constant define_slow int32_tc (.object 0) name (.int v) global_ctx).objects
        = [{ class_id := 1, ref_count := 1, payload := 0,
             props := [{ name := name, value := .int v,
                         flags := JS_PROP_CONFIGURABLE ||| JS_PROP_WRITABLE }] }]
    ∧ (JS_PROP_CONFIGURABLE ||| JS_PROP_WRITABLE) &&& JS_PROP_WRITABLE ≠ 0
    ∧ (JS_SetPropertyStr set_slow
          (Context.add_constant define_slow int32_tc (.object 0) name (.int v) global_ctx)
          (.object 0) name (.int 7)).1 = 1
    ∧ (JS_SetPropertyStr set_slow
          (Context.add_constant define_slow int32_tc (.object 0) name (.int v) global_ctx)
          (.object 0) name (.int 7)).2.objects
        = [{ class_id := 1, ref_count := 1, payload := 0,
             props := [{ name := name, value := .int 7,
                         flags := JS_PROP_CONFIGURABLE ||| JS_PROP_WRITABLE }] }] := by
  have hadd : Context.add_constant define_slow int32_tc (.object 0) name (.int v) global_ctx
      = { global_ctx with
          objects := [{ class_id := 1, ref_count := 1, payload := 0,
                        props := [{ name := name, value := .int v,
                                    flags := JS_PROP_CONFIGURABLE ||| JS_PROP_WRITABLE }] }] } := by
    simp [Context.add_constant, JS_GetGlobalObject, int32_tc, TypeConverter_int32, JS_NewInt32,
      JS_DefinePropertyValueStr, JS_DefinePropertyValue, JS_DupValue, JS_FreeValue, global_ctx,
      modify_object]
  rw [hadd]
  refine ⟨rfl, by decide, ?_, ?_⟩
  · simp [JS_SetPropertyStr, JS_PROP_CONFIGURABLE, JS_PROP_WRITABLE]
  · simp [JS_SetPropertyStr, JS_PROP_CONFIGURABLE, JS_PROP_WRITABLE, JS_FreeValue, modify_object]

/-! ## The exception after a failed `eval` -/

/-- C21. The code departs from the specification here. `eval` of a text that does
not parse, on a `Context` with the default exception callback: the engine
leaves its `SyntaxError` (object `0`) pending and `eval` throws `js::Exception`
after one invocation of the callback. The callback has taken the pending
exception with `JS_GetException` and released it: afterwards no exception is
pending, the error object has no reference left, and `get_exception` in the
handler returns a handle of `JS_UNINITIALIZED`, not of the error. On the same
`Context` without a callback, `get_exception` returns the handle of the
error. -/
theorem default_callback_takes_the_exception :
    (failing_Eval empty_ctx "this is invalid javascript code" "<eval>" 8).2.current_exception
        = some (.thrown (.object 0))
    ∧ (Context.eval failing_Eval default_context "this is invalid javascript code" "<eval>" 8
        empty_ctx).result
        = .error (.Exception ("Failed to evaluate JS code (filename: \"" ++ "<eval>" ++ "\")") 1)
    ∧ (Context.eval failing_Eval default_context "this is invalid javascript code" "<eval>" 8
        empty_ctx).callback_calls = 1
    ∧ (Context.eval failing_Eval default_context "this is invalid javascript code" "<eval>" 8
        empty_ctx).ctx.current_exception = none
    ∧ ((Context.eval failing_Eval default_context "this is invalid javascript code" "<eval>" 8
        empty_ctx).ctx.objects.map (fun o => (o.class_id, o.ref_count))) = [(JS_CLASS_ERROR, 0)]
    ∧ (Context.get_exception default_context
        (Context.eval failing_Eval default_context "this is invalid javascript code" "<eval>" 8
          empty_ctx).ctx).1 = { _ctx := 1, _val := .uninitialized }
    ∧ (Context.get_exception { default_context with _on_exception := none }
        (Context.eval failing_Eval { default_context with _on_exception := none }
          "this is invalid javascript code" "<eval>" 8 empty_ctx).ctx).1
        = { _ctx := 1, _val := .object 0 } := by
  refine ⟨rfl, rfl, rfl, rfl, rfl, rfl, rfl⟩

/-! ## Constructor registration -/

theorem props_at_modify (c : JSContext) (f : JSObject → JSObject) (k r : Nat)
    (g : List JSProperty → List JSProperty) (hf : ∀ o, (f o).props = g o.props) :
    props_at { c with objects := modify_object f k c.objects } r
      = if k = r then (props_at c r).map g else props_at c r := by
  simp only [props_at, getElem?_modify_object]
  by_cases h : k = r
  · simp only [h, if_true]
    cases c.objects[r]? with
    | none => rfl
    | some o => simp [hf]
  · simp only [h, if_false]

theorem props_at_dup (c : JSContext) (v : JSValue) (r : Nat) :
    props_at (JS_DupValue c v) r = props_at c r := by
  cases v with
  | object k =>
    have h := props_at_modify c (fun o => { o with ref_count := o.ref_count + 1 }) k r id
      (fun _ => rfl)
    simp only [JS_DupValue]
    rw [h]
    split <;> simp
  | _ => rfl

theorem props_at_free (c : JSContext) (v : JSValue) (r : Nat) :
    props_at (JS_FreeValue c v) r = props_at c r := by
  cases v with
  | object k =>
    have h := props_at_modify c (fun o => { o with ref_count := o.ref_count - 1 }) k r id
      (fun _ => rfl)
    simp only [JS_FreeValue]
    rw [h]
    split <;> simp
  | _ => rfl

theorem out_of_memory_dup (c : JSContext) (v : JSValue) :
    (JS_DupValue c v).out_of_memory = c.out_of_memory := by
  cases v <;> rfl

theorem out_of_memory_free (c : JSContext) (v : JSValue) :
    (JS_FreeValue c v).out_of_memory = c.out_of_memory := by
  cases v <;> rfl

theorem props_at_append (c : JSContext) (x : JSObject) (r : Nat) :
    props_at { c with objects := c.objects ++ [x] } r
      = if r = c.objects.length then some x.props else props_at c r := by
  simp only [props_at]
  by_cases h : r = c.objects.length
  · subst h
    simp
  · simp only [h, if_false]
    rcases Nat.lt_or_gt_of_ne h with hlt | hgt
    · rw [List.getElem?_append_left hlt]
    · rw [List.getElem?_eq_none (by simp; omega), List.getElem?_eq_none (by omega)]

theorem props_at_lt (c : JSContext) (r : Nat) (ps : List JSProperty)
    (h : props_at c r = some ps) : r < c.objects.length := by
  simp only [props_at] at h
  rcases Nat.lt_or_ge r c.objects.length with hlt | hge
  · exact hlt
  · rw [List.getElem?_eq_none hge] at h
    cases h

/-- Defining a property that the object does not have. -/
theorem define_property_new
    (slow : JSContext → JSValue → String → JSValue → Nat → Int × JSContext)
    (c : JSContext) (r : Nat) (prop : String) (val : JSValue) (flags : Nat)
    (ps : List JSProperty) (h : props_at c r = some ps)
    (hnone : ps.find? (fun p => p.name == prop) = none) :
    (JS_DefinePropertyValue slow c (.object r) prop val flags).2.out_of_memory = c.out_of_memory
    ∧ ∀ k, props_at (JS_DefinePropertyValue slow c (.object r) prop val flags).2 k
        = if r = k then some (ps ++ [{ name := prop, value := val, flags := flags }])
          else props_at c k := by
  simp only [props_at] at h
  rcases ho : c.objects[r]? with _ | o
  · rw [ho] at h; cases h
  · rw [ho] at h
    simp only [Option.map_some', Option.some.injEq] at h
    have hfind : o.props.find? (fun p => p.name == prop) = none := by rw [h]; exact hnone
    have hdef : JS_DefinePropertyValue slow c (.object r) prop val flags
        = (1,
            { c with
              objects := modify_object
                (fun o => { o with
                  props := o.props ++ [{ name := prop, value := val, flags := flags }] })
                r c.objects }) := by
      simp only [JS_DefinePropertyValue, ho, hfind]
    rw [hdef]
    refine ⟨rfl, fun k => ?_⟩
    rw [props_at_modify c _ r k
      (fun qs => qs ++ [{ name := prop, value := val, flags := flags }]) (fun _ => rfl)]
    by_cases hk : r = k
    · subst hk
      simp [props_at, ho, h]
    · simp [hk]

/-- Defining again a property that is configurable. -/
theorem define_property_again
    (slow : JSContext → JSValue → String → JSValue → Nat → Int × JSContext)
    (c : JSContext) (r : Nat) (prop : String) (val : JSValue) (flags : Nat)
    (ps : List JSProperty) (old : JSProperty) (h : props_at c r = some ps)
    (hsome : ps.find? (fun p => p.name == prop) = some old)
    (hconf : old.flags &&& JS_PROP_CONFIGURABLE ≠ 0) :
    (JS_DefinePropertyValue slow c (.object r) prop val flags).2.out_of_memory = c.out_of_memory
    ∧ ∀ k, props_at (JS_DefinePropertyValue slow c (.object r) prop val flags).2 k
        = if r = k then
            some (ps.map (fun q =>
              if q.name == prop then { name := prop, value := val, flags := flags } else q))
          else props_at c k := by
  simp only [props_at] at h
  rcases ho : c.objects[r]? with _ | o
  · rw [ho] at h; cases h
  · rw [ho] at h
    simp only [Option.map_some', Option.some.injEq] at h
    have hfind : o.props.find? (fun p => p.name == prop) = some old := by rw [h]; exact hsome
    have hdef : JS_DefinePropertyValue slow c (.object r) prop val flags
        = (1,
            { JS_FreeValue c old.value with
              objects := modify_object
                (fun o => { o with
                  props := o.props.map (fun q =>
                    if q.name == prop then { name := prop, value := val, flags := flags }
                    else q) })
                r (JS_FreeValue c old.value).objects }) := by
      simp only [JS_DefinePropertyValue, ho, hfind, hconf, ne_eq, not_false_eq_true, if_true]
    rw [hdef]
    refine ⟨out_of_memory_free c old.value, fun k => ?_⟩
    rw [props_at_modify (JS_FreeValue c old.value) _ r k
      (fun qs => qs.map (fun q =>
        if q.name == prop then { name := prop, value := val, flags := flags } else q))
      (fun _ => rfl), props_at_free]
    by_cases hk : r = k
    · subst hk
      simp [props_at, ho, h]
    · simp [hk]

/-- One registration of a constructor, on a builder whose prototype is in place:
the builder then holds a prototype object `p`, which is the one it held if it
held one; the module gets one more export entry, named `cn`, whose value is a
new function object `n`; the property `prototype` of `n` is `p`; and the
prototype is in place for the next registration. -/
theorem constructor_spec
    (define_slow : JSContext → JSValue → String → JSValue → Nat → Int × JSContext)
    (JS_GetRuntime : Ptr → Nat) (arity : Nat) (b : ClassBuilder) (ctor_name : String)
    (w : BuilderWorld) (m : Module)
    (hready : proto_ready b w.modules.ctx) (hm : w.modules.modules[b._module]? = some m) :
    ∃ p n,
      (ClassBuilder.constructor define_slow JS_GetRuntime arity b ctor_name w).1._proto
          = .object p
      ∧ (b._proto ≠ .undefined → b._proto = .object p)
      ∧ (ClassBuilder.constructor define_slow JS_GetRuntime arity b ctor_name w).2.modules.modules
          = w.modules.modules.set b._module
              { m with
                _exports := m._exports ++ [{ name := b.cn ctor_name, value := .object n }] }
      ∧ props_at
          (ClassBuilder.constructor define_slow JS_GetRuntime arity b ctor_name w).2.modules.ctx n
          = some [{ name := "length", value := .int arity, flags := JS_PROP_CONFIGURABLE },
              { name := "name", value := .string (b.cn ctor_name), flags := JS_PROP_CONFIGURABLE },
              { name := "prototype", value := .object p,
                flags := JS_PROP_CONFIGURABLE ||| JS_PROP_WRITABLE }]
      ∧ proto_ready (ClassBuilder.constructor define_slow JS_GetRuntime arity b ctor_name w).1
          (ClassBuilder.constructor define_slow JS_GetRuntime arity b ctor_name w).2.modules.ctx
      ∧ n ≠ p
      ∧ (∀ k ps0, k ≠ p → props_at w.modules.ctx k = some ps0 →
          props_at
            (ClassBuilder.constructor define_slow JS_GetRuntime arity b ctor_name
              w).2.modules.ctx k = some ps0) := by
  obtain ⟨hmem, hproto⟩ := hready
  have h1 : ∃ p c1 ps,
      (if JS_IsUndefined b._proto then JS_NewObject w.modules.ctx
        else (b._proto, w.modules.ctx)) = (.object p, c1)
      ∧ c1.out_of_memory = false ∧ props_at c1 p = some ps
      ∧ (∀ q ∈ ps, q.name = "constructor" → q.flags &&& JS_PROP_CONFIGURABLE ≠ 0)
      ∧ (b._proto ≠ .undefined → b._proto = .object p)
      ∧ (∀ k ps0, k ≠ p → props_at w.modules.ctx k = some ps0 → props_at c1 k = some ps0) := by
    rcases hproto with hu | ⟨p, ps, hp, hps, hall⟩
    · refine ⟨w.modules.ctx.objects.length,
        { w.modules.ctx with
          objects := w.modules.ctx.objects
            ++ [{ class_id := JS_CLASS_OBJECT, ref_count := 1, payload := 0 }] },
        [], ?_, hmem, ?_, by simp, fun h => absurd hu h, ?_⟩
      · simp [hu, JS_IsUndefined, JS_NewObject, hmem]
      · rw [props_at_append]
        simp
      · intro k ps0 hk hk0
        rw [props_at_append, if_neg hk, hk0]
    · refine ⟨p, w.modules.ctx, ps, ?_, hmem, hps, hall, fun _ => hp, fun k ps0 _ hk0 => hk0⟩
      simp [hp, JS_IsUndefined]
  obtain ⟨p, c1, ps, hstep, hmem1, hps, hall, hkeep, hframe1⟩ := h1
  have hpn : p < c1.objects.length := props_at_lt c1 p ps hps
  have hpne : ¬ c1.objects.length = p := by omega
  have hpne2 : ¬ p = c1.objects.length := by omega
  rcases hgoc : ClassBuilder.get_or_create_class_id JS_GetRuntime
      { b with _proto := .object p } w.classes with ⟨class_id, classes1⟩
  have hfn : JS_NewCFunction2 c1 (b.cn ctor_name) arity
      = (.object c1.objects.length,
          { c1 with
            objects := c1.objects
              ++ [{ class_id := JS_CLASS_C_FUNCTION, ref_count := 1, payload := 0,
                    props := [{ name := "length", value := .int arity,
                                flags := JS_PROP_CONFIGURABLE },
                              { name := "name", value := .string (b.cn ctor_name),
                                flags := JS_PROP_CONFIGURABLE }] }] }) := by
    simp [JS_NewCFunction2, hmem1]
  -- the state after the function object was created
  obtain ⟨c2, hc2⟩ : ∃ c2 : JSContext, c2 = { c1 with
      objects := c1.objects
        ++ [{ class_id := JS_CLASS_C_FUNCTION, ref_count := 1, payload := 0,
              props := [{ name := "length", value := .int arity,
                          flags := JS_PROP_CONFIGURABLE },
                        { name := "name", value := .string (b.cn ctor_name),
                          flags := JS_PROP_CONFIGURABLE }] }] } := ⟨_, rfl⟩
  rw [← hc2] at hfn
  have hoom2 : c2.out_of_memory = false := by rw [hc2]; exact hmem1
  have hprops2 : ∀ k, props_at c2 k
      = if k = c1.objects.length then
          some [{ name := "length", value := .int arity, flags := JS_PROP_CONFIGURABLE },
            { name := "name", value := .string (b.cn ctor_name), flags := JS_PROP_CONFIGURABLE }]
        else props_at c1 k := by
    intro k
    rw [hc2, props_at_append]
  -- `prototype` is defined on the function object
  have hd1 := define_property_new define_slow (JS_DupValue c2 (.object p)) c1.objects.length
    "prototype" (.object p) (JS_PROP_CONFIGURABLE ||| JS_PROP_WRITABLE)
    [{ name := "length", value := .int arity, flags := JS_PROP_CONFIGURABLE },
      { name := "name", value := .string (b.cn ctor_name), flags := JS_PROP_CONFIGURABLE }]
    (by rw [props_at_dup, hprops2]; simp) (by simp)
  rcases hdef1 : JS_DefinePropertyValue define_slow (JS_DupValue c2 (.object p))
      (.object c1.objects.length) "prototype" (.object p)
      (JS_PROP_CONFIGURABLE ||| JS_PROP_WRITABLE) with ⟨code3, c3⟩
  rw [hdef1] at hd1
  obtain ⟨hoom3, hprops3⟩ := hd1
  simp only at hoom3 hprops3
  rw [out_of_memory_dup, hoom2] at hoom3
  -- `constructor` is defined on the prototype
  have hp3 : props_at (JS_DupValue c3 (.object c1.objects.length)) p = some ps := by
    rw [props_at_dup, hprops3, if_neg hpne, props_at_dup, hprops2, if_neg hpne2, hps]
  have hd2 : ∃ ps2,
      (JS_DefinePropertyValue define_slow (JS_DupValue c3 (.object c1.objects.length))
        (.object p) "constructor" (.object c1.objects.length)
        (JS_PROP_CONFIGURABLE ||| JS_PROP_WRITABLE)).2.out_of_memory = false
      ∧ (∀ k, props_at
          (JS_DefinePropertyValue define_slow (JS_DupValue c3 (.object c1.objects.length))
            (.object p) "constructor" (.object c1.objects.length)
            (JS_PROP_CONFIGURABLE ||| JS_PROP_WRITABLE)).2 k
          = if p = k then some ps2 else props_at c3 k)
      ∧ ∀ q ∈ ps2, q.name = "constructor" → q.flags &&& JS_PROP_CONFIGURABLE ≠ 0 := by
    rcases hfind : ps.find? (fun q => q.name == "constructor") with _ | old
    · obtain ⟨ho, hpr⟩ := define_property_new define_slow
        (JS_DupValue c3 (.object c1.objects.length)) p "constructor"
        (.object c1.objects.length) (JS_PROP_CONFIGURABLE ||| JS_PROP_WRITABLE) ps hp3 hfind
      refine ⟨ps ++ [{ name := "constructor", value := .object c1.objects.length,
                       flags := JS_PROP_CONFIGURABLE ||| JS_PROP_WRITABLE }], ?_, ?_, ?_⟩
      · rw [ho, out_of_memory_dup, hoom3]
      · intro k
        rw [hpr k, props_at_dup]
      · intro q hq hname
        rcases List.mem_append.mp hq with h | h
        · exact hall q h hname
        · simp only [List.mem_singleton] at h
          subst h
          show (JS_PROP_CONFIGURABLE ||| JS_PROP_WRITABLE) &&& JS_PROP_CONFIGURABLE ≠ 0
          decide
    · have hold : old ∈ ps := List.mem_of_find?_eq_some hfind
      have hname : old.name = "constructor" := by
        have := List.find?_some hfind
        simpa using this
      obtain ⟨ho, hpr⟩ := define_property_again define_slow
        (JS_DupValue c3 (.object c1.objects.length)) p "constructor"
        (.object c1.objects.length) (JS_PROP_CONFIGURABLE ||| JS_PROP_WRITABLE) ps old hp3 hfind
        (hall old hold hname)
      refine ⟨ps.map (fun q =>
        if q.name == "constructor" then
          { name := "constructor", value := .object c1.objects.length,
            flags := JS_PROP_CONFIGURABLE ||| JS_PROP_WRITABLE }
        else q), ?_, ?_, ?_⟩
      · rw [ho, out_of_memory_dup, hoom3]
      · intro k
        rw [hpr k, props_at_dup]
      · intro q hq hqname
        simp only [List.mem_map] at hq
        obtain ⟨q0, hq0, hq0eq⟩ := hq
        by_cases hn : (q0.name == "constructor") = true
        · rw [if_pos hn] at hq0eq
          subst hq0eq
          show (JS_PROP_CONFIGURABLE ||| JS_PROP_WRITABLE) &&& JS_PROP_CONFIGURABLE ≠ 0
          decide
        · rw [if_neg hn] at hq0eq
          subst hq0eq
          exact hall q0 hq0 hqname
  obtain ⟨ps2, hoom4, hprops4, hall2⟩ := hd2
  rcases hdef2 : JS_DefinePropertyValue define_slow (JS_DupValue c3 (.object c1.objects.length))
      (.object p) "constructor" (.object c1.objects.length)
      (JS_PROP_CONFIGURABLE ||| JS_PROP_WRITABLE) with ⟨code4, c4⟩
  rw [hdef2] at hoom4 hprops4
  simp only at hoom4 hprops4
  -- the class prototype is set
  have hscp : (JS_SetClassProto w.class_proto (JS_DupValue c4 (.object p)) class_id
        (.object p)).2.out_of_memory = false
      ∧ ∀ k, props_at (JS_SetClassProto w.class_proto (JS_DupValue c4 (.object p)) class_id
        (.object p)).2 k = props_at c4 k := by
    unfold JS_SetClassProto
    cases w.class_proto.lookup class_id with
    | none => exact ⟨by rw [out_of_memory_dup, hoom4], fun k => props_at_dup _ _ _⟩
    | some old =>
      exact ⟨by rw [out_of_memory_free, out_of_memory_dup, hoom4],
        fun k => by rw [props_at_free, props_at_dup]⟩
  rcases hset : JS_SetClassProto w.class_proto (JS_DupValue c4 (.object p)) class_id
      (.object p) with ⟨class_proto1, c5⟩
  rw [hset] at hscp
  obtain ⟨hoom5, hprops5⟩ := hscp
  simp only at hoom5 hprops5
  have hresult : ClassBuilder.constructor define_slow JS_GetRuntime arity b ctor_name w
      = ({ b with _proto := .object p },
          { modules := Module.add_export b._module (b.cn ctor_name) (.object c1.objects.length)
              { w.modules with ctx := c5 },
            classes := classes1,
            holder := Function.update w.holder b.T class_id,
            class_proto := class_proto1 }) := by
    simp only [ClassBuilder.constructor, hstep, hgoc, hfn, hdef1, hdef2, hset]
  rw [hresult]
  have hexp : Module.add_export b._module (b.cn ctor_name) (.object c1.objects.length)
      { w.modules with ctx := c5 }
      = { w.modules with
          ctx := c5,
          declared := w.modules.declared ++ [(m._mod, b.cn ctor_name)],
          modules := w.modules.modules.set b._module
            { m with
              _exports := m._exports
                ++ [{ name := b.cn ctor_name, value := .object c1.objects.length }] } } := by
    simp only [Module.add_export, hm]
  rw [hexp]
  refine ⟨p, c1.objects.length, rfl, hkeep, rfl, ?_, ⟨hoom5, Or.inr ⟨p, ps2, rfl, ?_, hall2⟩⟩,
    hpne, ?_⟩
  · show props_at c5 c1.objects.length = _
    rw [hprops5, hprops4, if_neg hpne2, hprops3, if_pos rfl]
    rfl
  · show props_at c5 p = _
    rw [hprops5, hprops4, if_pos rfl]
  · intro k ps0 hk hk0
    have hk1 := hframe1 k ps0 hk hk0
    have hklt : k < c1.objects.length := props_at_lt c1 k ps0 hk1
    have hkn : ¬ c1.objects.length = k := by omega
    have hkn2 : ¬ k = c1.objects.length := by omega
    have hkp : ¬ p = k := fun e => hk e.symm
    show props_at c5 k = _
    rw [hprops5, hprops4, if_neg hkp, hprops3, if_neg hkn, props_at_dup, hprops2, if_neg hkn2,
      hk1]

/-- What one registration of a constructor does to the module and the builder,
whatever the engine state. -/
theorem registration_exports
    (define_slow : JSContext → JSValue → String → JSValue → Nat → Int × JSContext)
    (JS_GetRuntime : Ptr → Nat) (arity : Nat) (b : ClassBuilder) (ctor_name : String)
    (w : BuilderWorld) (m : Module) (hm : w.modules.modules[b._module]? = some m) :
    ∃ ctor,
      (ClassBuilder.constructor define_slow JS_GetRuntime arity b ctor_name w).2.modules.declared
          = w.modules.declared ++ [(m._mod, b.cn ctor_name)]
      ∧ (ClassBuilder.constructor define_slow JS_GetRuntime arity b ctor_name w).2.modules.modules
          = w.modules.modules.set b._module
              { m with _exports := m._exports ++ [{ name := b.cn ctor_name, value := ctor }] }
      ∧ (ClassBuilder.constructor define_slow JS_GetRuntime arity b ctor_name
          w).2.modules.published = w.modules.published
      ∧ (ClassBuilder.constructor define_slow JS_GetRuntime arity b ctor_name w).1
          = { b with
              _proto := (ClassBuilder.constructor define_slow JS_GetRuntime arity b ctor_name
                w).1._proto }
      ∧ (JS_IsUndefined b._proto = false →
          (ClassBuilder.constructor define_slow JS_GetRuntime arity b ctor_name w).1._proto
            = b._proto)
      ∧ JS_IsUndefined
          (ClassBuilder.constructor define_slow JS_GetRuntime arity b ctor_name w).1._proto
          = false := by
  rcases h1 : (if JS_IsUndefined b._proto then JS_NewObject w.modules.ctx
      else (b._proto, w.modules.ctx)) with ⟨proto, c1⟩
  have hproto : (JS_IsUndefined b._proto = false → proto = b._proto)
      ∧ JS_IsUndefined proto = false := by
    by_cases hu : JS_IsUndefined b._proto = true
    · rw [if_pos hu] at h1
      constructor
      · intro hf
        rw [hf] at hu
        cases hu
      · unfold JS_NewObject at h1
        by_cases hoom : w.modules.ctx.out_of_memory = true
        · rw [if_pos hoom] at h1
          cases h1
          rfl
        · rw [if_neg hoom] at h1
          cases h1
          rfl
    · rw [if_neg hu] at h1
      cases h1
      have hf : JS_IsUndefined b._proto = false := by simpa using hu
      exact ⟨fun _ => rfl, hf⟩
  rcases hgoc : ClassBuilder.get_or_create_class_id JS_GetRuntime
      { b with _proto := proto } w.classes with ⟨class_id, classes1⟩
  rcases hfn : JS_NewCFunction2 c1 (b.cn ctor_name) arity with ⟨ctor, c2⟩
  rcases hdef1 : JS_DefinePropertyValue define_slow (JS_DupValue c2 proto) ctor "prototype" proto
      (JS_PROP_CONFIGURABLE ||| JS_PROP_WRITABLE) with ⟨code3, c3⟩
  rcases hdef2 : JS_DefinePropertyValue define_slow (JS_DupValue c3 ctor) proto "constructor" ctor
      (JS_PROP_CONFIGURABLE ||| JS_PROP_WRITABLE) with ⟨code4, c4⟩
  rcases hset : JS_SetClassProto w.class_proto (JS_DupValue c4 proto) class_id proto with
    ⟨class_proto1, c5⟩
  have hresult : ClassBuilder.constructor define_slow JS_GetRuntime arity b ctor_name w
      = ({ b with _proto := proto },
          { modules := Module.add_export b._module (b.cn ctor_name) ctor
              { w.modules with ctx := c5 },
            classes := classes1,
            holder := Function.update w.holder b.T class_id,
            class_proto := class_proto1 }) := by
    simp only [ClassBuilder.constructor, h1, hgoc, hfn, hdef1, hdef2, hset]
  rw [hresult]
  have hexp : Module.add_export b._module (b.cn ctor_name) ctor { w.modules with ctx := c5 }
      = { w.modules with
          ctx := c5,
          declared := w.modules.declared ++ [(m._mod, b.cn ctor_name)],
          modules := w.modules.modules.set b._module
            { m with _exports := m._exports ++ [{ name := b.cn ctor_name, value := ctor }] } } := by
    simp only [Module.add_export, hm]
  rw [hexp]
  exact ⟨ctor, rfl, rfl, rfl, rfl, hproto.1, hproto.2⟩

theorem constructors_cons
    (define_slow : JSContext → JSValue → String → JSValue → Nat → Int × JSContext)
    (JS_GetRuntime : Ptr → Nat) (reg : Nat × String) (regs : List (Nat × String))
    (b : ClassBuilder) (w : BuilderWorld) :
    ClassBuilder.constructors define_slow JS_GetRuntime (reg :: regs) b w
      = ClassBuilder.constructors define_slow JS_GetRuntime regs
          (ClassBuilder.constructor define_slow JS_GetRuntime reg.1 b reg.2 w).1
          (ClassBuilder.constructor define_slow JS_GetRuntime reg.1 b reg.2 w).2 := rfl

/-- Any number of registrations on a builder that holds its prototype `p`: the
module gets one export entry for each, in order and under the names `cn`, and
after all of them every one of these entries holds a function object whose
`prototype` is `p`. -/
theorem constructors_spec
    (define_slow : JSContext → JSValue → String → JSValue → Nat → Int × JSContext)
    (JS_GetRuntime : Ptr → Nat) (p : Nat) (regs : List (Nat × String)) :
    ∀ (b : ClassBuilder) (w : BuilderWorld) (m : Module),
      b._proto = .object p → proto_ready b w.modules.ctx →
      w.modules.modules[b._module]? = some m →
      ∃ entries,
        (ClassBuilder.constructors define_slow JS_GetRuntime regs b w).1._proto = .object p
        ∧ (ClassBuilder.constructors define_slow JS_GetRuntime regs b w).2.modules.modules[
            b._module]? = some { m with _exports := m._exports ++ entries }
        ∧ entries.map (fun e => e.name) = regs.map (fun reg => b.cn reg.2)
        ∧ (∀ e ∈ entries, exports_constructor_of p
            (ClassBuilder.constructors define_slow JS_GetRuntime regs b w).2.modules.ctx e)
        ∧ (∀ k ps0, k ≠ p → props_at w.modules.ctx k = some ps0 →
            props_at (ClassBuilder.constructors define_slow JS_GetRuntime regs b
              w).2.modules.ctx k = some ps0) := by
  induction regs with
  | nil =>
    intro b w m hp _ hm
    refine ⟨[], hp, ?_, rfl, ?_, fun k ps0 _ h => h⟩
    · show w.modules.modules[b._module]? = _
      rw [hm, List.append_nil]
    · intro e he
      cases he
  | cons reg regs ih =>
    intro b w m hp hready hm
    rw [constructors_cons]
    obtain ⟨p1, n, hproto1, hkeep1, hmods1, hprops1, hready1, hnp, hframe1⟩ :=
      constructor_spec define_slow JS_GetRuntime reg.1 b reg.2 w m hready hm
    obtain ⟨ctor, _, _, _, hb1, _, _⟩ :=
      registration_exports define_slow JS_GetRuntime reg.1 b reg.2 w m hm
    have hpp : p1 = p := by
      have h := hkeep1 (by rw [hp]; exact fun h => by cases h)
      rw [hp] at h
      cases h
      rfl
    subst hpp
    have hlen : b._module < w.modules.modules.length := by
      rcases Nat.lt_or_ge b._module w.modules.modules.length with h | h
      · exact h
      · rw [List.getElem?_eq_none h] at hm; cases hm
    have hmod1 : (ClassBuilder.constructor define_slow JS_GetRuntime reg.1 b reg.2 w).1._module
        = b._module := by rw [hb1]
    have hname1 : (ClassBuilder.constructor define_slow JS_GetRuntime reg.1 b reg.2 w).1._name
        = b._name := by rw [hb1]
    have hm1 : (ClassBuilder.constructor define_slow JS_GetRuntime reg.1 b reg.2
        w).2.modules.modules[
          (ClassBuilder.constructor define_slow JS_GetRuntime reg.1 b reg.2 w).1._module]?
        = some { m with
            _exports := m._exports ++ [{ name := b.cn reg.2, value := .object n }] } := by
      rw [hmod1, hmods1, List.getElem?_set_self hlen]
    obtain ⟨entries, hproto2, hmods2, hnames2, hall2, hframe2⟩ :=
      ih _ _ _ hproto1 hready1 hm1
    rw [hmod1] at hmods2
    refine ⟨{ name := b.cn reg.2, value := .object n } :: entries, hproto2, ?_, ?_, ?_, ?_⟩
    · rw [hmods2]
      simp
    · simp only [List.map_cons, hnames2]
      congr 1
    · intro e he
      rcases List.mem_cons.mp he with h | h
      · subst h
        refine ⟨n, _, rfl, hnp, hframe2 n _ hnp hprops1, ?_⟩
        simp
      · exact hall2 e h
    · intro k ps0 hk hk0
      exact hframe2 k ps0 hk (hframe1 k ps0 hk hk0)

/-- C24. A builder with class name `_name` on the module `m`. One call of
`constructor<Args...>(ctor_name)`, in any state: the export name `cn` is
`_name` when `ctor_name` is empty and `ctor_name` otherwise; exactly one name,
`cn`, is declared on the definition of the module; exactly one entry, named
`cn`, is appended to the export list of the module; a prototype the builder
already holds is kept, and afterwards the builder holds one. Any number of
chained calls on a builder whose prototype is in place (memory left; the
prototype not created yet, or an object whose `constructor` property can be
defined again): the builder holds one prototype object `p` throughout, the
export list gets one entry for each call, in order and under the names `cn`,
and every one of these entries holds a function object whose `prototype`
property is that same object `p`. -/
theorem constructor_export
    (define_slow : JSContext → JSValue → String → JSValue → Nat → Int × JSContext)
    (JS_GetRuntime : Ptr → Nat) (b : ClassBuilder) (w : BuilderWorld) (m : Module)
    (hm : w.modules.modules[b._module]? = some m) :
    (∀ (arity : Nat) (ctor_name : String),
      (ctor_name = "" → b.cn ctor_name = b._name)
      ∧ (ctor_name ≠ "" → b.cn ctor_name = ctor_name)
      ∧ ∃ ctor,
        (ClassBuilder.constructor define_slow JS_GetRuntime arity b ctor_name w).2.modules.declared
            = w.modules.declared ++ [(m._mod, b.cn ctor_name)]
        ∧ (ClassBuilder.constructor define_slow JS_GetRuntime arity b ctor_name
            w).2.modules.modules
            = w.modules.modules.set b._module
                { m with _exports := m._exports ++ [{ name := b.cn ctor_name, value := ctor }] }
        ∧ (JS_IsUndefined b._proto = false →
            (ClassBuilder.constructor define_slow JS_GetRuntime arity b ctor_name w).1._proto
              = b._proto)
        ∧ JS_IsUndefined
            (ClassBuilder.constructor define_slow JS_GetRuntime arity b ctor_name w).1._proto
            = false)
    ∧ (proto_ready b w.modules.ctx → ∀ regs : List (Nat × String), regs ≠ [] →
      ∃ p entries,
        (ClassBuilder.constructors define_slow JS_GetRuntime regs b w).1._proto = .object p
        ∧ (b._proto ≠ .undefined → b._proto = .object p)
        ∧ (ClassBuilder.constructors define_slow JS_GetRuntime regs b w).2.modules.modules[
            b._module]? = some { m with _exports := m._exports ++ entries }
        ∧ entries.map (fun e => e.name) = regs.map (fun reg => b.cn reg.2)
        ∧ ∀ e ∈ entries, exports_constructor_of p
            (ClassBuilder.constructors define_slow JS_GetRuntime regs b w).2.modules.ctx e) := by
  constructor
  · intro arity ctor_name
    obtain ⟨ctor, h1, h2, _, _, h5, h6⟩ :=
      registration_exports define_slow JS_GetRuntime arity b ctor_name w m hm
    refine ⟨?_, ?_, ctor, h1, h2, h5, h6⟩
    · intro h
      simp [ClassBuilder.cn, h]
    · intro h
      simp [ClassBuilder.cn, h]
  · intro hready regs hregs
    cases regs with
    | nil => exact absurd rfl hregs
    | cons reg regs =>
      rw [constructors_cons]
      obtain ⟨p, n, hproto1, hkeep1, hmods1, hprops1, hready1, hnp, _⟩ :=
        constructor_spec define_slow JS_GetRuntime reg.1 b reg.2 w m hready hm
      obtain ⟨ctor, _, _, _, hb1, _, _⟩ :=
        registration_exports define_slow JS_GetRuntime reg.1 b reg.2 w m hm
      have hlen : b._module < w.modules.modules.length := by
        rcases Nat.lt_or_ge b._module w.modules.modules.length with h | h
        · exact h
        · rw [List.getElem?_eq_none h] at hm; cases hm
      have hmod1 : (ClassBuilder.constructor define_slow JS_GetRuntime reg.1 b reg.2 w).1._module
          = b._module := by rw [hb1]
      have hm1 : (ClassBuilder.constructor define_slow JS_GetRuntime reg.1 b reg.2
          w).2.modules.modules[
            (ClassBuilder.constructor define_slow JS_GetRuntime reg.1 b reg.2 w).1._module]?
          = some { m with
              _exports := m._exports ++ [{ name := b.cn reg.2, value := .object n }] } := by
        rw [hmod1, hmods1, List.getElem?_set_self hlen]
      obtain ⟨entries, hproto2, hmods2, hnames2, hall2, hframe2⟩ :=
        constructors_spec define_slow JS_GetRuntime p regs _ _ _ hproto1 hready1 hm1
      rw [hmod1] at hmods2
      refine ⟨p, { name := b.cn reg.2, value := .object n } :: entries, hproto2, hkeep1, ?_, ?_,
        ?_⟩
      · rw [hmods2]
        simp
      · simp only [List.map_cons, hnames2]
        congr 1
      · intro e he
        rcases List.mem_cons.mp he with h | h
        · subst h
          refine ⟨n, _, rfl, hnp, hframe2 n _ hnp hprops1, ?_⟩
          simp
        · exact hall2 e h

/-- C24 on the registration of `examples/main.cpp`:
`add_class<TestClass>("TestClass").constructor<>()
.constructor<std::vector<int>>("TestClassWithVector")`. The first call exports
under `TestClass`, the second under `TestClassWithVector`; the module declares
these two names and its export list holds the function objects `1` and `2`,
whose `prototype` is the object `0`. -/
theorem constructor_export_witness :
    TestClass_builder.cn "" = "TestClass"
    ∧ TestClass_builder.cn "TestClassWithVector" = "TestClassWithVector"
    ∧ (∃ p entries,
        (ClassBuilder.constructors (fun c _ _ _ _ => (0, c)) (fun _ => 0)
          [(0, ""), (1, "TestClassWithVector")] TestClass_builder registration_world).1._proto
          = .object p
        ∧ (TestClass_builder._proto ≠ .undefined → TestClass_builder._proto = .object p)
        ∧ (ClassBuilder.constructors (fun c _ _ _ _ => (0, c)) (fun _ => 0)
          [(0, ""), (1, "TestClassWithVector")] TestClass_builder
          registration_world).2.modules.modules[TestClass_builder._module]?
          = some { _ctx := 1, _mod := 1, _name := "TestModule", _exports := [] ++ entries }
        ∧ entries.map (fun e => e.name)
          = [(0, ""), (1, "TestClassWithVector")].map (fun reg => TestClass_builder.cn reg.2)
        ∧ ∀ e ∈ entries, exports_constructor_of p
            (ClassBuilder.constructors (fun c _ _ _ _ => (0, c)) (fun _ => 0)
              [(0, ""), (1, "TestClassWithVector")] TestClass_builder
              registration_world).2.modules.ctx e)
    ∧ (ClassBuilder.constructors (fun c _ _ _ _ => (0, c)) (fun _ => 0)
        [(0, ""), (1, "TestClassWithVector")] TestClass_builder
        registration_world).2.modules.declared = [(1, "TestClass"), (1, "TestClassWithVector")]
    ∧ (ClassBuilder.constructors (fun c _ _ _ _ => (0, c)) (fun _ => 0)
        [(0, ""), (1, "TestClassWithVector")] TestClass_builder
        registration_world).2.modules.modules.map (fun m => m._exports)
        = [[{ name := "TestClass", value := .object 1 },
            { name := "TestClassWithVector", value := .object 2 }]] :=
  ⟨((constructor_export (fun c _ _ _ _ => (0, c)) (fun _ => 0) TestClass_builder
      registration_world { _ctx := 1, _mod := 1, _name := "TestModule", _exports := [] }
      rfl).1 0 "").1 rfl,
    ((constructor_export (fun c _ _ _ _ => (0, c)) (fun _ => 0) TestClass_builder
      registration_world { _ctx := 1, _mod := 1, _name := "TestModule", _exports := [] }
      rfl).1 1 "TestClassWithVector").2.1 (by decide),
    (constructor_export (fun c _ _ _ _ => (0, c)) (fun _ => 0) TestClass_builder
      registration_world { _ctx := 1, _mod := 1, _name := "TestModule", _exports := [] }
      rfl).2 ⟨rfl, Or.inl rfl⟩ [(0, ""), (1, "TestClassWithVector")] (by simp),
    by decide, by decide⟩

end js
